import Mathlib

/-!
# ERC-4337 API server: Operation pipeline

A shallow embedding of `src/erc4337/user_op.go` and `src/erc4337/handlers.go`.

* Go `[]byte` and Go `string` values are byte lists (`len` counts bytes).
* `*big.Int` is `Int`; a pointer that can be nil is an `Option`. Go's `int` has 64 bits.
* A Go function returning `(value, error)` returns a `Res`, which also records a
  run-time panic (nil dereference, index out of range) as `Res.crash`.
* A handler returns a `Run`: the responses it writes, the calls it issues to the network peers
  in order, and whether it ended in a panic. The peers are given by their answers (`Peers`).
* Functions of external libraries (go-ethereum, ethgo, stackup-bundler, Go's standard
  library) are modelled after their documented behaviour where that is simple and decides a
  property (hex text, addresses, ABI tuples, `strconv.Atoi`), and are parameters otherwise
  (`Lib`: Keccak-256, the decoders and the validation of `userop.New`, the signer). What is
  assumed of a parameter is stated as a structure of laws (`CodecLaws`, `SignShape`,
  `SignLaws`), and
  `refLib` is an instance that satisfies them.
* `MakeInitCode` and `getSenderAddressFromError` belong to the repository but not to the two
  files; they are modelled from the specification.
-/

namespace Erc4337

/-! ## Bytes and strings -/

/-- A Go byte. -/
abbrev Byte := Fin 256

/-- A Go byte slice or a Go string. -/
abbrev Bytes := List Byte

/-- The byte with value `n % 256`. -/
def byteOf (n : Nat) : Byte := ⟨n % 256, Nat.mod_lt _ (by decide)⟩

/-- The bytes of an ASCII literal. -/
def ascii (s : String) : Bytes := s.toList.map (fun c => byteOf c.toNat)

/-- Go `strings.HasPrefix(s, "0x")`. -/
def startsWith0x (s : Bytes) : Bool :=
  match s with
  | a :: b :: _ => a.val == 48 && b.val == 120
  | _ => false

/-- Go `strings.TrimPrefix(s, "0x")`. -/
def trimLeading0x (s : Bytes) : Bytes :=
  if startsWith0x s then s.drop 2 else s

/-- Go `strings.Trim(s, "\"")`: drops every leading and trailing double quote. -/
def trimQuotes (s : Bytes) : Bytes :=
  ((s.dropWhile (fun c => c.val == 34)).reverse.dropWhile (fun c => c.val == 34)).reverse

/-! ## Go `encoding/hex` -/

/-- The value of one hexadecimal digit (`0-9`, `a-f`, `A-F`), as in Go's reverse hex table. -/
def fromHexChar (c : Byte) : Option Nat :=
  if 48 ≤ c.val ∧ c.val ≤ 57 then some (c.val - 48)
  else if 97 ≤ c.val ∧ c.val ≤ 102 then some (c.val - 87)
  else if 65 ≤ c.val ∧ c.val ≤ 70 then some (c.val - 55)
  else none

/-- Go `hex.DecodeString`: `none` stands for an error (odd length or an invalid byte). -/
def hexDecodeString : Bytes → Option Bytes
  | [] => some []
  | [_] => none
  | p :: q :: rest =>
    match fromHexChar p, fromHexChar q with
    | some a, some b =>
      match hexDecodeString rest with
      | some t => some (byteOf (a * 16 + b) :: t)
      | none => none
    | _, _ => none

/-- The lower-case hexadecimal digit of a nibble (Go's `hextable`). -/
def hexChar (n : Nat) : Byte :=
  if n < 10 then byteOf (48 + n) else byteOf (87 + n)

/-- Go `hex.EncodeToString`. -/
def hexEncodeToString : Bytes → Bytes
  | [] => []
  | b :: rest => hexChar (b.val / 16) :: hexChar (b.val % 16) :: hexEncodeToString rest

/-- Go `strings.ToUpper` on one hexadecimal digit. -/
def upperHexChar (c : Byte) : Byte :=
  if 97 ≤ c.val ∧ c.val ≤ 122 then byteOf (c.val - 32) else c

/-! ## ethgo addresses -/

/-- An `ethgo.Address` (`[20]byte`). -/
structure Address where
  bytes : Bytes
  size : bytes.length = 20
deriving DecidableEq

/-- The zero address `ethgo.ZeroAddress`. -/
def ZeroAddress : Address := ⟨List.replicate 20 0, by decide⟩

/-- The helper `completeHex` of ethgo: strips a leading "0x", then left-pads with the digit
zero or keeps the last `2 * num` bytes, and puts "0x" in front again. -/
def completeHex (str : Bytes) (num : Nat) : Bytes :=
  let num := num * 2
  let str := trimLeading0x str
  let size := str.length
  if size < num then ascii "0x" ++ (List.replicate (num - size) (48 : Byte) ++ str)
  else ascii "0x" ++ str.drop (size - num)

/-- The helper `unmarshalTextByte` of ethgo: the decoded bytes, or `none` on error. -/
def unmarshalTextByte (src : Bytes) (size : Nat) : Option Bytes :=
  let str := trimQuotes src
  if startsWith0x str then
    match hexDecodeString (str.drop 2) with
    | some b => if b.length = size then some b else none
    | none => none
  else none

/-- The function `ethgo.HexToAddress`: on a decoding error the address stays zero. -/
def HexToAddress (str : Bytes) : Address :=
  match unmarshalTextByte (completeHex str 20) 20 with
  | some b => if h : b.length = 20 then ⟨b, h⟩ else ZeroAddress
  | none => ZeroAddress

/-- The `i`-th nibble of a hash, i.e. the value of the `i`-th digit of its hex encoding. -/
def hashNibble (hash : Bytes) (i : Nat) : Nat :=
  match hash.get? (i / 2) with
  | some b => if i % 2 = 0 then b.val / 16 else b.val % 16
  | none => 0

/-- The EIP-55 case rule: digit `i` of the lower-case text is upper-cased when nibble `i` of the
hash of that text is above 7. -/
def checksumCase (hash : Bytes) : Nat → Bytes → Bytes
  | _, [] => []
  | i, c :: rest =>
    (if 7 < hashNibble hash i then upperHexChar c else c) :: checksumCase hash (i + 1) rest

/-- The method `Address.String` (EIP-55 checksum encoding), for the Keccak-256 function
`keccak256`. -/
def Address.String (keccak256 : Bytes → Bytes) (a : Address) : Bytes :=
  let address := hexEncodeToString a.bytes
  ascii "0x" ++ checksumCase (keccak256 address) 0 address

/-! ## Parameter validation (`handlers.go`) -/

/-- The package variable `addrHexLength = len(ethgo.ZeroAddress.String())`. -/
def addrHexLength (keccak256 : Bytes → Bytes) : Nat :=
  (ZeroAddress.String keccak256).length

/-- The function `handleRequiredAddress`: `none` is the nil pointer. -/
def handleRequiredAddress (keccak256 : Bytes → Bytes) (addrHex : Bytes) : Option Address :=
  let addrHex := if ¬ startsWith0x addrHex then ascii "0x" ++ addrHex else addrHex
  if addrHex.length ≠ addrHexLength keccak256 then none
  else
    let addr := HexToAddress addrHex
    if addr ≠ ZeroAddress then some addr else none

/-- The value of a non-empty string of decimal digits; `none` for anything else. -/
def decimalDigits : Bytes → Option Nat
  | [] => none
  | s => s.foldl (fun acc c =>
      match acc with
      | some n => if 48 ≤ c.val ∧ c.val ≤ 57 then some (n * 10 + (c.val - 48)) else none
      | none => none) (some 0)

/-- An optional sign followed by decimal digits, the grammar shared by `strconv.Atoi` and
`big.Int.SetString(s, 10)`. -/
def signedDecimal (s : Bytes) : Option Int :=
  match s with
  | [] => none
  | c :: rest =>
    if c.val = 45 then
      match decimalDigits rest with
      | some n => some (- Int.ofNat n)
      | none => none
    else if c.val = 43 then
      match decimalDigits rest with
      | some n => some (Int.ofNat n)
      | none => none
    else
      match decimalDigits s with
      | some n => some (Int.ofNat n)
      | none => none

/-- Go `strconv.Atoi` where `int` has 64 bits: `none` stands for a syntax or range error. -/
def Atoi (s : Bytes) : Option Int :=
  match signedDecimal s with
  | some v => if -(2 : Int) ^ 63 ≤ v ∧ v < (2 : Int) ^ 63 then some v else none
  | none => none

/-- Go `new(big.Int).SetString(s, 10)`: `none` stands for `ok == false` (and a nil result). -/
def SetString10 (s : Bytes) : Option Int := signedDecimal s

/-- The function `handleRequiredSalt`: `none` is the nil pointer. -/
def handleRequiredSalt (salt : Bytes) : Option Int :=
  match Atoi salt with
  | some _salt => some _salt
  | none => none

/-! ## Results and big integers -/

/-- Go errors raised or passed on by the modelled code. -/
inductive Err where
  /-- ABI encoding failed. -/
  | encoding
  /-- The call `userop.New` rejected the field map. -/
  | invalidOp
  /-- The call `crypto.Sign` failed. -/
  | sign
  /-- The message "invalid signature size in user op" with the offending length. -/
  | invalidSignatureSize (n : Nat)
  /-- The call `wallet.Ecrecover` failed. -/
  | ecrecover
  /-- A network peer (chain node, relay, sponsor) reported an error. -/
  | rpc (code : Nat)
  /-- The call `getSenderAddressFromError` found no sender address. -/
  | resolution
  /-- The message "expected *big.Int for nonce return value". -/
  | unexpectedNonce
  /-- The request body did not bind to a send request. -/
  | bind
  /-- The message "op sender address does not match recovered sender address". -/
  | senderMismatch
  /-- The message "invalid or missing parameter(s)". -/
  | invalidParameters
deriving DecidableEq, Repr

/-- The outcome of a Go call returning `(value, error)`: a value, a non-nil error, or a
run-time panic. -/
inductive Res (α : Type) where
  | ok (a : α)
  | err (e : Err)
  | crash
deriving DecidableEq, Repr

/-- The two's-complement reading of the low 64 bits of `n` (a Go conversion to `int64`). -/
def wrapInt64 (n : Int) : Int :=
  let m := n % 2 ^ 64
  if m < 2 ^ 63 then m else m - 2 ^ 64

/-- Go `(*big.Int).Int64`: the low 64 bits of the magnitude as an `int64`, negated for a
negative receiver. -/
def bigInt64 (x : Int) : Int :=
  let v := wrapInt64 (x.natAbs % 2 ^ 64 : Nat)
  if x < 0 then wrapInt64 (-v) else v

/-- The `len` low-order bytes of `n`, big-endian. -/
def beBytes : Nat → Nat → Bytes
  | 0, _ => []
  | len + 1, n => beBytes len (n / 256) ++ [byteOf n]

/-- The value of a big-endian byte string. -/
def beNat (b : Bytes) : Nat := b.foldl (fun acc x => acc * 256 + x.val) 0

/-- The number of bytes of `n` without leading zeros (the length of `big.Int.Bytes`); `fuel`
bounds that number. -/
def byteLength : Nat → Nat → Nat
  | 0, _ => 0
  | fuel + 1, n => if n = 0 then 0 else byteLength fuel (n / 256) + 1

/-- The composite `common.LeftPadBytes(x.Bytes(), 32)` for a big integer `x`: the magnitude,
big-endian, on 32 bytes (or on as many as it needs when that is more). -/
def leftPadBig32 (x : Int) : Bytes :=
  beBytes (max 32 (byteLength x.natAbs x.natAbs)) x.natAbs

/-! ## ABI encoding (ethgo `abi`) -/

/-- The argument types used by the methods of `user_op.go`. -/
inductive AbiType where
  | address
  | uint256
  | bytes
deriving DecidableEq, Repr

/-- A Go value handed to the encoder. -/
inductive AbiValue where
  | address (a : Address)
  | big (n : Int)
  | bytes (b : Bytes)
deriving DecidableEq

/-- Whether the encoder accepts the value for the type. -/
def AbiValue.hasType : AbiValue → AbiType → Bool
  | .address _, .address => true
  | .big _, .uint256 => true
  | .bytes _, .bytes => true
  | _, _ => false

/-- The helper `toU256` of ethgo: a number outside the unsigned 256-bit range is reduced
modulo `2 ^ 256`. -/
def toU256 (n : Int) : Bytes := beBytes 32 (n % 2 ^ 256).toNat

/-- Zero bytes that fill `n` bytes up to the next multiple of 32. -/
def padTo32 (n : Nat) : Bytes := List.replicate ((32 - n % 32) % 32) 0

/-- The 32-byte head word of a static value, or the body of a dynamic one. -/
def AbiValue.body : AbiValue → Bytes
  | .address a => List.replicate 12 0 ++ a.bytes
  | .big n => toU256 n
  | .bytes b => toU256 b.length ++ b ++ padTo32 b.length

/-- Whether the value is encoded in the tail, behind an offset word. -/
def AbiValue.isDynamic : AbiValue → Bool
  | .bytes _ => true
  | _ => false

/-- The heads and tails of a tuple, for the running tail offset `offset`. -/
def encodeTupleAux : Nat → List AbiValue → Bytes × Bytes
  | _, [] => ([], [])
  | offset, v :: rest =>
    if v.isDynamic then
      let r := encodeTupleAux (offset + v.body.length) rest
      (toU256 offset ++ r.1, v.body ++ r.2)
    else
      let r := encodeTupleAux offset rest
      (v.body ++ r.1, r.2)

/-- The ABI encoding of a tuple: all heads, then all tails. -/
def encodeTuple (vs : List AbiValue) : Bytes :=
  let r := encodeTupleAux (32 * vs.length) vs
  r.1 ++ r.2

/-- An `abi.Method`: its canonical signature and input types. -/
structure Method where
  sig : Bytes
  inputs : List AbiType

/-- The method `Method.ID`: the first four bytes of the Keccak-256 hash of the signature. -/
def Method.ID (keccak256 : Bytes → Bytes) (m : Method) : Bytes := (keccak256 m.sig).take 4

/-- Whether the encoder takes the values for the input types: there is a value for every
input type, and the value at each position is accepted for the type at that position. Values
behind the last input type are not looked at. -/
def argsMatch : List AbiValue → List AbiType → Bool
  | _, [] => true
  | v :: vs, t :: ts => v.hasType t && argsMatch vs ts
  | [], _ :: _ => false

/-- The method `Method.Encode`: the selector followed by the encoding of the values that stand
at the positions of the input types; an error when there are fewer values than input types or
a value does not fit its type. -/
def Method.Encode (keccak256 : Bytes → Bytes) (m : Method) (args : List AbiValue) : Res Bytes :=
  if argsMatch args m.inputs then
    .ok (m.ID keccak256 ++ encodeTuple (args.take m.inputs.length))
  else .err .encoding

/-- The variable `abiExec`: "function execute(address to, uint256 value, bytes data)". -/
def abiExec : Method := ⟨ascii "execute(address,uint256,bytes)", [.address, .uint256, .bytes]⟩

/-- The variable `mintMethod`: "function mint(address sender, uint256 amount)". -/
def mintMethod : Method := ⟨ascii "mint(address,uint256)", [.address, .uint256]⟩

/-- The variable `approveMethod`: "function approve(address spender, uint256 amount)". -/
def approveMethod : Method := ⟨ascii "approve(address,uint256)", [.address, .uint256]⟩

/-- The variable `withdrawToMethod`: "function withdrawTo(address account, uint256 amount)". -/
def withdrawToMethod : Method := ⟨ascii "withdrawTo(address,uint256)", [.address, .uint256]⟩

/-- The variable `transferMethod`: "function transfer(address,uint256)". -/
def transferMethod : Method := ⟨ascii "transfer(address,uint256)", [.address, .uint256]⟩

/-- The function `makeExecute`. -/
def makeExecute (keccak256 : Bytes → Bytes) (toAddr : Address) (value : Int) (m : Method)
    (args : List AbiValue) : Res Bytes :=
  match m.Encode keccak256 args with
  | .ok enc => abiExec.Encode keccak256 [.address toAddr, .big value, .bytes enc]
  | .err e => .err e
  | .crash => .crash

/-! ## Operations (stackup-bundler `userop`) -/

/-- The struct `userop.UserOperation`. -/
structure UserOperation where
  sender : Address
  nonce : Int
  initCode : Bytes
  callData : Bytes
  callGasLimit : Int
  verificationGasLimit : Int
  preVerificationGas : Int
  maxFeePerGas : Int
  maxPriorityFeePerGas : Int
  paymasterAndData : Bytes
  signature : Bytes
deriving DecidableEq

/-- A Go value stored in a `map[string]any`: a string, a `*big.Int`, or any other value
(a JSON number, boolean, null, array or object), identified by a tag. -/
inductive Val where
  | str (s : Bytes)
  | big (n : Int)
  | other (tag : Nat)
deriving DecidableEq

/-- A Go `map[string]any`, as an association list read by `List.lookup`. -/
abbrev FieldMap := List (String × Val)

/-- The assignment `m[k] = v`. -/
def setKey (k : String) (v : Val) (m : FieldMap) : FieldMap :=
  (k, v) :: m.filter (fun p => p.1 != k)

/-- A key pair `chain.EcdsaKey`; the secret key is a number. -/
structure EcdsaKey where
  SK : Nat
deriving DecidableEq

/-- Functions and constants used by the modelled files whose code lies outside them: external
libraries, and the packages `crypto` and `chain` of the repository. -/
structure Lib where
  /-- Keccak-256. -/
  keccak256 : Bytes → Bytes
  /-- The decoding of a map value into an address by `userop.New`. -/
  decodeAddress : Val → Option Address
  /-- The decoding of a map value into a big integer by `userop.New`. -/
  decodeBig : Val → Option Int
  /-- The decoding of a map value into a byte slice by `userop.New`. -/
  decodeBytes : Val → Option Bytes
  /-- The struct validation at the end of `userop.New`. -/
  validate : UserOperation → Bool
  /-- The ABI packing of all fields of an Operation, which the canonical hash starts from. -/
  pack : UserOperation → Bytes
  /-- The function `crypto.EthSignedMessageHash`. -/
  EthSignedMessageHash : Bytes → Bytes
  /-- The function `crypto.Sign`. -/
  Sign : Nat → Bytes → Except Err Bytes
  /-- The function `wallet.Ecrecover` of ethgo. -/
  Ecrecover : Bytes → Bytes → Except Err Address
  /-- The address of a secret key (`EcdsaKey.Address`). -/
  keyAddress : Nat → Address
  /-- The constant `DefaultAccountFactory`. -/
  DefaultAccountFactory : Address
  /-- What `MakeInitCode` does when the salt is nil. -/
  initCodeNilSalt : Res Bytes

/-- Go `hexutil.Encode`. -/
def hexutilEncode (b : Bytes) : Bytes := ascii "0x" ++ hexEncodeToString b

/-- The hexadecimal digits of `n` without leading zeros, most significant first; `fuel` bounds
the number of digits. -/
def hexDigits : Nat → Nat → Bytes
  | 0, _ => []
  | fuel + 1, n => if n < 16 then [hexChar n] else hexDigits fuel (n / 16) ++ [hexChar (n % 16)]

/-- Go `hexutil.EncodeBig`. -/
def hexutilEncodeBig (n : Int) : Bytes :=
  if n = 0 then ascii "0x0"
  else if 0 < n then ascii "0x" ++ hexDigits n.natAbs n.natAbs
  else ascii "-0x" ++ hexDigits n.natAbs n.natAbs

/-- The method `UserOperation.ToMap`: the JSON form of the Operation, every value a string. -/
def UserOperation.ToMap (L : Lib) (op : UserOperation) : FieldMap :=
  [("sender", .str (op.sender.String L.keccak256)),
   ("nonce", .str (hexutilEncodeBig op.nonce)),
   ("initCode", .str (hexutilEncode op.initCode)),
   ("callData", .str (hexutilEncode op.callData)),
   ("callGasLimit", .str (hexutilEncodeBig op.callGasLimit)),
   ("verificationGasLimit", .str (hexutilEncodeBig op.verificationGasLimit)),
   ("preVerificationGas", .str (hexutilEncodeBig op.preVerificationGas)),
   ("maxFeePerGas", .str (hexutilEncodeBig op.maxFeePerGas)),
   ("maxPriorityFeePerGas", .str (hexutilEncodeBig op.maxPriorityFeePerGas)),
   ("paymasterAndData", .str (hexutilEncode op.paymasterAndData)),
   ("signature", .str (hexutilEncode op.signature))]

/-- The decoding step of `userop.New`: every field is read from the value stored under its own
name; a missing key or an undecodable value gives `none`. -/
def decodeFields (L : Lib) (data : FieldMap) : Option UserOperation :=
  match (data.lookup "sender").bind L.decodeAddress,
        (data.lookup "nonce").bind L.decodeBig,
        (data.lookup "initCode").bind L.decodeBytes,
        (data.lookup "callData").bind L.decodeBytes,
        (data.lookup "callGasLimit").bind L.decodeBig,
        (data.lookup "verificationGasLimit").bind L.decodeBig,
        (data.lookup "preVerificationGas").bind L.decodeBig,
        (data.lookup "maxFeePerGas").bind L.decodeBig,
        (data.lookup "maxPriorityFeePerGas").bind L.decodeBig,
        (data.lookup "paymasterAndData").bind L.decodeBytes,
        (data.lookup "signature").bind L.decodeBytes with
  | some sender, some nonce, some initCode, some callData, some callGasLimit,
    some verificationGasLimit, some preVerificationGas, some maxFeePerGas,
    some maxPriorityFeePerGas, some paymasterAndData, some signature =>
    some ⟨sender, nonce, initCode, callData, callGasLimit, verificationGasLimit,
      preVerificationGas, maxFeePerGas, maxPriorityFeePerGas, paymasterAndData, signature⟩
  | _, _, _, _, _, _, _, _, _, _, _ => none

/-- The function `userop.New`: decodes the field map, then validates the struct. -/
def New (L : Lib) (data : FieldMap) : Res UserOperation :=
  match decodeFields L data with
  | some op => if L.validate op then .ok op else .err .invalidOp
  | none => .err .invalidOp

/-- The method `PackForSignature`: the packing of the Operation with the signature emptied. -/
def PackForSignature (L : Lib) (op : UserOperation) : Bytes :=
  L.pack { op with signature := [] }

/-- The method `GetUserOpHash`: the canonical hash under an entry point and a chain id. -/
def GetUserOpHash (L : Lib) (op : UserOperation) (entryPoint : Address) (chainID : Int) :
    Bytes :=
  L.keccak256 (L.keccak256 (PackForSignature L op)
    ++ (List.replicate 12 0 ++ entryPoint.bytes) ++ leftPadBig32 chainID)

/-! ## Building Operations (`user_op.go`) -/

/-- The variable `DefaultEntryPoint`. -/
def DefaultEntryPoint : Address :=
  HexToAddress (ascii "0x5ff137d4b0fdcd49dca30c7cf57e578a026d2789")

/-- The variable `DefaultInitCodeGas`. -/
def DefaultInitCodeGas : Int := 300000

/-- The variable `DefaultMintGasLimit`. -/
def DefaultMintGasLimit : Int := 200000

/-- The variable `DefaultTransferGasLimit`. -/
def DefaultTransferGasLimit : Int := 200000

/-- The variable `DefaultApproveGasLimit`. -/
def DefaultApproveGasLimit : Int := 200000

/-- The variable `DefaultWithdrawToGasLimit`. -/
def DefaultWithdrawToGasLimit : Int := 200000

/-- The account factory method "createAccount(address,uint256)". -/
def createAccountMethod : Method := ⟨ascii "createAccount(address,uint256)", [.address, .uint256]⟩

/-- Modelled from the spec: the function `MakeInitCode`, whose code is not among the source
files. The init-code is the factory call that deploys the account: the factory address
followed by the encoded call `createAccount(owner, salt)`. The spec does not say what happens
for a nil salt; that outcome is the parameter `initCodeNilSalt`. -/
def MakeInitCode (L : Lib) (factory owner : Address) (salt : Option Int) : Res Bytes :=
  match salt with
  | none => L.initCodeNilSalt
  | some salt =>
    match createAccountMethod.Encode L.keccak256 [.address owner, .big salt] with
    | .ok enc => .ok (factory.bytes ++ enc)
    | .err e => .err e
    | .crash => .crash

/-- The function `makeBaseOp`. A nil `nonce` makes `nonce.Int64()` panic. -/
def makeBaseOp (L : Lib) (nonce : Option Int) (owner sender : Address) (salt : Option Int)
    (callGasLimit maxFeePerGas : Int) (callData : Bytes) : Res UserOperation :=
  match nonce with
  | none => .crash
  | some nonce =>
    let initCode : Res Bytes :=
      if bigInt64 nonce = 0 then MakeInitCode L L.DefaultAccountFactory owner salt else .ok []
    match initCode with
    | .err e => .err e
    | .crash => .crash
    | .ok initCode =>
      let vGasLimit : Int := 150000 + DefaultInitCodeGas
      let opData : FieldMap :=
        [("sender", .str (sender.String L.keccak256)),
         ("nonce", .big nonce),
         ("initCode", .str (hexutilEncode initCode)),
         ("callData", .str (hexutilEncode callData)),
         ("callGasLimit", .big callGasLimit),
         ("verificationGasLimit", .big vGasLimit),
         ("maxFeePerGas", .big maxFeePerGas),
         ("maxPriorityFeePerGas", .big maxFeePerGas),
         ("paymasterAndData", .str (ascii "0x")),
         ("preVerificationGas", .big 100000),
         ("signature", .str (ascii "0x00"))]
      New L opData

/-- The function `UserOpMint`. -/
def UserOpMint (L : Lib) (nonce : Option Int) (owner sender mintTargetAddr toAddr : Address)
    (salt : Option Int) (amt : Int) : Res UserOperation :=
  match makeExecute L.keccak256 mintTargetAddr 0 mintMethod [.address toAddr, .big amt] with
  | .err e => .err e
  | .crash => .crash
  | .ok callData =>
    makeBaseOp L nonce owner sender salt DefaultMintGasLimit 2000000000 callData

/-- The function `UserOpTransfer`. -/
def UserOpTransfer (L : Lib) (nonce : Option Int) (owner sender transferTargetAddr toAddr : Address)
    (salt : Option Int) (amt gas : Int) : Res UserOperation :=
  match makeExecute L.keccak256 transferTargetAddr 0 transferMethod
      [.address toAddr, .big amt] with
  | .err e => .err e
  | .crash => .crash
  | .ok callData => makeBaseOp L nonce owner sender salt DefaultTransferGasLimit gas callData

/-- The function `UserOpApprove`. -/
def UserOpApprove (L : Lib) (nonce : Option Int) (owner sender targetAddr spender : Address)
    (salt : Option Int) (amt : Int) : Res UserOperation :=
  match makeExecute L.keccak256 targetAddr 0 approveMethod [.address spender, .big amt] with
  | .err e => .err e
  | .crash => .crash
  | .ok callData =>
    makeBaseOp L nonce owner sender salt DefaultApproveGasLimit 2000000000 callData

/-- The function `UserOpWithdrawTo`. -/
def UserOpWithdrawTo (L : Lib) (nonce : Option Int) (owner sender targetAddr toAddr : Address)
    (salt : Option Int) (amt gas : Int) : Res UserOperation :=
  match makeExecute L.keccak256 targetAddr 0 withdrawToMethod [.address toAddr, .big amt] with
  | .err e => .err e
  | .crash => .crash
  | .ok callData => makeBaseOp L nonce owner sender salt DefaultWithdrawToGasLimit gas callData

/-! ## Sealing and recovery (`user_op.go`) -/

/-- The function `UserOpSeal`. A nil key makes `k.SK` panic, and so does a signature shorter
than 65 bytes at `sig[64] += 27`. -/
def UserOpSeal (L : Lib) (op : UserOperation) (chainId : Int) (k : Option EcdsaKey) :
    Res UserOperation :=
  let opHash := GetUserOpHash L op DefaultEntryPoint chainId
  let opEthHash := L.EthSignedMessageHash opHash
  match k with
  | none => .crash
  | some k =>
    match L.Sign k.SK opEthHash with
    | .error e => .err e
    | .ok sig =>
      match sig.get? 64 with
      | none => .crash
      | some v => .ok { op with signature := sig.set 64 (byteOf (v.val + 27)) }

/-- The three results of `UserOpEcrecover`. -/
structure Recovered where
  opHash : Bytes
  addr : Address
  err : Option Err
deriving DecidableEq

/-- The function `UserOpEcrecover`. -/
def UserOpEcrecover (L : Lib) (op : UserOperation) (chainId : Int) : Recovered :=
  let opHash := GetUserOpHash L op DefaultEntryPoint chainId
  let opEthHash := L.EthSignedMessageHash opHash
  if op.signature.length ≠ 65 then
    ⟨opHash, ZeroAddress, some (.invalidSignatureSize op.signature.length)⟩
  else
    let sig := op.signature
    let sig :=
      match sig.get? 64 with
      | some v => if 27 ≤ v.val then sig.set 64 (byteOf (v.val - 27)) else sig
      | none => sig
    match L.Ecrecover opEthHash sig with
    | .ok addr => ⟨opHash, addr, none⟩
    | .error e => ⟨opHash, ZeroAddress, some e⟩

/-! ## The handler context and its network peers (`handlers.go`) -/

/-- What the simulated call `EntryPoint.Call("getSenderAddress", ...)` reports: a revert that
carries a sender address, any other error, or no error at all. -/
inductive SenderAddressCall where
  | senderAddressResult (a : Address)
  | otherError (e : Err)
  | noError
deriving DecidableEq

/-- Modelled from the spec: the function `getSenderAddressFromError`, whose code is not among
the source files. The call is expected to revert with the sender address in its payload; any
other outcome, success included, is a resolution error. -/
def getSenderAddressFromError (r : SenderAddressCall) : Res Address :=
  match r with
  | .senderAddressResult a => .ok a
  | .otherError e => .err e
  | .noError => .err .resolution

/-- The answers of the network peers: the chain node with the entry point contract, the
sponsor service and the relay service. -/
structure Peers where
  /-- The call `EntryPoint.Call("getSenderAddress", ethgo.Latest, initCode)`. -/
  getSenderAddress : Bytes → SenderAddressCall
  /-- The call `EntryPoint.Call("getNonce", ...)`; `none` when the nonce is no `*big.Int`. -/
  getNonce : Address → Except Err (Option Int)
  /-- The call `chainRpc.Eth().GasPrice()`, a `uint64`. -/
  gasPrice : Except Err Nat
  /-- The call `pm_sponsorUserOperation` of the sponsor service. -/
  sponsor : FieldMap → Except Err FieldMap
  /-- The call `execution.SimulateHandleOp`. -/
  simulate : UserOperation → Except Err Unit
  /-- The call `eth_sendUserOperation` of the relay service; the answer is the reply string. -/
  sendUserOperation : FieldMap → Except Err Bytes
  /-- The transaction `handleOps` sent to the entry point and waited for. -/
  handleOps : FieldMap → Except Err Unit

/-- A call issued to a network peer. -/
inductive NetCall where
  | getSenderAddress (initCode : Bytes)
  | getNonce (sender : Address)
  | gasPrice
  | sponsor (opMap : FieldMap)
  | simulate (op : UserOperation)
  | sendUserOperation (opMap : FieldMap)
  | handleOps (opMap : FieldMap)
deriving DecidableEq

/-- The struct `HandlerContext`, with the answers of the peers behind its client handles. -/
structure HandlerContext where
  testContext : List (String × Bytes)
  peers : Peers
  ChainId : Int
  ChainKeyAddr : Address
  EcdsaKey : Option EcdsaKey
  simulateUserOp : Bool
  sendUserOpDirect : Bool

/-- A Go map read `m[k]` on a `map[string]string`: the empty string for a missing key. -/
def mapGet (m : List (String × Bytes)) (k : String) : Bytes :=
  (m.lookup k).getD []

/-- The method `getGasPrice`. -/
def getGasPrice (hc : HandlerContext) : Res Int × List NetCall :=
  match hc.peers.gasPrice with
  | .error e => (.err e, [.gasPrice])
  | .ok price => (.ok (wrapInt64 price), [.gasPrice])

/-- The method `getOwnerInfo`: the nonce (nil when the test context holds no number) and the
sender address, with the calls issued. -/
def getOwnerInfo (L : Lib) (hc : HandlerContext) (ownerAddr : Address) (salt : Option Int) :
    Res (Option Int × Address) × List NetCall :=
  if hc.testContext.length ≠ 0 then
    (.ok (SetString10 (mapGet hc.testContext "nonce"),
      HexToAddress (mapGet hc.testContext "sender")), [])
  else
    match MakeInitCode L L.DefaultAccountFactory ownerAddr salt with
    | .err e => (.err e, [])
    | .crash => (.crash, [])
    | .ok ownerInitCode =>
      match getSenderAddressFromError (hc.peers.getSenderAddress ownerInitCode) with
      | .err e => (.err e, [.getSenderAddress ownerInitCode])
      | .crash => (.crash, [.getSenderAddress ownerInitCode])
      | .ok senderAddr =>
        match hc.peers.getNonce senderAddr with
        | .error e => (.err e, [.getSenderAddress ownerInitCode, .getNonce senderAddr])
        | .ok none =>
          (.err .unexpectedNonce, [.getSenderAddress ownerInitCode, .getNonce senderAddr])
        | .ok (some nonce) =>
          (.ok (some nonce, senderAddr), [.getSenderAddress ownerInitCode, .getNonce senderAddr])

/-- The loop `for k, v := range pmResp { opMap[k] = v }`. -/
def mergeResponse (opMap pmResp : FieldMap) : FieldMap :=
  pmResp.foldl (fun m kv => setKey kv.1 kv.2 m) opMap

/-- The method `getPaymasterInfo`. When `userop.New` fails, `newOp` is nil and the assignment
`newOp.Signature = prevSignature` panics. -/
def getPaymasterInfo (L : Lib) (hc : HandlerContext) (userOp : UserOperation) :
    Res UserOperation × List NetCall :=
  let prevSignature := userOp.signature
  match UserOpSeal L userOp hc.ChainId hc.EcdsaKey with
  | .err e => (.err e, [])
  | .crash => (.crash, [])
  | .ok newOp =>
    let opMap := newOp.ToMap L
    match hc.peers.sponsor opMap with
    | .error e => (.err e, [.sponsor opMap])
    | .ok pmResp =>
      match New L (mergeResponse opMap pmResp) with
      | .ok merged => (.ok { merged with signature := prevSignature }, [.sponsor opMap])
      | .err _ => (.crash, [.sponsor opMap])
      | .crash => (.crash, [.sponsor opMap])

/-- The two results of `sendUserOp`. -/
structure Sent where
  reply : Bytes
  err : Option Err
deriving DecidableEq

/-- The method `sendUserOp`. A failed simulation is only logged. -/
def sendUserOp (L : Lib) (hc : HandlerContext) (userOp : UserOperation) :
    Sent × List NetCall :=
  let opMap := userOp.ToMap L
  let simulated : List NetCall := if hc.simulateUserOp then [.simulate userOp] else []
  let reply := hexutilEncode (GetUserOpHash L userOp DefaultEntryPoint hc.ChainId)
  if hc.sendUserOpDirect then
    match hc.peers.handleOps opMap with
    | .error e => (⟨reply, some e⟩, simulated ++ [.handleOps opMap])
    | .ok _ => (⟨reply, none⟩, simulated ++ [.handleOps opMap])
  else
    match hc.peers.sendUserOperation opMap with
    | .error e => (⟨reply, some e⟩, simulated ++ [.sendUserOperation opMap])
    | .ok r => (⟨r, none⟩, simulated ++ [.sendUserOperation opMap])

/-! ## The HTTP handlers (`handlers.go`) -/

/-- The body of a JSON response. -/
inductive Body where
  | senderInfo (nonce : Int) (sender : Bytes)
  | sender (sender : Bytes)
  | op (opJson : FieldMap)
  | opHash (reply : Bytes)
deriving DecidableEq

/-- A response written by a handler: `c.AbortWithError(status, err)` or `c.JSON(status, body)`. -/
inductive Reply where
  | abort (status : Nat) (e : Err)
  | json (status : Nat) (body : Body)
deriving DecidableEq

/-- What one request does: the responses written, the network calls issued, and whether the
handler ended in a run-time panic. -/
structure Run where
  replies : List Reply
  calls : List NetCall
  crashed : Bool
deriving DecidableEq

/-- The constant `http.StatusOK`. -/
def StatusOK : Nat := 200

/-- The constant `http.StatusBadRequest`. -/
def StatusBadRequest : Nat := 400

/-- The constant `http.StatusInternalServerError`. -/
def StatusInternalServerError : Nat := 500

/-- The query values of a request: `q.Get(name)` is empty for a missing parameter. -/
abbrev Query := String → Bytes

/-- The handler `HandleGetSenderInfo`. -/
def HandleGetSenderInfo (L : Lib) (hc : HandlerContext) (q : Query) : Run :=
  match handleRequiredAddress L.keccak256 (q "owner") with
  | none => ⟨[.abort StatusBadRequest .invalidParameters], [], false⟩
  | some ownerAddr =>
    let salt := handleRequiredSalt (q "salt")
    match getOwnerInfo L hc ownerAddr salt with
    | (.err e, calls) => ⟨[.abort StatusInternalServerError e], calls, false⟩
    | (.crash, calls) => ⟨[], calls, true⟩
    | (.ok (none, _), calls) => ⟨[], calls, true⟩
    | (.ok (some nonce, senderAddr), calls) =>
      ⟨[.json StatusOK (.senderInfo (bigInt64 nonce) (senderAddr.String L.keccak256))],
        calls, false⟩

/-- The handler `HandleGetSenderAddress`. The error of `MakeInitCode` is overwritten, so the
call goes out with a nil init-code. -/
def HandleGetSenderAddress (L : Lib) (hc : HandlerContext) (q : Query) : Run :=
  match handleRequiredAddress L.keccak256 (q "owner") with
  | none => ⟨[.abort StatusBadRequest .invalidParameters], [], false⟩
  | some ownerAddr =>
    let salt := handleRequiredSalt (q "salt")
    match MakeInitCode L L.DefaultAccountFactory ownerAddr salt with
    | .crash => ⟨[], [], true⟩
    | made =>
      let initCode : Bytes :=
        match made with
        | .ok initCode => initCode
        | _ => []
      match getSenderAddressFromError (hc.peers.getSenderAddress initCode) with
      | .err e => ⟨[.abort StatusInternalServerError e], [.getSenderAddress initCode], false⟩
      | .crash => ⟨[], [.getSenderAddress initCode], true⟩
      | .ok senderAddr =>
        ⟨[.json StatusOK (.sender (senderAddr.String L.keccak256))],
          [.getSenderAddress initCode], false⟩

/-- The handler `HandleUserOpApprove`. -/
def HandleUserOpApprove (L : Lib) (hc : HandlerContext) (q : Query) : Run :=
  let targetAddr := handleRequiredAddress L.keccak256 (q "target")
  let spenderAddr := handleRequiredAddress L.keccak256 (q "spender")
  let ownerAddr := handleRequiredAddress L.keccak256 (q "owner")
  let salt := handleRequiredSalt (q "salt")
  let amount := SetString10 (q "amount")
  match targetAddr, spenderAddr, ownerAddr, amount with
  | some targetAddr, some spenderAddr, some ownerAddr, some amount =>
    match getOwnerInfo L hc ownerAddr salt with
    | (.err e, calls) => ⟨[.abort StatusInternalServerError e], calls, false⟩
    | (.crash, calls) => ⟨[], calls, true⟩
    | (.ok (nonce, senderAddr), calls) =>
      match UserOpApprove L nonce ownerAddr senderAddr targetAddr spenderAddr salt amount with
      | .err e => ⟨[.abort StatusInternalServerError e], calls, false⟩
      | .crash => ⟨[], calls, true⟩
      | .ok op => ⟨[.json StatusOK (.op (op.ToMap L))], calls, false⟩
  | _, _, _, _ => ⟨[.abort StatusBadRequest .invalidParameters], [], false⟩

/-- The handler `HandleUserOpWithdrawTo`. -/
def HandleUserOpWithdrawTo (L : Lib) (hc : HandlerContext) (q : Query) : Run :=
  let targetAddr := handleRequiredAddress L.keccak256 (q "target")
  let toAddr := handleRequiredAddress L.keccak256 (q "to")
  let ownerAddr := handleRequiredAddress L.keccak256 (q "owner")
  let salt := handleRequiredSalt (q "salt")
  let amount := SetString10 (q "amount")
  match targetAddr, toAddr, ownerAddr, amount with
  | some targetAddr, some toAddr, some ownerAddr, some amount =>
    match getOwnerInfo L hc ownerAddr salt with
    | (.err e, calls) => ⟨[.abort StatusInternalServerError e], calls, false⟩
    | (.crash, calls) => ⟨[], calls, true⟩
    | (.ok (nonce, senderAddr), calls) =>
      match getGasPrice hc with
      | (.err e, calls2) => ⟨[.abort StatusInternalServerError e], calls ++ calls2, false⟩
      | (.crash, calls2) => ⟨[], calls ++ calls2, true⟩
      | (.ok gasPrice, calls2) =>
        match UserOpWithdrawTo L nonce ownerAddr senderAddr targetAddr toAddr salt amount
            gasPrice with
        | .err e => ⟨[.abort StatusInternalServerError e], calls ++ calls2, false⟩
        | .crash => ⟨[], calls ++ calls2, true⟩
        | .ok op =>
          match getPaymasterInfo L hc op with
          | (.err e, calls3) =>
            ⟨[.abort StatusInternalServerError e], calls ++ calls2 ++ calls3, false⟩
          | (.crash, calls3) => ⟨[], calls ++ calls2 ++ calls3, true⟩
          | (.ok op, calls3) =>
            ⟨[.json StatusOK (.op (op.ToMap L))], calls ++ calls2 ++ calls3, false⟩
  | _, _, _, _ => ⟨[.abort StatusBadRequest .invalidParameters], [], false⟩

/-- The handler `HandleUserOpTransfer`. -/
def HandleUserOpTransfer (L : Lib) (hc : HandlerContext) (q : Query) : Run :=
  let targetAddr := handleRequiredAddress L.keccak256 (q "target")
  let toAddr := handleRequiredAddress L.keccak256 (q "to")
  let ownerAddr := handleRequiredAddress L.keccak256 (q "owner")
  let salt := handleRequiredSalt (q "salt")
  let amount := SetString10 (q "amount")
  match targetAddr, toAddr, ownerAddr, amount with
  | some targetAddr, some toAddr, some ownerAddr, some amount =>
    match getOwnerInfo L hc ownerAddr salt with
    | (.err e, calls) => ⟨[.abort StatusInternalServerError e], calls, false⟩
    | (.crash, calls) => ⟨[], calls, true⟩
    | (.ok (nonce, senderAddr), calls) =>
      match getGasPrice hc with
      | (.err e, calls2) => ⟨[.abort StatusInternalServerError e], calls ++ calls2, false⟩
      | (.crash, calls2) => ⟨[], calls ++ calls2, true⟩
      | (.ok gasPrice, calls2) =>
        match UserOpTransfer L nonce ownerAddr senderAddr targetAddr toAddr salt amount
            gasPrice with
        | .err e => ⟨[.abort StatusInternalServerError e], calls ++ calls2, false⟩
        | .crash => ⟨[], calls ++ calls2, true⟩
        | .ok op =>
          match getPaymasterInfo L hc op with
          | (.err e, calls3) =>
            ⟨[.abort StatusInternalServerError e], calls ++ calls2 ++ calls3, false⟩
          | (.crash, calls3) => ⟨[], calls ++ calls2 ++ calls3, true⟩
          | (.ok op, calls3) =>
            match sendUserOp L hc op with
            | (⟨_, some e⟩, calls4) =>
              ⟨[.json StatusOK (.op (op.ToMap L)), .abort StatusInternalServerError e],
                calls ++ calls2 ++ calls3 ++ calls4, false⟩
            | (⟨reply, none⟩, calls4) =>
              ⟨[.json StatusOK (.op (op.ToMap L)), .json StatusOK (.opHash reply)],
                calls ++ calls2 ++ calls3 ++ calls4, false⟩
  | _, _, _, _ => ⟨[.abort StatusBadRequest .invalidParameters], [], false⟩

/-- The struct `userOpSendRequest`. -/
structure userOpSendRequest where
  EntryPointAddr : Bytes
  Op : FieldMap

/-- The handler `HandleUserOpSend`; `body` is `none` when the request does not bind. -/
def HandleUserOpSend (L : Lib) (hc : HandlerContext) (body : Option userOpSendRequest) : Run :=
  match body with
  | none => ⟨[.abort StatusBadRequest .bind], [], false⟩
  | some req =>
    match New L req.Op with
    | .err e => ⟨[.abort StatusInternalServerError e], [], false⟩
    | .crash => ⟨[], [], true⟩
    | .ok userOp =>
      let recovered := UserOpEcrecover L userOp hc.ChainId
      match recovered.err with
      | some e => ⟨[.abort StatusBadRequest e], [], false⟩
      | none =>
        match getOwnerInfo L hc recovered.addr (some 0) with
        | (.err e, calls) => ⟨[.abort StatusInternalServerError e], calls, false⟩
        | (.crash, calls) => ⟨[], calls, true⟩
        | (.ok (_, senderAddr), calls) =>
          if senderAddr.String L.keccak256 ≠ userOp.sender.String L.keccak256 then
            ⟨[.abort StatusBadRequest .senderMismatch], calls, false⟩
          else
            match sendUserOp L hc userOp with
            | (⟨_, some e⟩, calls2) =>
              ⟨[.abort StatusInternalServerError e], calls ++ calls2, false⟩
            | (⟨reply, none⟩, calls2) =>
              ⟨[.json StatusOK (.opHash reply)], calls ++ calls2, false⟩

/-! ## Notions used to state the properties -/

/-- A hexadecimal digit, in either case. -/
def IsHexDigit (c : Byte) : Prop :=
  (48 ≤ c.val ∧ c.val ≤ 57) ∨ (65 ≤ c.val ∧ c.val ≤ 70) ∨ (97 ≤ c.val ∧ c.val ≤ 102)

instance : DecidablePred IsHexDigit := fun c => by
  unfold IsHexDigit
  infer_instance

/-- The value of a hexadecimal digit. -/
def hexDigitValue (c : Byte) : Nat :=
  if c.val ≤ 57 then c.val - 48 else if c.val ≤ 70 then c.val - 55 else c.val - 87

/-- The number that a string of hexadecimal digits denotes. -/
def hexNumber (ds : Bytes) : Nat := ds.foldl (fun acc c => acc * 16 + hexDigitValue c) 0

/-- The text `s` with "0x" put in front when it does not start with "0x" already. -/
def with0x (s : Bytes) : Bytes := if startsWith0x s then s else ascii "0x" ++ s

/-- The last `n` bytes of a text. -/
def lastN (n : Nat) (s : Bytes) : Bytes := s.drop (s.length - n)

/-- The 20 bytes that the last 40 characters of the completed text denote. -/
def addressOfText (s : Bytes) : Bytes := beBytes 20 (hexNumber (lastN 40 (with0x s)))

/-- A well-formed address parameter: completed with "0x" it has 42 characters, the last 40 are
hexadecimal digits, and the 20 bytes they denote are not all zero. -/
def ValidAddressText (s : Bytes) : Prop :=
  (with0x s).length = 42 ∧ (∀ c ∈ lastN 40 (with0x s), IsHexDigit c) ∧
    addressOfText s ≠ List.replicate 20 0

instance : DecidablePred ValidAddressText := fun s => by
  unfold ValidAddressText
  infer_instance

/-- A decimal digit. -/
def IsDigit (c : Byte) : Prop := 48 ≤ c.val ∧ c.val ≤ 57

instance : DecidablePred IsDigit := fun c => by
  unfold IsDigit
  infer_instance

/-- The number that a string of decimal digits denotes. -/
def decimalNumber (ds : Bytes) : Nat := ds.foldl (fun acc c => acc * 10 + (c.val - 48)) 0

/-- The text without its leading sign, if it has one. -/
def unsignedPart (s : Bytes) : Bytes :=
  match s with
  | [] => []
  | c :: rest => if c.val = 45 ∨ c.val = 43 then rest else s

/-- A base-10 integer string: an optional sign followed by at least one decimal digit. -/
def IsBase10Text (s : Bytes) : Prop :=
  unsignedPart s ≠ [] ∧ ∀ c ∈ unsignedPart s, IsDigit c

instance : DecidablePred IsBase10Text := fun s => by
  unfold IsBase10Text
  infer_instance

/-- The integer that a base-10 integer string denotes. -/
def base10Value (s : Bytes) : Int :=
  match s with
  | [] => 0
  | c :: _ => if c.val = 45 then - (decimalNumber (unsignedPart s) : Int)
    else (decimalNumber (unsignedPart s) : Int)

/-- A value of a field of an Operation. -/
inductive FieldValue where
  | address (a : Address)
  | big (n : Int)
  | bytes (b : Bytes)
deriving DecidableEq

/-- The field of an Operation with the given (JSON) name. -/
def UserOperation.field (op : UserOperation) (name : String) : Option FieldValue :=
  if name = "sender" then some (.address op.sender)
  else if name = "nonce" then some (.big op.nonce)
  else if name = "initCode" then some (.bytes op.initCode)
  else if name = "callData" then some (.bytes op.callData)
  else if name = "callGasLimit" then some (.big op.callGasLimit)
  else if name = "verificationGasLimit" then some (.big op.verificationGasLimit)
  else if name = "preVerificationGas" then some (.big op.preVerificationGas)
  else if name = "maxFeePerGas" then some (.big op.maxFeePerGas)
  else if name = "maxPriorityFeePerGas" then some (.big op.maxPriorityFeePerGas)
  else if name = "paymasterAndData" then some (.bytes op.paymasterAndData)
  else if name = "signature" then some (.bytes op.signature)
  else none

/-- The assumptions on the decoders of `userop.New`: a raw `*big.Int` is taken as it is, and
the texts written by `Address.String`, `hexutil.EncodeBig` and `hexutil.Encode` decode to the
values they were written from. -/
structure CodecLaws (L : Lib) : Prop where
  address_string : ∀ a : Address, L.decodeAddress (.str (a.String L.keccak256)) = some a
  big_raw : ∀ n : Int, L.decodeBig (.big n) = some n
  big_string : ∀ n : Int, L.decodeBig (.str (hexutilEncodeBig n)) = some n
  bytes_string : ∀ b : Bytes, L.decodeBytes (.str (hexutilEncode b)) = some b

/-- The assumption on the signer: a signature made by `crypto.Sign` has 65 bytes, ends in a
recovery id of 0 or 1, and `wallet.Ecrecover` recovers the address of the signing key from it. -/
structure SignLaws (L : Lib) : Prop where
  sign_recover : ∀ (sk : Nat) (digest sig : Bytes), L.Sign sk digest = .ok sig →
    sig.length = 65 ∧ (∃ v : Byte, sig.get? 64 = some v ∧ v.val ≤ 1) ∧
      L.Ecrecover digest sig = .ok (L.keyAddress sk)

/-- The ABI word of an address. -/
def addressWord (a : Address) : Bytes := List.replicate 12 0 ++ a.bytes

/-- The ABI word of a number. -/
def numberWord (n : Nat) : Bytes := beBytes 32 n

/-- The ABI encoding of the call `name(a, amount)` of a method with the canonical signature
`sig`, of type `(address,uint256)`: selector, address word, amount word. -/
def callAddressAmount (keccak256 : Bytes → Bytes) (sig : String) (a : Address) (amount : Nat) :
    Bytes :=
  (keccak256 (ascii sig)).take 4 ++ addressWord a ++ numberWord amount

/-- The ABI encoding of the call `execute(target, value, inner)`: selector, address word,
value word, the offset 96 of the dynamic argument, its length, its bytes, and zero bytes up to
a multiple of 32. -/
def callExecute (keccak256 : Bytes → Bytes) (target : Address) (value : Nat) (inner : Bytes) :
    Bytes :=
  (keccak256 (ascii "execute(address,uint256,bytes)")).take 4 ++ addressWord target ++
    numberWord value ++ numberWord 96 ++ numberWord inner.length ++ inner ++
    List.replicate ((32 - inner.length % 32) % 32) 0

/-- Reads the arguments `(address, uint256)` back from the bytes behind a selector. -/
def readAddressAmount (body : Bytes) : Option (Bytes × Nat) :=
  if body.length = 64 ∧ body.take 12 = List.replicate 12 0 then
    some ((body.drop 12).take 20, beNat (body.drop 32))
  else none

/-- Reads the arguments `(address, uint256, bytes)` back from the bytes behind a selector. -/
def readExecute (body : Bytes) : Option (Bytes × Nat × Bytes) :=
  if body.take 12 = List.replicate 12 0 then
    let offset := beNat ((body.drop 64).take 32)
    let len := beNat ((body.drop offset).take 32)
    if offset + 32 + len ≤ body.length then
      some ((body.drop 12).take 20, beNat ((body.drop 32).take 32),
        (body.drop (offset + 32)).take len)
    else none
  else none

/-- The run of a handler that rejects the request as a bad request before any network call. -/
def badRequest : Run := ⟨[.abort StatusBadRequest .invalidParameters], [], false⟩

/-- Whether a call hands an Operation on for simulation, to the relay, or to the chain. -/
def NetCall.isDispatch : NetCall → Bool
  | .simulate _ => true
  | .sendUserOperation _ => true
  | .handleOps _ => true
  | _ => false

/-- The HTTP status of a response. -/
def Reply.status : Reply → Nat
  | .abort status _ => status
  | .json status _ => status

/-- The assumption on the shape of a signature made by `crypto.Sign`: it has 65 bytes and
ends in a recovery id of 0 or 1. -/
structure SignShape (L : Lib) : Prop where
  sign_shape : ∀ (sk : Nat) (digest sig : Bytes), L.Sign sk digest = .ok sig →
    sig.length = 65 ∧ ∃ v : Byte, sig.get? 64 = some v ∧ v.val ≤ 1

/-- The array `sig` of `UserOpEcrecover` as it is handed to `wallet.Ecrecover`: the signature
with 27 taken off its byte 64 when that byte is at least 27. -/
def recoverySignature (signature : Bytes) : Bytes :=
  match signature.get? 64 with
  | some v => if 27 ≤ v.val then signature.set 64 (byteOf (v.val - 27)) else signature
  | none => signature

/-- The Operation that a dispatch call carries: `simulate` takes the Operation itself, the
relay and the chain take its field map. -/
def NetCall.carries (L : Lib) (c : NetCall) (op : UserOperation) : Prop :=
  c = .simulate op ∨ c = .sendUserOperation (op.ToMap L) ∨ c = .handleOps (op.ToMap L)

/-! ## A reference instance of the library parameters -/

/-- A stand-in for Keccak-256: the first 32 bytes of the input, zero-padded. -/
def refKeccak (b : Bytes) : Bytes := (b ++ List.replicate 32 0).take 32

/-- The value of a non-empty string of hexadecimal digits. -/
def hexDigitsValue : Bytes → Option Nat
  | [] => none
  | s => s.foldl (fun acc c =>
      match acc, fromHexChar c with
      | some n, some d => some (n * 16 + d)
      | _, _ => none) (some 0)

/-- Reads a big integer written as an optional minus sign, "0x" and hexadecimal digits. -/
def parseHexBig (s : Bytes) : Option Int :=
  match s with
  | [] => none
  | c :: rest =>
    if c.val = 45 then
      if startsWith0x rest then
        match hexDigitsValue (rest.drop 2) with
        | some n => some (- Int.ofNat n)
        | none => none
      else none
    else if startsWith0x s then
      match hexDigitsValue (s.drop 2) with
      | some n => some (Int.ofNat n)
      | none => none
    else none

/-- The address decoder of the reference instance. -/
def refDecodeAddress : Val → Option Address
  | .str s => some (HexToAddress s)
  | _ => none

/-- The big integer decoder of the reference instance. -/
def refDecodeBig : Val → Option Int
  | .big n => some n
  | .str s => parseHexBig s
  | .other _ => none

/-- The byte slice decoder of the reference instance. -/
def refDecodeBytes : Val → Option Bytes
  | .str s => if startsWith0x s then hexDecodeString (s.drop 2) else none
  | _ => none

/-- The validation of the reference instance: a non-zero sender and no negative number. -/
def refValidate (op : UserOperation) : Bool :=
  decide (op.sender ≠ ZeroAddress ∧ 0 ≤ op.nonce ∧ 0 ≤ op.callGasLimit ∧
    0 ≤ op.verificationGasLimit ∧ 0 ≤ op.preVerificationGas ∧ 0 ≤ op.maxFeePerGas ∧
    0 ≤ op.maxPriorityFeePerGas)

/-- The packing of the reference instance: the ABI tuple of the eleven fields. -/
def refPack (op : UserOperation) : Bytes :=
  encodeTuple [.address op.sender, .big op.nonce, .bytes op.initCode, .bytes op.callData,
    .big op.callGasLimit, .big op.verificationGasLimit, .big op.preVerificationGas,
    .big op.maxFeePerGas, .big op.maxPriorityFeePerGas, .bytes op.paymasterAndData,
    .bytes op.signature]

/-- The prefixed message digest of the reference instance. -/
def refEthSignedMessageHash (h : Bytes) : Bytes :=
  refKeccak (byteOf 25 :: ascii "Ethereum Signed Message:" ++ byteOf 10 :: ascii "32" ++ h)

/-- The signer of the reference instance, a stand-in for ECDSA: the signature holds the first
32 bytes of the digest, twelve zero bytes, the 20 low-order bytes of the key, and the
recovery id 0. -/
def refSign (sk : Nat) (digest : Bytes) : Except Err Bytes :=
  .ok ((digest ++ List.replicate 32 0).take 32 ++ List.replicate 12 0 ++ beBytes 20 sk ++ [0])

/-- The key recovery of the reference instance: checks the digest and the recovery id, and
reads the 20 bytes of the key back. -/
def refEcrecover (digest sig : Bytes) : Except Err Address :=
  if h : ((sig.drop 44).take 20).length = 20 then
    if sig.take 32 = (digest ++ List.replicate 32 0).take 32 ∧ sig.drop 64 = [0] then
      .ok ⟨(sig.drop 44).take 20, h⟩
    else .error .ecrecover
  else .error .ecrecover

/-- The key address of the reference instance: the 20 low-order bytes of the key. -/
def refKeyAddress (sk : Nat) : Address := ⟨beBytes 20 sk, by simp [beBytes]⟩

/-- The reference instance of the library parameters. -/
def refLib : Lib where
  keccak256 := refKeccak
  decodeAddress := refDecodeAddress
  decodeBig := refDecodeBig
  decodeBytes := refDecodeBytes
  validate := refValidate
  pack := refPack
  EthSignedMessageHash := refEthSignedMessageHash
  Sign := refSign
  Ecrecover := refEcrecover
  keyAddress := refKeyAddress
  DefaultAccountFactory := HexToAddress (ascii "0x9406cc6185a346906296840746125a0e44976454")
  initCodeNilSalt := .err .encoding

/-! ## Concrete inputs -/

/-- An owner address. -/
def exampleOwner : Address := HexToAddress (ascii "0x00000000000000000000000000000000000000a1")

/-- An account (sender) address. -/
def exampleSender : Address := HexToAddress (ascii "0x00000000000000000000000000000000000000aa")

/-- A token contract address. -/
def exampleToken : Address := HexToAddress (ascii "0x00000000000000000000000000000000000000b2")

/-- A spender or recipient address. -/
def exampleSpender : Address := HexToAddress (ascii "0x00000000000000000000000000000000000000c3")

/-- An Operation with the placeholder signature. -/
def exampleOp : UserOperation :=
  { sender := exampleSender
    nonce := 3
    initCode := []
    callData := [1, 2, 3]
    callGasLimit := 200000
    verificationGasLimit := 450000
    preVerificationGas := 100000
    maxFeePerGas := 5
    maxPriorityFeePerGas := 5
    paymasterAndData := []
    signature := [0] }

/-- The Operation `exampleOp` sealed by the reference signer with the key 7 for the chain id
137. -/
def exampleSealed : UserOperation :=
  { exampleOp with
    signature := (refEthSignedMessageHash (GetUserOpHash refLib exampleOp DefaultEntryPoint 137)
      ++ List.replicate 32 0).take 32 ++ List.replicate 12 0 ++ beBytes 20 7 ++ [27] }

/-- The Operation that approves 1000 units of `exampleToken` for `exampleSpender`, built for
the nonce 3. -/
def exampleApproveOp : UserOperation :=
  { sender := exampleSender
    nonce := 3
    initCode := []
    callData := callExecute refKeccak exampleToken 0
      (callAddressAmount refKeccak "approve(address,uint256)" exampleSpender 1000)
    callGasLimit := 200000
    verificationGasLimit := 450000
    preVerificationGas := 100000
    maxFeePerGas := 2000000000
    maxPriorityFeePerGas := 2000000000
    paymasterAndData := []
    signature := [0] }

/-- The Operation that `makeBaseOp` builds for the nonce `2 ^ 64`. -/
def exampleHighNonceOp : UserOperation :=
  { sender := exampleSender
    nonce := 2 ^ 64
    initCode := refLib.DefaultAccountFactory.bytes ++
      ((refKeccak (ascii "createAccount(address,uint256)")).take 4 ++
        (addressWord exampleOwner ++ numberWord 0))
    callData := [1, 2, 3]
    callGasLimit := 200000
    verificationGasLimit := 450000
    preVerificationGas := 100000
    maxFeePerGas := 5
    maxPriorityFeePerGas := 5
    paymasterAndData := []
    signature := [0] }

/-- Peers that answer every call: the resolver returns `exampleSender` with the nonce 3, and
the sponsor returns paymaster data, a revised call gas limit and a signature of its own. -/
def examplePeers : Peers where
  getSenderAddress := fun _ => .senderAddressResult exampleSender
  getNonce := fun _ => .ok (some 3)
  gasPrice := .ok 5
  sponsor := fun _ => .ok [("paymasterAndData", .str (ascii "0xabcd")),
    ("callGasLimit", .str (ascii "0x30d41")), ("signature", .str (ascii "0x1234"))]
  simulate := fun _ => .ok ()
  sendUserOperation := fun _ => .ok (ascii "0x01")
  handleOps := fun _ => .ok ()

/-- A handler context for the chain id 137 whose relay key is 7. -/
def exampleContext : HandlerContext :=
  { testContext := []
    peers := examplePeers
    ChainId := 137
    ChainKeyAddr := refKeyAddress 7
    EcdsaKey := some ⟨7⟩
    simulateUserOp := false
    sendUserOpDirect := false }

/-- The Operation `exampleOp` after sponsorship by `examplePeers`. -/
def exampleSponsoredOp : UserOperation :=
  { exampleOp with paymasterAndData := [171, 205], callGasLimit := 200001 }

/-- A test context that fixes the nonce 3 and the sender `exampleSender`. -/
def exampleTestContext : HandlerContext :=
  { exampleContext with
    testContext := [("nonce", ascii "3"),
      ("sender", ascii "0x00000000000000000000000000000000000000aa")] }

/-- A test context that fixes the nonce 0 and the sender `exampleSender`. -/
def exampleFreshContext : HandlerContext :=
  { exampleContext with
    testContext := [("nonce", ascii "0"),
      ("sender", ascii "0x00000000000000000000000000000000000000aa")] }

/-- A request with well-formed addresses and amount and the given salt text. -/
def exampleQuery (salt : Bytes) : Query := fun name =>
  if name = "target" then ascii "0x00000000000000000000000000000000000000b2"
  else if name = "to" then ascii "0x00000000000000000000000000000000000000c3"
  else if name = "spender" then ascii "0x00000000000000000000000000000000000000c3"
  else if name = "owner" then ascii "00000000000000000000000000000000000000a1"
  else if name = "amount" then ascii "1000"
  else if name = "salt" then salt
  else []

/-- A context whose resolver returns `exampleToken` as the sender address of every owner. -/
def exampleMismatchContext : HandlerContext :=
  { exampleContext with
    peers := { examplePeers with getSenderAddress := fun _ => .senderAddressResult exampleToken } }

/-- A send request that carries `exampleSealed`, whose declared sender is `exampleSender`. -/
def exampleSendRequest : userOpSendRequest :=
  { EntryPointAddr := ascii "0x5ff137d4b0fdcd49dca30c7cf57e578a026d2789"
    Op := exampleSealed.ToMap refLib }

/-- The reference instance with a key recovery that only reports, as an error code, the
recovery id (byte 64) it was handed. -/
def probeLib : Lib :=
  { refLib with
    Ecrecover := fun _ sig =>
      match sig.get? 64 with
      | some v => .error (.rpc v.val)
      | none => .error .ecrecover }

/-- An Operation with a 65-byte signature whose last byte is 2. -/
def exampleOddIdOp : UserOperation :=
  { exampleOp with signature := List.replicate 64 1 ++ [2] }

/-- An Operation with a 65-byte signature whose last byte is 1. -/
def exampleLowIdOp : UserOperation :=
  { exampleOp with signature := List.replicate 64 1 ++ [1] }

/-- A context whose sponsor service fails. -/
def exampleFailingSponsorContext : HandlerContext :=
  { exampleTestContext with
    peers := { examplePeers with sponsor := fun _ => .error (.rpc 1) } }

/-- A context whose sponsor returns a nonce that is no number. -/
def exampleUnusableSponsorContext : HandlerContext :=
  { exampleTestContext with
    peers := { examplePeers with sponsor := fun _ => .ok [("nonce", .other 0)] } }

/-- The Operation that `userop/transfer` builds for `exampleQuery` in `exampleTestContext` and
hands to the relay after sponsorship by `examplePeers`. -/
def exampleTransferOp : UserOperation :=
  { sender := exampleSender
    nonce := 3
    initCode := []
    callData := callExecute refKeccak exampleToken 0
      (callAddressAmount refKeccak "transfer(address,uint256)" exampleSpender 1000)
    callGasLimit := 200001
    verificationGasLimit := 450000
    preVerificationGas := 100000
    maxFeePerGas := 5
    maxPriorityFeePerGas := 5
    paymasterAndData := [171, 205]
    signature := [0] }

/-! ## Lemmas: hexadecimal text and addresses -/

/-- The length of `beBytes len n` is `len`. -/
theorem beBytes_length (len n : Nat) : (beBytes len n).length = len := by
  induction len generalizing n with
  | zero => rfl
  | succ k ih => simp [beBytes, ih]

theorem startsWith0x_iff (s : Bytes) : startsWith0x s = true ↔ ∃ r, s = 48 :: 120 :: r := by
  unfold startsWith0x
  split
  · rename_i a b r
    simp only [Bool.and_eq_true, beq_iff_eq, List.cons.injEq]
    constructor
    · rintro ⟨h1, h2⟩
      exact ⟨r, Fin.ext h1, Fin.ext h2, rfl⟩
    · rintro ⟨r', h1, h2, _⟩
      subst h1 h2
      exact ⟨rfl, rfl⟩
  · rename_i h
    simp only [Bool.false_eq_true, false_iff, not_exists]
    intro r hr
    exact h _ _ _ hr

theorem ascii_0x : ascii "0x" = [48, 120] := by decide

theorem with0x_shape (s : Bytes) : ∃ r, with0x s = 48 :: 120 :: r := by
  unfold with0x
  split
  · rename_i h
    exact (startsWith0x_iff s).1 h
  · exact ⟨s, by rw [ascii_0x]; rfl⟩

theorem fromHexChar_eq_some (c : Byte) (n : Nat) (h : fromHexChar c = some n) :
    IsHexDigit c ∧ n = hexDigitValue c ∧ n < 16 := by
  unfold fromHexChar at h
  unfold IsHexDigit hexDigitValue
  split_ifs at h with h1 h2 h3 <;> simp only [Option.some.injEq, reduceCtorEq] at h <;>
    subst h <;> refine ⟨by omega, ?_, by omega⟩ <;> split_ifs <;> omega

theorem fromHexChar_of_isHexDigit (c : Byte) (h : IsHexDigit c) :
    fromHexChar c = some (hexDigitValue c) := by
  unfold IsHexDigit at h
  unfold fromHexChar hexDigitValue
  split_ifs <;> first | rfl | omega

theorem fromHexChar_eq_none (c : Byte) (h : fromHexChar c = none) : ¬ IsHexDigit c := by
  intro hc
  rw [fromHexChar_of_isHexDigit c hc] at h
  exact Option.noConfusion h

theorem hexNumber_cons2 (p q : Byte) (rest : Bytes) (acc : Nat) :
    List.foldl (fun acc c => acc * 16 + hexDigitValue c) acc (p :: q :: rest) =
      List.foldl (fun acc c => acc * 16 + hexDigitValue c)
        (acc * 256 + (hexDigitValue p * 16 + hexDigitValue q)) rest := by
  simp only [List.foldl_cons]
  congr 1
  ring

theorem byteOf_val_of_lt (n : Nat) (h : n < 256) : (byteOf n).val = n := by
  simp [byteOf, Nat.mod_eq_of_lt h]

/-- What a successful `hexDecodeString` says about its input. -/
theorem hexDecodeString_some (l b : Bytes) (h : hexDecodeString l = some b) :
    l.length = 2 * b.length ∧ (∀ c ∈ l, IsHexDigit c) ∧
      ∀ acc, List.foldl (fun acc c => acc * 16 + hexDigitValue c) acc l =
        List.foldl (fun acc x => acc * 256 + x.val) acc b := by
  induction l using hexDecodeString.induct generalizing b with
  | case1 =>
    simp only [hexDecodeString, Option.some.injEq] at h
    subst h
    simp
  | case2 c => simp [hexDecodeString] at h
  | case3 p q rest a d hq hp t ht ih =>
    simp only [hexDecodeString, hp, hq, ht, Option.some.injEq] at h
    subst h
    obtain ⟨h1, h2, h3⟩ := ih t ht
    obtain ⟨hp1, hp2, hp3⟩ := fromHexChar_eq_some p a hp
    obtain ⟨hq1, hq2, hq3⟩ := fromHexChar_eq_some q d hq
    refine ⟨by simp [h1]; omega, ?_, ?_⟩
    · intro c hc
      simp only [List.mem_cons] at hc
      rcases hc with rfl | rfl | hc
      · exact hp1
      · exact hq1
      · exact h2 c hc
    · intro acc
      rw [hexNumber_cons2, h3, List.foldl_cons, byteOf_val_of_lt _ (by omega), hp2, hq2]
  | case4 p q rest a d hq hp ht ih => simp [hexDecodeString, hp, hq, ht] at h
  | case5 p q rest hn =>
    simp only [hexDecodeString] at h
    exact Option.noConfusion h

/-- Hexadecimal digits in even number always decode. -/
theorem hexDecodeString_of_digits (l : Bytes) (n : Nat) (hlen : l.length = 2 * n)
    (hd : ∀ c ∈ l, IsHexDigit c) : ∃ b, hexDecodeString l = some b := by
  induction l using hexDecodeString.induct generalizing n with
  | case1 => exact ⟨[], rfl⟩
  | case2 c => simp at hlen; omega
  | case3 p q rest a d hq hp t ht ih =>
    exact ⟨byteOf (a * 16 + d) :: t, by simp only [hexDecodeString, hp, hq, ht]⟩
  | case4 p q rest a d hq hp ht ih =>
    have := ih (n - 1) (by simp at hlen; omega) (fun c hc => hd c (by simp [hc]))
    rw [ht] at this
    obtain ⟨b, hb⟩ := this
    exact Option.noConfusion hb
  | case5 p q rest hn =>
    exact absurd (fromHexChar_of_isHexDigit q (hd q (by simp)))
      (fun hq => hn _ _ (fromHexChar_of_isHexDigit p (hd p (by simp))) hq)

theorem beNat_snoc (acc : Nat) (b : Bytes) (x : Byte) :
    List.foldl (fun acc x => acc * 256 + x.val) acc (b ++ [x]) =
      List.foldl (fun acc x => acc * 256 + x.val) acc b * 256 + x.val := by
  simp [List.foldl_append]

/-- Writing the value of `k` bytes back on `k` bytes gives the same bytes. -/
theorem beBytes_beNat (b : Bytes) : beBytes b.length (beNat b) = b := by
  induction b using List.reverseRecOn with
  | nil => rfl
  | append_singleton init x ih =>
    have hx : x.val < 256 := x.isLt
    have hlen : (init ++ [x]).length = init.length + 1 := by simp
    rw [hlen]
    unfold beNat at ih ⊢
    rw [beNat_snoc, beBytes]
    have h1 : (List.foldl (fun acc x => acc * 256 + x.val) 0 init * 256 + x.val) / 256 =
        List.foldl (fun acc x => acc * 256 + x.val) 0 init := by omega
    have h2 : byteOf (List.foldl (fun acc x => acc * 256 + x.val) 0 init * 256 + x.val) = x := by
      apply Fin.ext
      simp only [byteOf]
      omega
    rw [h1, h2, ih]

/-- Reading `len` bytes written from `n` gives `n` modulo `256 ^ len`. -/
theorem beNat_beBytes (len n : Nat) : beNat (beBytes len n) = n % 256 ^ len := by
  induction len generalizing n with
  | zero => simp [beBytes, beNat, Nat.mod_one]
  | succ k ih =>
    unfold beNat at ih ⊢
    rw [beBytes, beNat_snoc, ih]
    simp only [byteOf]
    rw [pow_succ, Nat.mul_comm (256 ^ k) 256, Nat.mod_mul]
    ring

theorem trimQuotes_shape (ds : Bytes) :
    ∃ ds', trimQuotes (48 :: 120 :: ds) = 48 :: 120 :: ds' ∧ ds' <+: ds := by
  refine ⟨((ds.reverse).dropWhile (fun c => c.val == 34)).reverse, ?_, ?_⟩
  · unfold trimQuotes
    rw [List.dropWhile_cons_of_neg (by decide)]
    have h : (48 :: 120 :: ds : Bytes).reverse = ds.reverse ++ [120, 48] := by simp
    rw [h, List.dropWhile_append]
    split
    · rename_i he
      rw [List.isEmpty_iff] at he
      rw [he, List.dropWhile_cons_of_neg (by decide)]
      simp
    · simp
  · rw [← List.reverse_suffix, List.reverse_reverse]
    exact List.dropWhile_suffix _

theorem trimQuotes_of_digits (ds : Bytes) (hd : ∀ c ∈ ds, IsHexDigit c) :
    trimQuotes (48 :: 120 :: ds) = 48 :: 120 :: ds := by
  unfold trimQuotes
  rw [List.dropWhile_cons_of_neg (by decide)]
  have h : ∀ l : Bytes, (∀ c ∈ l, IsHexDigit c) →
      List.dropWhile (fun c : Byte => c.val == 34) (l ++ [120, 48]) = l ++ [120, 48] := by
    intro l hl
    cases l with
    | nil => rw [List.nil_append, List.dropWhile_cons_of_neg (by decide)]
    | cons c r =>
      have hc := hl c (by simp)
      rw [List.cons_append, List.dropWhile_cons_of_neg]
      unfold IsHexDigit at hc
      simp only [beq_iff_eq]
      omega
  have h2 : (48 :: 120 :: ds : Bytes).reverse = ds.reverse ++ [120, 48] := by simp
  rw [h2, h ds.reverse (fun c hc => hd c (List.mem_reverse.1 hc))]
  simp

theorem completeHex_full (ds : Bytes) (hlen : ds.length = 40) :
    completeHex (48 :: 120 :: ds) 20 = 48 :: 120 :: ds := by
  have h0 : startsWith0x (48 :: 120 :: ds) = true := (startsWith0x_iff _).2 ⟨ds, rfl⟩
  simp [completeHex, trimLeading0x, h0, hlen, ascii_0x]

/-- The bytes `HexToAddress` gives for "0x" and 40 hexadecimal digits. -/
theorem HexToAddress_of_digits (ds : Bytes) (hlen : ds.length = 40)
    (hd : ∀ c ∈ ds, IsHexDigit c) :
    (HexToAddress (48 :: 120 :: ds)).bytes = beBytes 20 (hexNumber ds) := by
  obtain ⟨b, hb⟩ := hexDecodeString_of_digits ds 20 (by omega) hd
  obtain ⟨h1, _, h3⟩ := hexDecodeString_some ds b hb
  have hb20 : b.length = 20 := by omega
  have h0 : startsWith0x (48 :: 120 :: ds) = true := (startsWith0x_iff _).2 ⟨ds, rfl⟩
  have hval : hexNumber ds = beNat b := h3 0
  have : HexToAddress (48 :: 120 :: ds) = ⟨b, hb20⟩ := by
    simp [HexToAddress, completeHex_full ds hlen, unmarshalTextByte,
      trimQuotes_of_digits ds hd, h0, hb, hb20]
  rw [this, hval, ← hb20, beBytes_beNat]

/-- When `HexToAddress` gives a non-zero address for "0x" and 40 bytes, all 40 are hexadecimal
digits. -/
theorem digits_of_HexToAddress_ne_zero (ds : Bytes) (hlen : ds.length = 40)
    (hne : HexToAddress (48 :: 120 :: ds) ≠ ZeroAddress) : ∀ c ∈ ds, IsHexDigit c := by
  obtain ⟨ds', hshape, hpre⟩ := trimQuotes_shape ds
  have h0 : startsWith0x (48 :: 120 :: ds') = true := (startsWith0x_iff _).2 ⟨ds', rfl⟩
  unfold HexToAddress at hne
  rw [completeHex_full ds hlen] at hne
  simp only [unmarshalTextByte, hshape, h0, if_true, List.drop_succ_cons, List.drop_zero] at hne
  cases hdec : hexDecodeString ds' with
  | none => simp [hdec] at hne
  | some b =>
    simp only [hdec] at hne
    by_cases hb : b.length = 20
    · obtain ⟨h1, h2, _⟩ := hexDecodeString_some ds' b hdec
      have : ds' = ds := hpre.eq_of_length (by omega)
      rw [← this]
      exact h2
    · simp [hb] at hne

theorem Address.eq_of_bytes {a b : Address} (h : a.bytes = b.bytes) : a = b := by
  cases a
  cases b
  simp only [Address.mk.injEq]
  exact h

theorem hexEncodeToString_length (b : Bytes) : (hexEncodeToString b).length = 2 * b.length := by
  induction b with
  | nil => rfl
  | cons x r ih => simp [hexEncodeToString, ih]; omega

theorem checksumCase_length (hash : Bytes) (i : Nat) (l : Bytes) :
    (checksumCase hash i l).length = l.length := by
  induction l generalizing i with
  | nil => rfl
  | cons c r ih => simp [checksumCase, ih]

theorem Address.String_length (kc : Bytes → Bytes) (a : Address) :
    (a.String kc).length = 42 := by
  simp [Address.String, ascii_0x, checksumCase_length, hexEncodeToString_length, a.size]

theorem addrHexLength_eq (kc : Bytes → Bytes) : addrHexLength kc = 42 :=
  Address.String_length kc ZeroAddress

/-- The function `handleRequiredAddress` accepts exactly the well-formed address texts, and
returns the bytes they denote. -/
theorem handleRequiredAddress_eq_some_iff (kc : Bytes → Bytes) (s : Bytes) (a : Address) :
    handleRequiredAddress kc s = some a ↔ ValidAddressText s ∧ a.bytes = addressOfText s := by
  obtain ⟨r, hr⟩ := with0x_shape s
  have hw : (if ¬ startsWith0x s = true then ascii "0x" ++ s else s) = with0x s := by
    unfold with0x
    split_ifs <;> rfl
  unfold handleRequiredAddress ValidAddressText addressOfText
  simp only [hw, addrHexLength_eq, hr]
  by_cases hlen : (48 :: 120 :: r : Bytes).length = 42
  · have hr40 : r.length = 40 := by simpa using hlen
    have hlast : lastN 40 (48 :: 120 :: r : Bytes) = r := by
      simp [lastN, hr40]
    simp only [hlen, hlast, ne_eq, not_true_eq_false, if_false, true_and]
    constructor
    · intro h
      split_ifs at h with hz
      simp only [Option.some.injEq] at h
      subst h
      have hd := digits_of_HexToAddress_ne_zero r hr40 hz
      have hb := HexToAddress_of_digits r hr40 hd
      refine ⟨⟨hd, ?_⟩, hb⟩
      intro hzero
      apply hz
      apply Address.eq_of_bytes
      rw [hb, hzero]
      rfl
    · rintro ⟨⟨hd, hnz⟩, hb⟩
      have hb2 := HexToAddress_of_digits r hr40 hd
      have hz : HexToAddress (48 :: 120 :: r) ≠ ZeroAddress := by
        intro hz
        apply hnz
        rw [← hb2, hz]
        rfl
      rw [if_pos hz]
      congr 1
      apply Address.eq_of_bytes
      rw [hb, hb2]
  · simp only [ne_eq, hlen, not_false_eq_true, if_true, false_and, reduceCtorEq]

theorem handleRequiredAddress_eq_none_iff (kc : Bytes → Bytes) (s : Bytes) :
    handleRequiredAddress kc s = none ↔ ¬ ValidAddressText s := by
  constructor
  · intro h hv
    have hlen : (addressOfText s).length = 20 := beBytes_length _ _
    have := (handleRequiredAddress_eq_some_iff kc s ⟨addressOfText s, hlen⟩).2 ⟨hv, rfl⟩
    rw [h] at this
    exact Option.noConfusion this
  · intro h
    cases hr : handleRequiredAddress kc s with
    | none => rfl
    | some a => exact absurd ((handleRequiredAddress_eq_some_iff kc s a).1 hr).1 h

theorem fromHexChar_hexChar (n : Fin 16) :
    fromHexChar (hexChar n.val) = some n.val ∧
      fromHexChar (upperHexChar (hexChar n.val)) = some n.val := by
  revert n
  decide

theorem hexDecodeString_checksumCase (hash : Bytes) (i : Nat) (bs : Bytes) :
    hexDecodeString (checksumCase hash i (hexEncodeToString bs)) = some bs := by
  induction bs generalizing i with
  | nil => rfl
  | cons b r ih =>
    have hb : b.val < 256 := b.isLt
    have h1 := fromHexChar_hexChar ⟨b.val / 16, by omega⟩
    have h2 := fromHexChar_hexChar ⟨b.val % 16, by omega⟩
    simp only at h1 h2
    have hbyte : byteOf (b.val / 16 * 16 + b.val % 16) = b := by
      apply Fin.ext
      simp only [byteOf]
      omega
    simp only [hexEncodeToString, checksumCase]
    split_ifs <;> simp only [hexDecodeString, h1, h2, ih, hbyte]

/-- Reading the text of an address back gives the address. -/
theorem HexToAddress_String (kc : Bytes → Bytes) (a : Address) :
    HexToAddress (a.String kc) = a := by
  have hdec := hexDecodeString_checksumCase (kc (hexEncodeToString a.bytes)) 0 a.bytes
  obtain ⟨h1, h2, h3⟩ := hexDecodeString_some _ _ hdec
  have hs : a.String kc =
      48 :: 120 :: checksumCase (kc (hexEncodeToString a.bytes)) 0 (hexEncodeToString a.bytes) := by
    simp [Address.String, ascii_0x]
  apply Address.eq_of_bytes
  rw [hs, HexToAddress_of_digits _ (by rw [h1, a.size]) h2]
  have : hexNumber (checksumCase (kc (hexEncodeToString a.bytes)) 0 (hexEncodeToString a.bytes))
      = beNat a.bytes := h3 0
  rw [this, ← a.size, beBytes_beNat]

/-- Different addresses have different texts. -/
theorem Address.String_injective (kc : Bytes → Bytes) (a b : Address)
    (h : a.String kc = b.String kc) : a = b := by
  rw [← HexToAddress_String kc a, ← HexToAddress_String kc b, h]

/-! ## Lemmas: the reference instance -/

theorem hexDecodeString_hexEncodeToString (bs : Bytes) :
    hexDecodeString (hexEncodeToString bs) = some bs := by
  induction bs with
  | nil => rfl
  | cons b r ih =>
    have hb : b.val < 256 := b.isLt
    have h1 := (fromHexChar_hexChar ⟨b.val / 16, by omega⟩).1
    have h2 := (fromHexChar_hexChar ⟨b.val % 16, by omega⟩).1
    simp only at h1 h2
    have hbyte : byteOf (b.val / 16 * 16 + b.val % 16) = b := by
      apply Fin.ext
      simp only [byteOf]
      omega
    simp only [hexEncodeToString, hexDecodeString, h1, h2, ih, hbyte]

theorem hexDigits_value (fuel n : Nat) (hfuel : 0 < fuel) (hn : n < 16 ^ fuel) :
    hexDigits fuel n ≠ [] ∧
      List.foldl (fun (acc : Option Nat) c =>
        match acc, fromHexChar c with
        | some n, some d => some (n * 16 + d)
        | _, _ => none) (some 0) (hexDigits fuel n) = some n := by
  induction fuel generalizing n with
  | zero => omega
  | succ f ih =>
    unfold hexDigits
    split_ifs with h16
    · have h1 := (fromHexChar_hexChar ⟨n, h16⟩).1
      simp only at h1
      simp [h1]
    · have hf : 0 < f := by
        rcases Nat.eq_zero_or_pos f with h0 | h0
        · subst h0
          simp at hn
          omega
        · exact h0
      have hdiv : n / 16 < 16 ^ f := by
        rw [pow_succ] at hn
        exact Nat.div_lt_of_lt_mul (by rw [Nat.mul_comm]; exact hn)
      obtain ⟨_, h2⟩ := ih (n / 16) hf hdiv
      have h1 := (fromHexChar_hexChar ⟨n % 16, by omega⟩).1
      simp only at h1
      refine ⟨by simp, ?_⟩
      rw [List.foldl_append, h2]
      simp only [List.foldl_cons, List.foldl_nil, h1, Option.some.injEq]
      omega

theorem hexDigitsValue_hexDigits (n : Nat) (hn : 0 < n) :
    hexDigitsValue (hexDigits n n) = some n := by
  obtain ⟨h1, h2⟩ := hexDigits_value n n hn (Nat.lt_pow_self (by decide) n)
  unfold hexDigitsValue
  split
  · rename_i heq
    exact absurd heq h1
  · exact h2

theorem parseHexBig_hexutilEncodeBig (n : Int) : parseHexBig (hexutilEncodeBig n) = some n := by
  unfold hexutilEncodeBig
  split_ifs with h0 hpos
  · subst h0
    decide
  · have hk : 0 < n.natAbs := Int.natAbs_pos.2 h0
    have hs : startsWith0x (48 :: 120 :: hexDigits n.natAbs n.natAbs) = true :=
      (startsWith0x_iff _).2 ⟨_, rfl⟩
    rw [ascii_0x]
    simp only [parseHexBig, List.cons_append, List.nil_append, hs, if_true, List.drop_succ_cons,
      List.drop_zero, hexDigitsValue_hexDigits _ hk]
    rw [if_neg (by decide)]
    have : Int.ofNat n.natAbs = n := Int.natAbs_of_nonneg (le_of_lt hpos)
    rw [this]
  · have hk : 0 < n.natAbs := Int.natAbs_pos.2 h0
    have hs : startsWith0x (48 :: 120 :: hexDigits n.natAbs n.natAbs) = true :=
      (startsWith0x_iff _).2 ⟨_, rfl⟩
    have ha : ascii "-0x" = [45, 48, 120] := by decide
    rw [ha]
    simp only [parseHexBig, List.cons_append, List.nil_append, hs, if_true, List.drop_succ_cons,
      List.drop_zero, hexDigitsValue_hexDigits _ hk]
    rw [if_pos (by decide)]
    have : - Int.ofNat n.natAbs = n := by
      have : Int.ofNat n.natAbs = ((n.natAbs : Nat) : Int) := rfl
      omega
    rw [this]

/-- The reference instance satisfies the assumptions on the decoders. -/
theorem refLib_codecLaws : CodecLaws refLib where
  address_string a := by
    show refDecodeAddress (.str (a.String refKeccak)) = some a
    simp only [refDecodeAddress, HexToAddress_String]
  big_raw n := rfl
  big_string n := parseHexBig_hexutilEncodeBig n
  bytes_string b := by
    show refDecodeBytes (.str (hexutilEncode b)) = some b
    have hs : startsWith0x (48 :: 120 :: hexEncodeToString b) = true :=
      (startsWith0x_iff _).2 ⟨_, rfl⟩
    simp only [refDecodeBytes, hexutilEncode, ascii_0x, List.cons_append, List.nil_append, hs,
      if_true, List.drop_succ_cons, List.drop_zero, hexDecodeString_hexEncodeToString]

/-- The reference instance satisfies the assumption on the signer. -/
theorem refLib_signLaws : SignLaws refLib where
  sign_recover sk digest sig h := by
    have h : refSign sk digest = .ok sig := h
    simp only [refSign, Except.ok.injEq] at h
    have hA : ((digest ++ List.replicate 32 0).take 32).length = 32 := by
      simp [List.length_take]
    have hC : (beBytes 20 sk).length = 20 := beBytes_length 20 sk
    subst h
    refine ⟨by simp [hA, hC], ⟨0, ?_, by decide⟩, ?_⟩
    · rw [List.get?_eq_getElem?, List.getElem?_append_right (by simp [hA, hC])]
      simp [hA, hC]
    · show refEcrecover digest _ = .ok (refKeyAddress sk)
      have h44 : List.drop 44 ((digest ++ List.replicate 32 0).take 32 ++ List.replicate 12 0
          ++ beBytes 20 sk ++ [0]) = beBytes 20 sk ++ [0] := by
        rw [List.append_assoc]
        exact List.drop_left' (by simp [hA])
      have h64 : List.drop 64 ((digest ++ List.replicate 32 0).take 32 ++ List.replicate 12 0
          ++ beBytes 20 sk ++ [0]) = [0] :=
        List.drop_left' (by simp [hA, hC])
      have h32 : List.take 32 ((digest ++ List.replicate 32 0).take 32 ++ List.replicate 12 0
          ++ beBytes 20 sk ++ [0]) = (digest ++ List.replicate 32 0).take 32 := by
        rw [List.append_assoc, List.append_assoc]
        exact List.take_left' hA
      have h20 : List.take 20 (beBytes 20 sk ++ [0]) = beBytes 20 sk := List.take_left' hC
      unfold refEcrecover
      simp only [h44, h64, h32, h20, hC, dite_true, and_self, if_true]
      rfl

/-! ## Sealing and recovery -/

theorem set_get?_self_eq {α : Type} (l : List α) (i : Nat) (v : α) (h : l.get? i = some v) :
    l.set i v = l := by
  apply List.ext_getElem?
  intro j
  rw [List.getElem?_set]
  rw [List.get?_eq_getElem?] at h
  split_ifs with h1 h2
  · subst h1
    exact h.symm
  · subst h1
    rw [List.getElem?_eq_none (by omega)] at h
    exact Option.noConfusion h
  · rfl

theorem GetUserOpHash_signature (L : Lib) (op : UserOperation) (sig : Bytes) (ep : Address)
    (cid : Int) :
    GetUserOpHash L { op with signature := sig } ep cid = GetUserOpHash L op ep cid := rfl

/-- C1. Seal/recover round trip: when `UserOpSeal` succeeds on an Operation with a key and a
chain id, `UserOpEcrecover` on the sealed Operation with the same chain id returns no error
and the address of that key, and the hash it computes over the sealed Operation is the hash
of the Operation before sealing (the one that was signed). The signer is assumed to satisfy
`SignLaws`. -/
theorem seal_recover_round_trip (L : Lib) (hL : SignLaws L) (op sealed : UserOperation)
    (cid : Int) (k : Option EcdsaKey) (hseal : UserOpSeal L op cid k = .ok sealed) :
    (UserOpEcrecover L sealed cid).err = none ∧
      (∃ key, k = some key ∧ (UserOpEcrecover L sealed cid).addr = L.keyAddress key.SK) ∧
      (UserOpEcrecover L sealed cid).opHash = GetUserOpHash L op DefaultEntryPoint cid := by
  unfold UserOpSeal at hseal
  cases k with
  | none => simp at hseal
  | some key =>
    simp only at hseal
    cases hsign : L.Sign key.SK (L.EthSignedMessageHash (GetUserOpHash L op DefaultEntryPoint cid))
      with
    | error e => simp [hsign] at hseal
    | ok sig =>
      obtain ⟨hlen, ⟨v, hv, hv1⟩, hrec⟩ := hL.sign_recover _ _ _ hsign
      simp only [hsign, hv, Res.ok.injEq] at hseal
      subst hseal
      have hget : (sig.set 64 (byteOf (v.val + 27))).get? 64 = some (byteOf (v.val + 27)) := by
        rw [List.get?_eq_getElem?, List.getElem?_set]
        simp [hlen]
      have hval : (byteOf (v.val + 27)).val = v.val + 27 := byteOf_val_of_lt _ (by omega)
      have hback : byteOf (v.val + 27 - 27) = v := by
        apply Fin.ext
        rw [byteOf_val_of_lt _ (by omega)]
        omega
      have hsig : (sig.set 64 (byteOf (v.val + 27))).set 64 v = sig := by
        rw [List.set_set, set_get?_self_eq sig 64 v hv]
      have hrun : UserOpEcrecover L { op with signature := sig.set 64 (byteOf (v.val + 27)) } cid
          = ⟨GetUserOpHash L op DefaultEntryPoint cid, L.keyAddress key.SK, none⟩ := by
        simp only [UserOpEcrecover, GetUserOpHash_signature, List.length_set, hlen, ne_eq,
          not_true_eq_false, if_false, hget, hval, Nat.le_add_left, if_true, hback, hsig, hrec]
      rw [hrun]
      exact ⟨rfl, ⟨key, rfl, rfl⟩, rfl⟩

/-- Witness for C1: the reference signer seals `exampleOp` with the key 7, and recovery gives
the address of the key 7. -/
theorem seal_recover_round_trip_witness :
    UserOpSeal refLib exampleOp 137 (some ⟨7⟩) = .ok exampleSealed ∧
      (UserOpEcrecover refLib exampleSealed 137).addr = refKeyAddress 7 := by
  have h : UserOpSeal refLib exampleOp 137 (some ⟨7⟩) = .ok exampleSealed := by decide
  obtain ⟨_, ⟨key, hk, hkey⟩, _⟩ := seal_recover_round_trip refLib refLib_signLaws _ _ 137 _ h
  cases hk
  exact ⟨h, hkey⟩

/-! ## Building Operations -/

theorem hexutilEncode_nil : ascii "0x" = hexutilEncode [] := by decide

theorem hexutilEncode_zero : ascii "0x00" = hexutilEncode [0] := by decide

/-- The Operation that `makeBaseOp` returns, field by field. -/
theorem makeBaseOp_ok (L : Lib) (hL : CodecLaws L) (nonce : Int) (owner sender : Address)
    (salt : Option Int) (callGasLimit maxFeePerGas : Int) (callData : Bytes)
    (op : UserOperation)
    (h : makeBaseOp L (some nonce) owner sender salt callGasLimit maxFeePerGas callData = .ok op) :
    ∃ initCode,
      (if bigInt64 nonce = 0 then MakeInitCode L L.DefaultAccountFactory owner salt else .ok [])
        = .ok initCode ∧
      op = ⟨sender, nonce, initCode, callData, callGasLimit, 150000 + DefaultInitCodeGas, 100000,
        maxFeePerGas, maxFeePerGas, [], [0]⟩ := by
  unfold makeBaseOp at h
  simp only at h
  cases hi : (if bigInt64 nonce = 0 then MakeInitCode L L.DefaultAccountFactory owner salt
      else Res.ok []) with
  | err e => rw [hi] at h; simp at h
  | crash => rw [hi] at h; simp at h
  | ok initCode =>
    rw [hi] at h
    refine ⟨initCode, rfl, ?_⟩
    simp only [New, decodeFields, List.lookup, hexutilEncode_nil, hexutilEncode_zero,
      String.reduceBEq, Option.bind, hL.address_string, hL.big_raw, hL.bytes_string] at h
    split_ifs at h
    simp only [Res.ok.injEq] at h
    exact h.symm

/-- What `makeBaseOp` returns once the init-code step has given `initCode`: the Operation with
the fields it was called with, when `userop.New` validates it. -/
theorem makeBaseOp_eq (L : Lib) (hL : CodecLaws L) (nonce : Int) (owner sender : Address)
    (salt : Option Int) (callGasLimit maxFeePerGas : Int) (callData initCode : Bytes)
    (hi : (if bigInt64 nonce = 0 then MakeInitCode L L.DefaultAccountFactory owner salt
      else .ok []) = .ok initCode) :
    makeBaseOp L (some nonce) owner sender salt callGasLimit maxFeePerGas callData =
      if L.validate ⟨sender, nonce, initCode, callData, callGasLimit, 150000 + DefaultInitCodeGas,
          100000, maxFeePerGas, maxFeePerGas, [], [0]⟩ then
        .ok ⟨sender, nonce, initCode, callData, callGasLimit, 150000 + DefaultInitCodeGas,
          100000, maxFeePerGas, maxFeePerGas, [], [0]⟩
      else .err .invalidOp := by
  unfold makeBaseOp
  simp only
  rw [hi]
  simp only [New, decodeFields, List.lookup, hexutilEncode_nil, hexutilEncode_zero,
    String.reduceBEq, Option.bind, hL.address_string, hL.big_raw, hL.bytes_string]

/-- Below `2 ^ 64` the test `nonce.Int64() == 0` is the test `nonce == 0`. -/
theorem bigInt64_eq_zero_iff (n : Int) (h0 : 0 ≤ n) (h1 : n < 2 ^ 64) :
    bigInt64 n = 0 ↔ n = 0 := by
  unfold bigInt64 wrapInt64
  have hn : ((n.natAbs % 2 ^ 64 : Nat) : Int) = n := by omega
  simp only [hn]
  have hm : n % 2 ^ 64 = n := Int.emod_eq_of_lt h0 h1
  rw [if_neg (by omega), hm]
  split_ifs <;> omega

/-- For a nonce from 0 to `2 ^ 64 - 1` and a salt that is not nil, the Operation built by
`makeBaseOp` has a non-empty init-code exactly when the nonce is 0. -/
theorem makeBaseOp_initCode_coupling_below_two_pow_64 (L : Lib) (hL : CodecLaws L) (nonce : Int)
    (h0 : 0 ≤ nonce) (h1 : nonce < 2 ^ 64) (owner sender : Address)
    (salt callGasLimit maxFeePerGas : Int) (callData : Bytes) (op : UserOperation)
    (h : makeBaseOp L (some nonce) owner sender (some salt) callGasLimit maxFeePerGas callData
      = .ok op) :
    (nonce = 0 → op.initCode ≠ []) ∧ (0 < nonce → op.initCode = []) := by
  obtain ⟨initCode, hi, hop⟩ := makeBaseOp_ok L hL _ _ _ _ _ _ _ _ h
  subst hop
  constructor
  · intro hz
    rw [if_pos ((bigInt64_eq_zero_iff nonce h0 h1).2 hz)] at hi
    simp only [MakeInitCode, Method.Encode, createAccountMethod, argsMatch, AbiValue.hasType,
      Bool.and_self, if_true, Res.ok.injEq] at hi
    intro hnil
    simp only at hnil
    rw [hnil] at hi
    have := congrArg List.length hi
    simp [L.DefaultAccountFactory.size] at this
  · intro hpos
    rw [if_neg (fun hb => by have := (bigInt64_eq_zero_iff nonce h0 h1).1 hb; omega)] at hi
    simp only [Res.ok.injEq] at hi
    exact hi.symm

theorem bigInt64_two_pow_64 : bigInt64 (2 ^ 64) = 0 := by decide

/-- C2 (failing input). With the nonce `2 ^ 64`, which is positive, `makeBaseOp` takes the
branch meant for the nonce zero: the Operation it returns carries the init-code made by
`MakeInitCode`, which is not empty. -/
theorem makeBaseOp_initCode_nonce_two_pow_64 (L : Lib) (hL : CodecLaws L)
    (owner sender : Address) (salt callGasLimit maxFeePerGas : Int) (callData : Bytes)
    (op : UserOperation)
    (h : makeBaseOp L (some (2 ^ 64)) owner sender (some salt) callGasLimit maxFeePerGas callData
      = .ok op) :
    op.nonce = 2 ^ 64 ∧ 0 < op.nonce ∧ op.initCode ≠ [] ∧
      MakeInitCode L L.DefaultAccountFactory owner (some salt) = .ok op.initCode := by
  obtain ⟨initCode, hi, hop⟩ := makeBaseOp_ok L hL _ _ _ _ _ _ _ _ h
  rw [if_pos bigInt64_two_pow_64] at hi
  subst hop
  refine ⟨rfl, by show (0 : Int) < 2 ^ 64; decide, ?_, hi⟩
  simp only [MakeInitCode, Method.Encode, createAccountMethod, argsMatch, AbiValue.hasType,
    Bool.and_self, if_true, Res.ok.injEq] at hi
  intro hnil
  simp only at hnil
  rw [hnil] at hi
  have := congrArg List.length hi
  simp [L.DefaultAccountFactory.size] at this

set_option maxRecDepth 100000 in
/-- Witness for the C2 failing input: with the reference instance `makeBaseOp` succeeds for
the nonce `2 ^ 64`, and the Operation has a non-empty init-code. -/
theorem makeBaseOp_initCode_nonce_two_pow_64_witness :
    makeBaseOp refLib (some (2 ^ 64)) exampleOwner exampleSender (some 0) 200000 5 [1, 2, 3]
        = .ok exampleHighNonceOp ∧
      0 < exampleHighNonceOp.nonce ∧ exampleHighNonceOp.initCode ≠ [] := by
  have h : makeBaseOp refLib (some (2 ^ 64)) exampleOwner exampleSender (some 0) 200000 5
      [1, 2, 3] = .ok exampleHighNonceOp := by decide
  obtain ⟨_, h2, h3, _⟩ :=
    makeBaseOp_initCode_nonce_two_pow_64 refLib refLib_codecLaws _ _ _ _ _ _ _ h
  exact ⟨h, h2, h3⟩

/-! ## Lemmas: ABI encoding -/

theorem toU256_natCast (n : Nat) (h : n < 2 ^ 256) : toU256 (n : Int) = numberWord n := by
  unfold toU256 numberWord
  congr 1
  have h2 : ((n : Int)) % 2 ^ 256 = (n : Int) := Int.emod_eq_of_lt (by omega) (by exact_mod_cast h)
  rw [h2]
  simp

/-- The bytes `makeExecute` returns for a method of type `(address,uint256)`. -/
theorem makeExecute_eq (kc : Bytes → Bytes) (target a : Address) (m : Method)
    (hm : m.inputs = [.address, .uint256]) (amount : Nat) (hamt : amount < 2 ^ 256) :
    makeExecute kc target 0 m [.address a, .big amount] =
      .ok ((kc (ascii "execute(address,uint256,bytes)")).take 4 ++ addressWord target ++
        numberWord 0 ++ numberWord 96 ++
        numberWord ((kc m.sig).take 4 ++ addressWord a ++ numberWord amount).length ++
        ((kc m.sig).take 4 ++ addressWord a ++ numberWord amount) ++
        List.replicate
          ((32 - ((kc m.sig).take 4 ++ addressWord a ++ numberWord amount).length % 32) % 32) 0)
    := by
  have hlen : ((kc m.sig).take 4 ++ addressWord a ++ numberWord amount).length < 2 ^ 256 := by
    have : ((kc m.sig).take 4).length ≤ 4 := by simp [List.length_take]
    simp only [List.length_append, addressWord, numberWord, beBytes_length, List.length_replicate,
      a.size]
    omega
  have h0 := toU256_natCast 0 (by decide)
  have h96 := toU256_natCast 96 (by decide)
  have hl := toU256_natCast _ hlen
  have ha := toU256_natCast amount hamt
  simp only [Nat.cast_zero, Nat.cast_ofNat] at h0 h96
  simp only [makeExecute, Method.Encode, hm, argsMatch, AbiValue.hasType, Bool.and_self, if_true,
    Method.ID, abiExec, encodeTuple, encodeTupleAux, AbiValue.isDynamic, AbiValue.body,
    Bool.false_eq_true, if_false, List.length_cons, List.length_nil, List.take_succ_cons,
    List.take_zero, padTo32, h0, ha, List.append_nil, List.append_assoc, addressWord]
  simp only [← List.append_assoc]
  simp only [addressWord, ← List.append_assoc] at hl
  have h96b : toU256 ((32 * (0 + 1 + 1 + 1) : Nat) : Int) = numberWord 96 := h96
  rw [h96b, hl]

theorem beNat_numberWord (n : Nat) (h : n < 2 ^ 256) : beNat (numberWord n) = n := by
  unfold numberWord
  rw [beNat_beBytes]
  exact Nat.mod_eq_of_lt (by simpa using h)

/-- Reading the arguments back from an encoded `(address,uint256)` call. -/
theorem readAddressAmount_call (kc : Bytes → Bytes) (sig : String) (a : Address) (amount : Nat)
    (hamt : amount < 2 ^ 256) :
    readAddressAmount
        ((callAddressAmount kc sig a amount).drop ((kc (ascii sig)).take 4).length) =
      some (a.bytes, amount) := by
  have hd : (callAddressAmount kc sig a amount).drop ((kc (ascii sig)).take 4).length =
      List.replicate 12 0 ++ (a.bytes ++ numberWord amount) := by
    unfold callAddressAmount addressWord
    rw [List.append_assoc, List.drop_left, List.append_assoc]
  have hw : (numberWord amount).length = 32 := beBytes_length _ _
  have h12 : List.take 12 (List.replicate 12 (0 : Byte) ++ (a.bytes ++ numberWord amount)) =
      List.replicate 12 0 := List.take_left' (by simp)
  have hd12 : List.drop 12 (List.replicate 12 (0 : Byte) ++ (a.bytes ++ numberWord amount)) =
      a.bytes ++ numberWord amount := List.drop_left' (by simp)
  have hd32 : List.drop 32 (List.replicate 12 (0 : Byte) ++ (a.bytes ++ numberWord amount)) =
      numberWord amount := by
    rw [← List.append_assoc]
    exact List.drop_left' (by simp [a.size])
  have h20 : List.take 20 (a.bytes ++ numberWord amount) = a.bytes := List.take_left' a.size
  rw [hd]
  unfold readAddressAmount
  rw [h12, hd12, hd32, h20, beNat_numberWord amount hamt]
  simp [a.size, hw]

/-- Reading the arguments back from an encoded `execute` call. -/
theorem readExecute_call (kc : Bytes → Bytes) (target : Address) (value : Nat) (inner : Bytes)
    (hv : value < 2 ^ 256) (hi : inner.length < 2 ^ 256) :
    readExecute ((callExecute kc target value inner).drop
        ((kc (ascii "execute(address,uint256,bytes)")).take 4).length) =
      some (target.bytes, value, inner) := by
  have hd : (callExecute kc target value inner).drop
      ((kc (ascii "execute(address,uint256,bytes)")).take 4).length =
      List.replicate 12 0 ++ (target.bytes ++ (numberWord value ++ (numberWord 96 ++
        (numberWord inner.length ++ (inner ++
          List.replicate ((32 - inner.length % 32) % 32) 0))))) := by
    unfold callExecute addressWord
    simp only [List.append_assoc]
    rw [List.drop_left]
  have hw : ∀ n, (numberWord n).length = 32 := fun n => beBytes_length _ _
  rw [hd]
  generalize List.replicate ((32 - inner.length % 32) % 32) (0 : Byte) = pad
  have h12 : List.take 12 (List.replicate 12 (0 : Byte) ++ (target.bytes ++ (numberWord value ++
      (numberWord 96 ++ (numberWord inner.length ++ (inner ++ pad)))))) = List.replicate 12 0 :=
    List.take_left' (by simp)
  have hd12 : List.drop 12 (List.replicate 12 (0 : Byte) ++ (target.bytes ++ (numberWord value ++
      (numberWord 96 ++ (numberWord inner.length ++ (inner ++ pad)))))) =
      target.bytes ++ (numberWord value ++
      (numberWord 96 ++ (numberWord inner.length ++ (inner ++ pad)))) :=
    List.drop_left' (by simp)
  have hd32 : List.drop 32 (List.replicate 12 (0 : Byte) ++ (target.bytes ++ (numberWord value ++
      (numberWord 96 ++ (numberWord inner.length ++ (inner ++ pad)))))) =
      numberWord value ++ (numberWord 96 ++ (numberWord inner.length ++ (inner ++ pad))) := by
    rw [← List.append_assoc]
    exact List.drop_left' (by simp [target.size])
  have hd64 : List.drop 64 (List.replicate 12 (0 : Byte) ++ (target.bytes ++ (numberWord value ++
      (numberWord 96 ++ (numberWord inner.length ++ (inner ++ pad)))))) =
      numberWord 96 ++ (numberWord inner.length ++ (inner ++ pad)) := by
    rw [← List.append_assoc, ← List.append_assoc]
    exact List.drop_left' (by simp [target.size, hw])
  have hd96 : List.drop 96 (List.replicate 12 (0 : Byte) ++ (target.bytes ++ (numberWord value ++
      (numberWord 96 ++ (numberWord inner.length ++ (inner ++ pad)))))) =
      numberWord inner.length ++ (inner ++ pad) := by
    rw [← List.append_assoc, ← List.append_assoc, ← List.append_assoc]
    exact List.drop_left' (by simp [target.size, hw])
  have hd128 : List.drop (96 + 32) (List.replicate 12 (0 : Byte) ++ (target.bytes ++
      (numberWord value ++ (numberWord 96 ++ (numberWord inner.length ++ (inner ++ pad)))))) =
      inner ++ pad := by
    rw [← List.append_assoc, ← List.append_assoc, ← List.append_assoc, ← List.append_assoc]
    exact List.drop_left' (by simp [target.size, hw])
  have hlen : (List.replicate 12 (0 : Byte) ++ (target.bytes ++ (numberWord value ++
      (numberWord 96 ++ (numberWord inner.length ++ (inner ++ pad)))))).length =
      128 + inner.length + pad.length := by
    simp [target.size, hw]
    omega
  unfold readExecute
  rw [h12, hd12, hd32, hd64]
  simp only [if_true]
  rw [List.take_left' (hw 96), beNat_numberWord 96 (by decide), hd96, hd128,
    List.take_left' (hw inner.length), beNat_numberWord _ hi, List.take_left' (hw value),
    beNat_numberWord _ hv, List.take_left' target.size, List.take_left' rfl, hlen]
  simp

theorem callData_of_build (L : Lib) (hL : CodecLaws L) (nonce : Option Int)
    (owner sender target a : Address) (salt : Option Int) (m : Method) (sig : String)
    (hsig : m.sig = ascii sig) (hm : m.inputs = [.address, .uint256]) (amount : Nat)
    (hamt : amount < 2 ^ 256) (callGasLimit maxFeePerGas : Int) (op : UserOperation)
    (h : (match makeExecute L.keccak256 target 0 m [.address a, .big amount] with
      | .err e => .err e
      | .crash => .crash
      | .ok callData =>
        makeBaseOp L nonce owner sender salt callGasLimit maxFeePerGas callData :
          Res UserOperation) = .ok op) :
    op.callData =
      callExecute L.keccak256 target 0 (callAddressAmount L.keccak256 sig a amount) := by
  rw [makeExecute_eq L.keccak256 target a m hm amount hamt] at h
  simp only at h
  cases nonce with
  | none => simp [makeBaseOp] at h
  | some n =>
    obtain ⟨initCode, _, hop⟩ := makeBaseOp_ok L hL _ _ _ _ _ _ _ _ h
    subst hop
    simp only [callExecute, callAddressAmount, hsig]

/-- What a builder returns: `makeBaseOp` on the wrapped call. -/
theorem build_eq (L : Lib) (nonce : Option Int) (owner sender target a : Address)
    (salt : Option Int) (m : Method) (sig : String) (hsig : m.sig = ascii sig)
    (hm : m.inputs = [.address, .uint256]) (amount : Nat) (hamt : amount < 2 ^ 256)
    (callGasLimit maxFeePerGas : Int) :
    (match makeExecute L.keccak256 target 0 m [.address a, .big amount] with
      | .err e => .err e
      | .crash => .crash
      | .ok callData =>
        makeBaseOp L nonce owner sender salt callGasLimit maxFeePerGas callData :
          Res UserOperation) =
      makeBaseOp L nonce owner sender salt callGasLimit maxFeePerGas
        (callExecute L.keccak256 target 0 (callAddressAmount L.keccak256 sig a amount)) := by
  rw [makeExecute_eq L.keccak256 target a m hm amount hamt]
  simp only [callExecute, callAddressAmount, hsig]

/-- C5. Call wrapping: for every target address, recipient or spender address and amount below
`2 ^ 256`, each of `UserOpMint`, `UserOpTransfer`, `UserOpApprove` and `UserOpWithdrawTo` returns
what `makeBaseOp` returns for the call-data that is the ABI encoding of
`execute(target, 0, inner)`, where `inner` is the ABI encoding of `mint(to, amount)`,
`transfer(to, amount)`, `approve(spender, amount)` and `withdrawTo(to, amount)` respectively, and
the call-data of the Operation a builder returns is that encoding; `makeBaseOp` returns the
Operation with the call-data it was given whenever the init-code step succeeds and `userop.New`
validates the Operation; and reading such call-data back gives the target, the value 0 and
`inner`, and reading `inner` back gives the address and the amount. The decoders of
`userop.New` are assumed to satisfy `CodecLaws`. -/
theorem call_wrapping (L : Lib) (hL : CodecLaws L) (nonce : Option Int)
    (owner sender target toAddr : Address) (salt : Option Int) (amount : Nat)
    (hamt : amount < 2 ^ 256) (gas : Int) :
    (UserOpMint L nonce owner sender target toAddr salt amount =
        makeBaseOp L nonce owner sender salt DefaultMintGasLimit 2000000000
          (callExecute L.keccak256 target 0
            (callAddressAmount L.keccak256 "mint(address,uint256)" toAddr amount)) ∧
      ∀ op, UserOpMint L nonce owner sender target toAddr salt amount = .ok op →
        op.callData = callExecute L.keccak256 target 0
          (callAddressAmount L.keccak256 "mint(address,uint256)" toAddr amount)) ∧
    (UserOpTransfer L nonce owner sender target toAddr salt amount gas =
        makeBaseOp L nonce owner sender salt DefaultTransferGasLimit gas
          (callExecute L.keccak256 target 0
            (callAddressAmount L.keccak256 "transfer(address,uint256)" toAddr amount)) ∧
      ∀ op, UserOpTransfer L nonce owner sender target toAddr salt amount gas = .ok op →
        op.callData = callExecute L.keccak256 target 0
          (callAddressAmount L.keccak256 "transfer(address,uint256)" toAddr amount)) ∧
    (UserOpApprove L nonce owner sender target toAddr salt amount =
        makeBaseOp L nonce owner sender salt DefaultApproveGasLimit 2000000000
          (callExecute L.keccak256 target 0
            (callAddressAmount L.keccak256 "approve(address,uint256)" toAddr amount)) ∧
      ∀ op, UserOpApprove L nonce owner sender target toAddr salt amount = .ok op →
        op.callData = callExecute L.keccak256 target 0
          (callAddressAmount L.keccak256 "approve(address,uint256)" toAddr amount)) ∧
    (UserOpWithdrawTo L nonce owner sender target toAddr salt amount gas =
        makeBaseOp L nonce owner sender salt DefaultWithdrawToGasLimit gas
          (callExecute L.keccak256 target 0
            (callAddressAmount L.keccak256 "withdrawTo(address,uint256)" toAddr amount)) ∧
      ∀ op, UserOpWithdrawTo L nonce owner sender target toAddr salt amount gas = .ok op →
        op.callData = callExecute L.keccak256 target 0
          (callAddressAmount L.keccak256 "withdrawTo(address,uint256)" toAddr amount)) ∧
    (∀ (n : Int) (initCode : Bytes) (callGasLimit maxFeePerGas : Int) (callData : Bytes),
      (if bigInt64 n = 0 then MakeInitCode L L.DefaultAccountFactory owner salt else .ok [])
        = .ok initCode →
      makeBaseOp L (some n) owner sender salt callGasLimit maxFeePerGas callData =
        if L.validate ⟨sender, n, initCode, callData, callGasLimit, 150000 + DefaultInitCodeGas,
            100000, maxFeePerGas, maxFeePerGas, [], [0]⟩ then
          .ok ⟨sender, n, initCode, callData, callGasLimit, 150000 + DefaultInitCodeGas,
            100000, maxFeePerGas, maxFeePerGas, [], [0]⟩
        else .err .invalidOp) ∧
    (∀ sig : String,
      readExecute ((callExecute L.keccak256 target 0
          (callAddressAmount L.keccak256 sig toAddr amount)).drop
          ((L.keccak256 (ascii "execute(address,uint256,bytes)")).take 4).length) =
        some (target.bytes, 0, callAddressAmount L.keccak256 sig toAddr amount) ∧
      readAddressAmount ((callAddressAmount L.keccak256 sig toAddr amount).drop
          ((L.keccak256 (ascii sig)).take 4).length) = some (toAddr.bytes, amount)) := by
  refine ⟨⟨?_, ?_⟩, ⟨?_, ?_⟩, ⟨?_, ?_⟩, ⟨?_, ?_⟩, ?_, ?_⟩
  · exact build_eq L nonce owner sender target toAddr salt mintMethod _ rfl rfl amount hamt _ _
  · intro op h
    exact callData_of_build L hL nonce owner sender target toAddr salt mintMethod _ rfl rfl amount
      hamt _ _ op h
  · exact build_eq L nonce owner sender target toAddr salt transferMethod _ rfl rfl amount hamt
      _ _
  · intro op h
    exact callData_of_build L hL nonce owner sender target toAddr salt transferMethod _ rfl rfl amount
      hamt _ _ op h
  · exact build_eq L nonce owner sender target toAddr salt approveMethod _ rfl rfl amount hamt
      _ _
  · intro op h
    exact callData_of_build L hL nonce owner sender target toAddr salt approveMethod _ rfl rfl amount
      hamt _ _ op h
  · exact build_eq L nonce owner sender target toAddr salt withdrawToMethod _ rfl rfl amount hamt
      _ _
  · intro op h
    exact callData_of_build L hL nonce owner sender target toAddr salt withdrawToMethod _ rfl rfl
      amount hamt _ _ op h
  · intro n initCode callGasLimit maxFeePerGas callData hi
    exact makeBaseOp_eq L hL n owner sender salt callGasLimit maxFeePerGas callData initCode hi
  · intro sig
    refine ⟨readExecute_call _ _ _ _ (by decide) ?_, readAddressAmount_call _ _ _ _ hamt⟩
    have : ((L.keccak256 (ascii sig)).take 4).length ≤ 4 := by simp [List.length_take]
    simp only [callAddressAmount, List.length_append, addressWord, numberWord, beBytes_length,
      List.length_replicate, toAddr.size]
    omega

set_option maxRecDepth 100000 in
/-- Witness for C5: with the reference instance and the nonce 3, each of the four builders
returns an Operation for 1000 units of `exampleToken` and the address `exampleSpender`; its
call-data is `execute(exampleToken, 0, inner)` for the builder's own `inner`, and reading the
call-data of the approval back gives `exampleToken`, 0 and `approve(exampleSpender, 1000)`. -/
theorem call_wrapping_witness :
    UserOpMint refLib (some 3) exampleOwner exampleSender exampleToken exampleSpender (some 1)
        1000 = .ok { exampleApproveOp with
          callData := callExecute refKeccak exampleToken 0
            (callAddressAmount refKeccak "mint(address,uint256)" exampleSpender 1000) } ∧
      UserOpTransfer refLib (some 3) exampleOwner exampleSender exampleToken exampleSpender
        (some 1) 1000 5 = .ok { exampleApproveOp with
          callData := callExecute refKeccak exampleToken 0
            (callAddressAmount refKeccak "transfer(address,uint256)" exampleSpender 1000)
          maxFeePerGas := 5
          maxPriorityFeePerGas := 5 } ∧
      UserOpApprove refLib (some 3) exampleOwner exampleSender exampleToken exampleSpender (some 1)
        1000 = .ok exampleApproveOp ∧
      UserOpWithdrawTo refLib (some 3) exampleOwner exampleSender exampleToken exampleSpender
        (some 1) 1000 5 = .ok { exampleApproveOp with
          callData := callExecute refKeccak exampleToken 0
            (callAddressAmount refKeccak "withdrawTo(address,uint256)" exampleSpender 1000)
          maxFeePerGas := 5
          maxPriorityFeePerGas := 5 } ∧
      exampleApproveOp.callData = callExecute refKeccak exampleToken 0
        (callAddressAmount refKeccak "approve(address,uint256)" exampleSpender 1000) ∧
      readExecute (exampleApproveOp.callData.drop 4) = some (exampleToken.bytes, 0,
        callAddressAmount refKeccak "approve(address,uint256)" exampleSpender 1000) := by
  obtain ⟨h1, h2, h3, h4, _, h6⟩ := call_wrapping refLib refLib_codecLaws (some 3) exampleOwner
    exampleSender exampleToken exampleSpender (some 1) 1000 (by decide) 5
  have ha : UserOpApprove refLib (some 3) exampleOwner exampleSender exampleToken exampleSpender
      (some 1) 1000 = .ok exampleApproveOp := h3.1.trans (by decide)
  exact ⟨h1.1.trans (by decide), h2.1.trans (by decide), ha, h4.1.trans (by decide),
    h3.2 _ ha, (h6 "approve(address,uint256)").1⟩

/-! ## Sponsorship -/

theorem lookup_filter_ne (k k' : String) (m : FieldMap) (h : k ≠ k') :
    List.lookup k (m.filter (fun p => p.1 != k')) = List.lookup k m := by
  induction m with
  | nil => rfl
  | cons p r ih =>
    obtain ⟨pk, pv⟩ := p
    by_cases hp : pk = k'
    · subst hp
      have hk : (k == pk) = false := by simpa using h
      simp [List.filter_cons, List.lookup_cons, hk, ih]
    · have hne : (pk != k') = true := by simpa using hp
      simp only [List.filter_cons, hne, if_true, List.lookup_cons, ih]

theorem lookup_setKey_ne (k k' : String) (v : Val) (m : FieldMap) (h : k ≠ k') :
    List.lookup k (setKey k' v m) = List.lookup k m := by
  have hk : (k == k') = false := by simpa using h
  simp only [setKey, List.lookup_cons, hk, lookup_filter_ne k k' m h]

/-- A key that the sponsor did not return keeps its value through the merge. -/
theorem lookup_mergeResponse (k : String) (opMap pmResp : FieldMap)
    (h : k ∉ pmResp.map Prod.fst) :
    List.lookup k (mergeResponse opMap pmResp) = List.lookup k opMap := by
  unfold mergeResponse
  induction pmResp generalizing opMap with
  | nil => rfl
  | cons p r ih =>
    simp only [List.map_cons, List.mem_cons, not_or] at h
    rw [List.foldl_cons, ih _ h.2, lookup_setKey_ne k p.1 p.2 opMap h.1]

/-- What a successful decoding says about each field. -/
theorem decodeFields_some (L : Lib) (data : FieldMap) (o : UserOperation)
    (h : decodeFields L data = some o) :
    (data.lookup "sender").bind L.decodeAddress = some o.sender ∧
    (data.lookup "nonce").bind L.decodeBig = some o.nonce ∧
    (data.lookup "initCode").bind L.decodeBytes = some o.initCode ∧
    (data.lookup "callData").bind L.decodeBytes = some o.callData ∧
    (data.lookup "callGasLimit").bind L.decodeBig = some o.callGasLimit ∧
    (data.lookup "verificationGasLimit").bind L.decodeBig = some o.verificationGasLimit ∧
    (data.lookup "preVerificationGas").bind L.decodeBig = some o.preVerificationGas ∧
    (data.lookup "maxFeePerGas").bind L.decodeBig = some o.maxFeePerGas ∧
    (data.lookup "maxPriorityFeePerGas").bind L.decodeBig = some o.maxPriorityFeePerGas ∧
    (data.lookup "paymasterAndData").bind L.decodeBytes = some o.paymasterAndData ∧
    (data.lookup "signature").bind L.decodeBytes = some o.signature := by
  unfold decodeFields at h
  split at h
  · rename_i h1 h2 h3 h4 h5 h6 h7 h8 h9 h10 h11
    simp only [Option.some.injEq] at h
    subst h
    exact ⟨h1, h2, h3, h4, h5, h6, h7, h8, h9, h10, h11⟩
  · exact Option.noConfusion h

theorem New_ok (L : Lib) (data : FieldMap) (o : UserOperation) (h : New L data = .ok o) :
    decodeFields L data = some o := by
  unfold New at h
  split at h
  · split_ifs at h
    simp only [Res.ok.injEq] at h
    rw [← h]
    assumption
  · simp at h

/-- A sealed Operation differs from the Operation it was made from in the signature only. -/
theorem UserOpSeal_ok (L : Lib) (op sealed : UserOperation) (cid : Int) (k : Option EcdsaKey)
    (h : UserOpSeal L op cid k = .ok sealed) : ∃ sig, sealed = { op with signature := sig } := by
  unfold UserOpSeal at h
  cases k with
  | none => simp at h
  | some key =>
    simp only at h
    split at h
    · simp at h
    · split at h
      · simp at h
      · simp only [Res.ok.injEq] at h
        exact ⟨_, h.symm⟩

/-- What a successful `getPaymasterInfo` went through. -/
theorem getPaymasterInfo_ok (L : Lib) (hc : HandlerContext) (op newOp : UserOperation)
    (calls : List NetCall) (h : getPaymasterInfo L hc op = (.ok newOp, calls)) :
    ∃ sealed pmResp merged, UserOpSeal L op hc.ChainId hc.EcdsaKey = .ok sealed ∧
      hc.peers.sponsor (sealed.ToMap L) = .ok pmResp ∧
      New L (mergeResponse (sealed.ToMap L) pmResp) = .ok merged ∧
      newOp = { merged with signature := op.signature } ∧
      calls = [.sponsor (sealed.ToMap L)] := by
  unfold getPaymasterInfo at h
  simp only at h
  cases hs : UserOpSeal L op hc.ChainId hc.EcdsaKey with
  | err e => simp [hs] at h
  | crash => simp [hs] at h
  | ok sealed =>
    simp only [hs] at h
    cases hp : hc.peers.sponsor (sealed.ToMap L) with
    | error e => simp [hp] at h
    | ok pmResp =>
      simp only [hp] at h
      cases hn : New L (mergeResponse (sealed.ToMap L) pmResp) with
      | err e => simp [hn] at h
      | crash => simp [hn] at h
      | ok merged =>
        simp only [hn, Prod.mk.injEq, Res.ok.injEq] at h
        exact ⟨sealed, pmResp, merged, rfl, hp, hn, h.1.symm, h.2.symm⟩

/-- Two Operations agree on the field `name` when they agree on the component it names. -/
theorem field_congr (o1 o2 : UserOperation) (name : String)
    (h1 : name = "sender" → o1.sender = o2.sender)
    (h2 : name = "nonce" → o1.nonce = o2.nonce)
    (h3 : name = "initCode" → o1.initCode = o2.initCode)
    (h4 : name = "callData" → o1.callData = o2.callData)
    (h5 : name = "callGasLimit" → o1.callGasLimit = o2.callGasLimit)
    (h6 : name = "verificationGasLimit" → o1.verificationGasLimit = o2.verificationGasLimit)
    (h7 : name = "preVerificationGas" → o1.preVerificationGas = o2.preVerificationGas)
    (h8 : name = "maxFeePerGas" → o1.maxFeePerGas = o2.maxFeePerGas)
    (h9 : name = "maxPriorityFeePerGas" → o1.maxPriorityFeePerGas = o2.maxPriorityFeePerGas)
    (h10 : name = "paymasterAndData" → o1.paymasterAndData = o2.paymasterAndData)
    (h11 : name = "signature" → o1.signature = o2.signature) :
    o1.field name = o2.field name := by
  unfold UserOperation.field
  by_cases c1 : name = "sender"
  · rw [if_pos c1, if_pos c1, h1 c1]
  rw [if_neg c1, if_neg c1]
  by_cases c2 : name = "nonce"
  · rw [if_pos c2, if_pos c2, h2 c2]
  rw [if_neg c2, if_neg c2]
  by_cases c3 : name = "initCode"
  · rw [if_pos c3, if_pos c3, h3 c3]
  rw [if_neg c3, if_neg c3]
  by_cases c4 : name = "callData"
  · rw [if_pos c4, if_pos c4, h4 c4]
  rw [if_neg c4, if_neg c4]
  by_cases c5 : name = "callGasLimit"
  · rw [if_pos c5, if_pos c5, h5 c5]
  rw [if_neg c5, if_neg c5]
  by_cases c6 : name = "verificationGasLimit"
  · rw [if_pos c6, if_pos c6, h6 c6]
  rw [if_neg c6, if_neg c6]
  by_cases c7 : name = "preVerificationGas"
  · rw [if_pos c7, if_pos c7, h7 c7]
  rw [if_neg c7, if_neg c7]
  by_cases c8 : name = "maxFeePerGas"
  · rw [if_pos c8, if_pos c8, h8 c8]
  rw [if_neg c8, if_neg c8]
  by_cases c9 : name = "maxPriorityFeePerGas"
  · rw [if_pos c9, if_pos c9, h9 c9]
  rw [if_neg c9, if_neg c9]
  by_cases c10 : name = "paymasterAndData"
  · rw [if_pos c10, if_pos c10, h10 c10]
  rw [if_neg c10, if_neg c10]
  by_cases c11 : name = "signature"
  · rw [if_pos c11, if_pos c11, h11 c11]
  rw [if_neg c11, if_neg c11]

/-- The fields of an Operation read back from its own map, for keys the sponsor left alone. -/
theorem merged_fields (L : Lib) (hL : CodecLaws L) (sealed merged : UserOperation)
    (pmResp : FieldMap) (hn : New L (mergeResponse (sealed.ToMap L) pmResp) = .ok merged) :
    ("sender" ∉ pmResp.map Prod.fst → merged.sender = sealed.sender) ∧
    ("nonce" ∉ pmResp.map Prod.fst → merged.nonce = sealed.nonce) ∧
    ("initCode" ∉ pmResp.map Prod.fst → merged.initCode = sealed.initCode) ∧
    ("callData" ∉ pmResp.map Prod.fst → merged.callData = sealed.callData) ∧
    ("callGasLimit" ∉ pmResp.map Prod.fst → merged.callGasLimit = sealed.callGasLimit) ∧
    ("verificationGasLimit" ∉ pmResp.map Prod.fst →
      merged.verificationGasLimit = sealed.verificationGasLimit) ∧
    ("preVerificationGas" ∉ pmResp.map Prod.fst →
      merged.preVerificationGas = sealed.preVerificationGas) ∧
    ("maxFeePerGas" ∉ pmResp.map Prod.fst → merged.maxFeePerGas = sealed.maxFeePerGas) ∧
    ("maxPriorityFeePerGas" ∉ pmResp.map Prod.fst →
      merged.maxPriorityFeePerGas = sealed.maxPriorityFeePerGas) ∧
    ("paymasterAndData" ∉ pmResp.map Prod.fst →
      merged.paymasterAndData = sealed.paymasterAndData) := by
  obtain ⟨h1, h2, h3, h4, h5, h6, h7, h8, h9, h10, _⟩ := decodeFields_some L _ _ (New_ok L _ _ hn)
  refine ⟨?_, ?_, ?_, ?_, ?_, ?_, ?_, ?_, ?_, ?_⟩
  · intro hk
    rw [lookup_mergeResponse _ _ _ hk] at h1
    simpa only [UserOperation.ToMap, List.lookup, String.reduceBEq, Option.bind,
      hL.address_string, Option.some.injEq, eq_comm] using h1
  · intro hk
    rw [lookup_mergeResponse _ _ _ hk] at h2
    simpa only [UserOperation.ToMap, List.lookup, String.reduceBEq, Option.bind,
      hL.big_string, Option.some.injEq, eq_comm] using h2
  · intro hk
    rw [lookup_mergeResponse _ _ _ hk] at h3
    simpa only [UserOperation.ToMap, List.lookup, String.reduceBEq, Option.bind,
      hL.bytes_string, Option.some.injEq, eq_comm] using h3
  · intro hk
    rw [lookup_mergeResponse _ _ _ hk] at h4
    simpa only [UserOperation.ToMap, List.lookup, String.reduceBEq, Option.bind,
      hL.bytes_string, Option.some.injEq, eq_comm] using h4
  · intro hk
    rw [lookup_mergeResponse _ _ _ hk] at h5
    simpa only [UserOperation.ToMap, List.lookup, String.reduceBEq, Option.bind,
      hL.big_string, Option.some.injEq, eq_comm] using h5
  · intro hk
    rw [lookup_mergeResponse _ _ _ hk] at h6
    simpa only [UserOperation.ToMap, List.lookup, String.reduceBEq, Option.bind,
      hL.big_string, Option.some.injEq, eq_comm] using h6
  · intro hk
    rw [lookup_mergeResponse _ _ _ hk] at h7
    simpa only [UserOperation.ToMap, List.lookup, String.reduceBEq, Option.bind,
      hL.big_string, Option.some.injEq, eq_comm] using h7
  · intro hk
    rw [lookup_mergeResponse _ _ _ hk] at h8
    simpa only [UserOperation.ToMap, List.lookup, String.reduceBEq, Option.bind,
      hL.big_string, Option.some.injEq, eq_comm] using h8
  · intro hk
    rw [lookup_mergeResponse _ _ _ hk] at h9
    simpa only [UserOperation.ToMap, List.lookup, String.reduceBEq, Option.bind,
      hL.big_string, Option.some.injEq, eq_comm] using h9
  · intro hk
    rw [lookup_mergeResponse _ _ _ hk] at h10
    simpa only [UserOperation.ToMap, List.lookup, String.reduceBEq, Option.bind,
      hL.bytes_string, Option.some.injEq, eq_comm] using h10

/-- C3. Sponsorship preserves caller intent: when `getPaymasterInfo` succeeds, the signature of
the returned Operation is the signature the Operation had before the call (whatever the
temporary seal was and whatever the sponsor returned under the key "signature"), and every
field whose name is not a key of the sponsor response equals that field of the Operation
before the call. The decoders of `userop.New` are assumed to satisfy `CodecLaws`. -/
theorem sponsorship_preserves_caller_intent (L : Lib) (hL : CodecLaws L) (hc : HandlerContext)
    (op newOp : UserOperation) (calls : List NetCall)
    (h : getPaymasterInfo L hc op = (.ok newOp, calls)) :
    newOp.signature = op.signature ∧
      ∃ sealed pmResp, UserOpSeal L op hc.ChainId hc.EcdsaKey = .ok sealed ∧
        hc.peers.sponsor (sealed.ToMap L) = .ok pmResp ∧
        ∀ name : String, name ∉ pmResp.map Prod.fst → newOp.field name = op.field name := by
  obtain ⟨sealed, pmResp, merged, hs, hp, hn, hnew, _⟩ := getPaymasterInfo_ok L hc op newOp calls h
  obtain ⟨sig, hsig⟩ := UserOpSeal_ok L op sealed _ _ hs
  obtain ⟨h1, h2, h3, h4, h5, h6, h7, h8, h9, h10⟩ := merged_fields L hL sealed merged pmResp hn
  subst hnew
  refine ⟨rfl, sealed, pmResp, hs, hp, ?_⟩
  intro name hname
  subst hsig
  apply field_congr
  · intro c; subst c; exact h1 hname
  · intro c; subst c; exact h2 hname
  · intro c; subst c; exact h3 hname
  · intro c; subst c; exact h4 hname
  · intro c; subst c; exact h5 hname
  · intro c; subst c; exact h6 hname
  · intro c; subst c; exact h7 hname
  · intro c; subst c; exact h8 hname
  · intro c; subst c; exact h9 hname
  · intro c; subst c; exact h10 hname
  · intro _; rfl

set_option maxRecDepth 100000 in
/-- Witness for C3: `examplePeers` sponsors `exampleOp`; the result keeps the placeholder
signature although the sponsor returned a signature, and keeps the nonce, which the sponsor
did not return. -/
theorem sponsorship_preserves_caller_intent_witness :
    getPaymasterInfo refLib exampleContext exampleOp =
        (.ok exampleSponsoredOp, [.sponsor (exampleSealed.ToMap refLib)]) ∧
      exampleSponsoredOp.signature = exampleOp.signature ∧
      exampleSponsoredOp.field "nonce" = exampleOp.field "nonce" := by
  have h : getPaymasterInfo refLib exampleContext exampleOp =
      (.ok exampleSponsoredOp, [.sponsor (exampleSealed.ToMap refLib)]) := by decide
  obtain ⟨h1, sealed, pmResp, _, hp, hf⟩ :=
    sponsorship_preserves_caller_intent refLib refLib_codecLaws _ _ _ _ h
  refine ⟨h, h1, hf "nonce" ?_⟩
  have hp : examplePeers.sponsor (sealed.ToMap refLib) = .ok pmResp := hp
  simp only [examplePeers, Except.ok.injEq] at hp
  subst hp
  decide

/-! ## Lemmas: decimal text -/

theorem decimalFold_none (ds : Bytes) :
    List.foldl (fun (acc : Option Nat) (c : Byte) =>
      match acc with
      | some n => if 48 ≤ c.val ∧ c.val ≤ 57 then some (n * 10 + (c.val - 48)) else none
      | none => none) none ds = none := by
  induction ds with
  | nil => rfl
  | cons c r ih => simpa using ih

theorem decimalFold_some (ds : Bytes) (acc : Nat) :
    List.foldl (fun (acc : Option Nat) (c : Byte) =>
      match acc with
      | some n => if 48 ≤ c.val ∧ c.val ≤ 57 then some (n * 10 + (c.val - 48)) else none
      | none => none) (some acc) ds =
      if ∀ c ∈ ds, IsDigit c then
        some (List.foldl (fun acc (c : Byte) => acc * 10 + (c.val - 48)) acc ds)
      else none := by
  induction ds generalizing acc with
  | nil => simp
  | cons c r ih =>
    rw [List.foldl_cons]
    by_cases hc : 48 ≤ c.val ∧ c.val ≤ 57
    · simp only [hc, and_self, if_true, ih, List.mem_cons, forall_eq_or_imp, IsDigit, true_and,
        List.foldl_cons]
    · have : ¬ ∀ x ∈ c :: r, IsDigit x := fun h => hc (h c (by simp))
      simp only [hc, if_false, decimalFold_none, this]

/-- The function `decimalDigits` reads exactly the non-empty strings of decimal digits. -/
theorem decimalDigits_eq (ds : Bytes) :
    decimalDigits ds =
      if ds ≠ [] ∧ ∀ c ∈ ds, IsDigit c then some (decimalNumber ds) else none := by
  cases ds with
  | nil => simp [decimalDigits]
  | cons c r =>
    refine (decimalFold_some (c :: r) 0).trans ?_
    unfold decimalNumber
    simp

/-- The shared grammar reads exactly the base-10 integer strings. -/
theorem signedDecimal_eq (s : Bytes) :
    signedDecimal s = if IsBase10Text s then some (base10Value s) else none := by
  cases s with
  | nil => simp [signedDecimal, IsBase10Text, unsignedPart]
  | cons c r =>
    unfold signedDecimal IsBase10Text base10Value unsignedPart
    by_cases h45 : c.val = 45
    · simp only [h45, if_true, true_or, decimalDigits_eq]
      split_ifs <;> simp
    · by_cases h43 : c.val = 43
      · simp only [h43, if_true, or_true, decimalDigits_eq]
        split_ifs <;> simp_all
      · simp only [h45, h43, if_false, or_self, decimalDigits_eq]
        split_ifs <;> simp

theorem SetString10_eq_none_iff (s : Bytes) : SetString10 s = none ↔ ¬ IsBase10Text s := by
  unfold SetString10
  rw [signedDecimal_eq]
  split_ifs with h <;> simp [h]

/-- The function `handleRequiredSalt` in closed form. -/
theorem handleRequiredSalt_eq (s : Bytes) :
    handleRequiredSalt s =
      if IsBase10Text s ∧ -(2 : Int) ^ 63 ≤ base10Value s ∧ base10Value s < (2 : Int) ^ 63 then
        some (base10Value s)
      else none := by
  unfold handleRequiredSalt Atoi
  rw [signedDecimal_eq]
  by_cases h : IsBase10Text s
  · simp only [h, if_true, true_and]
    split_ifs <;> rfl
  · simp only [h, if_false, false_and]

/-! ## Parameter validation in the handlers -/

theorem HandleGetSenderInfo_none (L : Lib) (hc : HandlerContext) (q : Query)
    (h : handleRequiredAddress L.keccak256 (q "owner") = none) :
    HandleGetSenderInfo L hc q = badRequest := by
  unfold HandleGetSenderInfo
  rw [h]
  rfl

theorem HandleGetSenderAddress_none (L : Lib) (hc : HandlerContext) (q : Query)
    (h : handleRequiredAddress L.keccak256 (q "owner") = none) :
    HandleGetSenderAddress L hc q = badRequest := by
  unfold HandleGetSenderAddress
  rw [h]
  rfl

theorem HandleUserOpApprove_none (L : Lib) (hc : HandlerContext) (q : Query)
    (h : handleRequiredAddress L.keccak256 (q "target") = none ∨
      handleRequiredAddress L.keccak256 (q "spender") = none ∨
      handleRequiredAddress L.keccak256 (q "owner") = none ∨ SetString10 (q "amount") = none) :
    HandleUserOpApprove L hc q = badRequest := by
  unfold HandleUserOpApprove
  simp only
  split
  · rename_i h1 h2 h3 h4
    rw [h1, h2, h3, h4] at h
    simp at h
  · rfl

theorem HandleUserOpWithdrawTo_none (L : Lib) (hc : HandlerContext) (q : Query)
    (h : handleRequiredAddress L.keccak256 (q "target") = none ∨
      handleRequiredAddress L.keccak256 (q "to") = none ∨
      handleRequiredAddress L.keccak256 (q "owner") = none ∨ SetString10 (q "amount") = none) :
    HandleUserOpWithdrawTo L hc q = badRequest := by
  unfold HandleUserOpWithdrawTo
  simp only
  split
  · rename_i h1 h2 h3 h4
    rw [h1, h2, h3, h4] at h
    simp at h
  · rfl

theorem HandleUserOpTransfer_none (L : Lib) (hc : HandlerContext) (q : Query)
    (h : handleRequiredAddress L.keccak256 (q "target") = none ∨
      handleRequiredAddress L.keccak256 (q "to") = none ∨
      handleRequiredAddress L.keccak256 (q "owner") = none ∨ SetString10 (q "amount") = none) :
    HandleUserOpTransfer L hc q = badRequest := by
  unfold HandleUserOpTransfer
  simp only
  split
  · rename_i h1 h2 h3 h4
    rw [h1, h2, h3, h4] at h
    simp at h
  · rfl

/-- C7. Address parameter validation: `handleRequiredAddress` returns an address exactly for
the texts that, once "0x" is put in front of a text not starting with "0x", have 42
characters of which the last 40 are hexadecimal digits denoting 20 bytes that are not all zero,
and the address returned is those 20 bytes; for every other text it returns nothing, and every
handler then answers with a bad request and issues no network call. -/
theorem address_parameter_validation (keccak256 : Bytes → Bytes) (s : Bytes) :
    (∀ a : Address, handleRequiredAddress keccak256 s = some a ↔
      ValidAddressText s ∧ a.bytes = addressOfText s) ∧
    (handleRequiredAddress keccak256 s = none ↔ ¬ ValidAddressText s) ∧
    (∀ (L : Lib) (hc : HandlerContext) (q : Query), ¬ ValidAddressText s →
      (q "owner" = s →
        HandleGetSenderInfo L hc q = badRequest ∧ HandleGetSenderAddress L hc q = badRequest) ∧
      (q "target" = s ∨ q "spender" = s ∨ q "owner" = s →
        HandleUserOpApprove L hc q = badRequest) ∧
      (q "target" = s ∨ q "to" = s ∨ q "owner" = s →
        HandleUserOpWithdrawTo L hc q = badRequest ∧ HandleUserOpTransfer L hc q = badRequest))
    := by
  refine ⟨fun a => handleRequiredAddress_eq_some_iff keccak256 s a,
    handleRequiredAddress_eq_none_iff keccak256 s, ?_⟩
  intro L hc q hs
  have hn : handleRequiredAddress L.keccak256 s = none :=
    (handleRequiredAddress_eq_none_iff L.keccak256 s).2 hs
  refine ⟨?_, ?_, ?_⟩
  · intro ho
    rw [← ho] at hn
    exact ⟨HandleGetSenderInfo_none L hc q hn, HandleGetSenderAddress_none L hc q hn⟩
  · intro h
    apply HandleUserOpApprove_none
    rcases h with h | h | h
    · exact Or.inl (h ▸ hn)
    · exact Or.inr (Or.inl (h ▸ hn))
    · exact Or.inr (Or.inr (Or.inl (h ▸ hn)))
  · intro h
    have : handleRequiredAddress L.keccak256 (q "target") = none ∨
        handleRequiredAddress L.keccak256 (q "to") = none ∨
        handleRequiredAddress L.keccak256 (q "owner") = none ∨
        SetString10 (q "amount") = none := by
      rcases h with h | h | h
      · exact Or.inl (h ▸ hn)
      · exact Or.inr (Or.inl (h ▸ hn))
      · exact Or.inr (Or.inr (Or.inl (h ▸ hn)))
    exact ⟨HandleUserOpWithdrawTo_none L hc q this, HandleUserOpTransfer_none L hc q this⟩

/-- C9. Malformed input is rejected before any network activity: when a required address
parameter of a request is missing, malformed or zero, or (on the userop routes) the amount is
not a base-10 integer string, the handler answers with the bad-request status and issues no
network call. -/
theorem malformed_input_rejected_before_network (L : Lib) (hc : HandlerContext) (q : Query) :
    (¬ ValidAddressText (q "owner") →
      HandleGetSenderInfo L hc q = badRequest ∧ HandleGetSenderAddress L hc q = badRequest) ∧
    (¬ ValidAddressText (q "target") ∨ ¬ ValidAddressText (q "spender") ∨
        ¬ ValidAddressText (q "owner") ∨ ¬ IsBase10Text (q "amount") →
      HandleUserOpApprove L hc q = badRequest) ∧
    (¬ ValidAddressText (q "target") ∨ ¬ ValidAddressText (q "to") ∨
        ¬ ValidAddressText (q "owner") ∨ ¬ IsBase10Text (q "amount") →
      HandleUserOpWithdrawTo L hc q = badRequest ∧ HandleUserOpTransfer L hc q = badRequest) ∧
    badRequest.replies = [.abort 400 .invalidParameters] ∧ badRequest.calls = [] := by
  have hn : ∀ s, ¬ ValidAddressText s → handleRequiredAddress L.keccak256 s = none :=
    fun s => (handleRequiredAddress_eq_none_iff L.keccak256 s).2
  have ha : ¬ IsBase10Text (q "amount") → SetString10 (q "amount") = none :=
    (SetString10_eq_none_iff _).2
  refine ⟨?_, ?_, ?_, rfl, rfl⟩
  · intro h
    exact ⟨HandleGetSenderInfo_none L hc q (hn _ h), HandleGetSenderAddress_none L hc q (hn _ h)⟩
  · intro h
    apply HandleUserOpApprove_none
    rcases h with h | h | h | h
    · exact Or.inl (hn _ h)
    · exact Or.inr (Or.inl (hn _ h))
    · exact Or.inr (Or.inr (Or.inl (hn _ h)))
    · exact Or.inr (Or.inr (Or.inr (ha h)))
  · intro h
    have : handleRequiredAddress L.keccak256 (q "target") = none ∨
        handleRequiredAddress L.keccak256 (q "to") = none ∨
        handleRequiredAddress L.keccak256 (q "owner") = none ∨
        SetString10 (q "amount") = none := by
      rcases h with h | h | h | h
      · exact Or.inl (hn _ h)
      · exact Or.inr (Or.inl (hn _ h))
      · exact Or.inr (Or.inr (Or.inl (hn _ h)))
      · exact Or.inr (Or.inr (Or.inr (ha h)))
    exact ⟨HandleUserOpWithdrawTo_none L hc q this, HandleUserOpTransfer_none L hc q this⟩

/-! ## The salt parameter -/

theorem handleRequiredAddress_of_valid (kc : Bytes → Bytes) (s : Bytes) (h : ValidAddressText s) :
    ∃ a, handleRequiredAddress kc s = some a := by
  cases hr : handleRequiredAddress kc s with
  | none => exact absurd h ((handleRequiredAddress_eq_none_iff kc s).1 hr)
  | some a => exact ⟨a, rfl⟩

theorem SetString10_of_base10 (s : Bytes) (h : IsBase10Text s) :
    SetString10 s = some (base10Value s) := by
  unfold SetString10
  rw [signedDecimal_eq, if_pos h]

theorem handleRequiredSalt_of_not_base10 (s : Bytes) (h : ¬ IsBase10Text s) :
    handleRequiredSalt s = none := by
  rw [handleRequiredSalt_eq, if_neg (fun hh => h hh.1)]

/-- Outside the test mode the resolver first asks for the sender address of the init-code. -/
theorem getOwnerInfo_calls_head (L : Lib) (hc : HandlerContext) (o : Address)
    (salt : Option Int) (code : Bytes) (htc : hc.testContext = [])
    (hcode : MakeInitCode L L.DefaultAccountFactory o salt = .ok code) :
    (getOwnerInfo L hc o salt).2.head? = some (.getSenderAddress code) := by
  unfold getOwnerInfo
  simp only [htc, hcode, List.length_nil, ne_eq, not_true_eq_false, if_false]
  repeat' split
  all_goals rfl

/-- The calls of `HandleUserOpWithdrawTo` start with the calls of the resolver. -/
theorem HandleUserOpWithdrawTo_calls (L : Lib) (hc : HandlerContext) (q : Query)
    (t to' o : Address) (amount : Int)
    (ht : handleRequiredAddress L.keccak256 (q "target") = some t)
    (hto : handleRequiredAddress L.keccak256 (q "to") = some to')
    (ho : handleRequiredAddress L.keccak256 (q "owner") = some o)
    (ha : SetString10 (q "amount") = some amount) :
    ∃ rest, (HandleUserOpWithdrawTo L hc q).calls =
      (getOwnerInfo L hc o (handleRequiredSalt (q "salt"))).2 ++ rest := by
  unfold HandleUserOpWithdrawTo
  simp only [ht, hto, ho, ha]
  rcases getOwnerInfo L hc o (handleRequiredSalt (q "salt")) with ⟨r, calls⟩
  rcases r with ⟨nonce, senderAddr⟩ | e | _
  · simp only
    repeat' split
    all_goals simp only [List.append_assoc]
    all_goals exact ⟨_, rfl⟩
  · exact ⟨[], by simp⟩
  · exact ⟨[], by simp⟩

/-- C10 (failing input). A request to `userop/withdrawto` with well-formed addresses and
amount is never answered with the bad-request status, whatever its salt text is; with a
malformed salt the handler goes on with a nil salt: outside the test mode it calls the
resolver, whose init-code is what `MakeInitCode` makes of a nil salt. -/
theorem malformed_salt_not_rejected (L : Lib) (hc : HandlerContext) (q : Query)
    (ht : ValidAddressText (q "target")) (hto : ValidAddressText (q "to"))
    (ho : ValidAddressText (q "owner")) (ha : IsBase10Text (q "amount"))
    (hs : ¬ IsBase10Text (q "salt")) :
    handleRequiredSalt (q "salt") = none ∧
    (∀ r ∈ (HandleUserOpWithdrawTo L hc q).replies, r.status ≠ StatusBadRequest) ∧
    (hc.testContext = [] →
      (∀ e, L.initCodeNilSalt = .err e →
        HandleUserOpWithdrawTo L hc q = ⟨[.abort StatusInternalServerError e], [], false⟩) ∧
      (L.initCodeNilSalt = .crash → HandleUserOpWithdrawTo L hc q = ⟨[], [], true⟩) ∧
      (∀ code, L.initCodeNilSalt = .ok code →
        (HandleUserOpWithdrawTo L hc q).calls.head? = some (.getSenderAddress code))) := by
  obtain ⟨t, ht'⟩ := handleRequiredAddress_of_valid L.keccak256 _ ht
  obtain ⟨to', hto'⟩ := handleRequiredAddress_of_valid L.keccak256 _ hto
  obtain ⟨o, ho'⟩ := handleRequiredAddress_of_valid L.keccak256 _ ho
  have ha' := SetString10_of_base10 _ ha
  have hs' := handleRequiredSalt_of_not_base10 _ hs
  refine ⟨hs', ?_, ?_⟩
  · intro r hr
    unfold HandleUserOpWithdrawTo at hr
    simp only [ht', hto', ho', ha'] at hr
    repeat' split at hr
    all_goals
      simp only [List.mem_singleton, List.not_mem_nil] at hr
    all_goals
      subst hr
      simp [Reply.status, StatusBadRequest, StatusInternalServerError, StatusOK]
  · intro htc
    refine ⟨?_, ?_, ?_⟩
    · intro e he
      unfold HandleUserOpWithdrawTo
      simp only [ht', hto', ho', ha', hs', getOwnerInfo, htc, MakeInitCode, he, List.length_nil,
        ne_eq, not_true_eq_false, if_false]
    · intro he
      unfold HandleUserOpWithdrawTo
      simp only [ht', hto', ho', ha', hs', getOwnerInfo, htc, MakeInitCode, he, List.length_nil,
        ne_eq, not_true_eq_false, if_false]
    · intro code he
      obtain ⟨rest, hrest⟩ := HandleUserOpWithdrawTo_calls L hc q t to' o _ ht' hto' ho' ha'
      have hh := getOwnerInfo_calls_head L hc o none code htc (by simp only [MakeInitCode, he])
      rw [hrest, hs']
      cases hg : (getOwnerInfo L hc o none).2 with
      | nil => rw [hg] at hh; simp at hh
      | cons c r =>
        rw [hg] at hh
        simpa using hh

set_option maxRecDepth 100000 in
/-- Witness for the C10 failing input: in the test mode with the nonce 3, the request with the
salt "abc" is answered with the status 200 after a gas-price call and a sponsor call. -/
theorem malformed_salt_not_rejected_witness :
    handleRequiredSalt (ascii "abc") = none ∧
      (HandleUserOpWithdrawTo refLib exampleTestContext (exampleQuery (ascii "abc"))).replies.map
        Reply.status = [StatusOK] ∧
      (HandleUserOpWithdrawTo refLib exampleTestContext (exampleQuery (ascii "abc"))).calls.length
        = 2 ∧
      ∀ r ∈ (HandleUserOpWithdrawTo refLib exampleTestContext
        (exampleQuery (ascii "abc"))).replies, r.status ≠ StatusBadRequest :=
  ⟨by decide, by decide, by decide,
    (malformed_salt_not_rejected refLib exampleTestContext (exampleQuery (ascii "abc"))
      (by decide) (by decide) (by decide) (by decide) (by decide)).2.1⟩

set_option maxRecDepth 100000 in
/-- For an absent salt parameter `handleRequiredSalt` returns nil, not the integer zero; and
for the base-10 integer `2 ^ 63` it returns nil, not that integer. -/
theorem handleRequiredSalt_examples :
    handleRequiredSalt (ascii "") = none ∧ handleRequiredSalt (ascii "") ≠ some 0 ∧
      IsBase10Text (ascii "9223372036854775808") ∧
      base10Value (ascii "9223372036854775808") = 2 ^ 63 ∧
      handleRequiredSalt (ascii "9223372036854775808") = none := by
  decide

/-- The handlers use the salt text only through the value of `handleRequiredSalt`: two requests
that differ in the salt text alone, with the same value, are handled alike. -/
theorem salt_text_only_through_value (L : Lib) (hc : HandlerContext) (q q2 : Query)
    (hq : ∀ name : String, name ≠ "salt" → q name = q2 name)
    (hsalt : handleRequiredSalt (q "salt") = handleRequiredSalt (q2 "salt")) :
    HandleGetSenderInfo L hc q = HandleGetSenderInfo L hc q2 ∧
    HandleGetSenderAddress L hc q = HandleGetSenderAddress L hc q2 ∧
    HandleUserOpApprove L hc q = HandleUserOpApprove L hc q2 ∧
    HandleUserOpWithdrawTo L hc q = HandleUserOpWithdrawTo L hc q2 ∧
    HandleUserOpTransfer L hc q = HandleUserOpTransfer L hc q2 := by
  have h1 : q "owner" = q2 "owner" := hq _ (by decide)
  have h2 : q "target" = q2 "target" := hq _ (by decide)
  have h3 : q "spender" = q2 "spender" := hq _ (by decide)
  have h4 : q "to" = q2 "to" := hq _ (by decide)
  have h5 : q "amount" = q2 "amount" := hq _ (by decide)
  refine ⟨?_, ?_, ?_, ?_, ?_⟩
  · unfold HandleGetSenderInfo
    rw [h1, hsalt]
  · unfold HandleGetSenderAddress
    rw [h1, hsalt]
  · unfold HandleUserOpApprove
    rw [h1, h2, h3, h5, hsalt]
  · unfold HandleUserOpWithdrawTo
    rw [h1, h2, h4, h5, hsalt]
  · unfold HandleUserOpTransfer
    rw [h1, h2, h4, h5, hsalt]

/-- In the test mode the resolver answers from the test context and issues no call. -/
theorem getOwnerInfo_test (L : Lib) (hc : HandlerContext) (o : Address) (salt : Option Int)
    (htc : hc.testContext ≠ []) :
    getOwnerInfo L hc o salt =
      (.ok (SetString10 (mapGet hc.testContext "nonce"),
        HexToAddress (mapGet hc.testContext "sender")), []) := by
  unfold getOwnerInfo
  rw [if_pos (fun h => htc (List.length_eq_zero.mp h))]

/-- Outside the test mode the resolver returns the error of `MakeInitCode` before any call. -/
theorem getOwnerInfo_err (L : Lib) (hc : HandlerContext) (o : Address) (salt : Option Int)
    (e : Err) (htc : hc.testContext = [])
    (h : MakeInitCode L L.DefaultAccountFactory o salt = .err e) :
    getOwnerInfo L hc o salt = (.err e, []) := by
  unfold getOwnerInfo
  simp only [htc, h, List.length_nil, ne_eq, not_true_eq_false, if_false]

/-- Outside the test mode a panic of `MakeInitCode` ends the resolver before any call. -/
theorem getOwnerInfo_crash (L : Lib) (hc : HandlerContext) (o : Address) (salt : Option Int)
    (htc : hc.testContext = []) (h : MakeInitCode L L.DefaultAccountFactory o salt = .crash) :
    getOwnerInfo L hc o salt = (.crash, []) := by
  unfold getOwnerInfo
  simp only [htc, h, List.length_nil, ne_eq, not_true_eq_false, if_false]

theorem head?_append_of_head? {α : Type} (xs rest : List α) (c : α) (h : xs.head? = some c) :
    (xs ++ rest).head? = some c := by
  cases xs with
  | nil => simp at h
  | cons x xs => simpa using h

/-- The calls of `HandleGetSenderInfo` are the calls of the resolver. -/
theorem HandleGetSenderInfo_calls (L : Lib) (hc : HandlerContext) (q : Query) (o : Address)
    (ho : handleRequiredAddress L.keccak256 (q "owner") = some o) :
    (HandleGetSenderInfo L hc q).calls =
      (getOwnerInfo L hc o (handleRequiredSalt (q "salt"))).2 := by
  unfold HandleGetSenderInfo
  simp only [ho]
  rcases getOwnerInfo L hc o (handleRequiredSalt (q "salt")) with ⟨r, calls⟩
  rcases r with ⟨nonce, senderAddr⟩ | e | _
  · cases nonce <;> rfl
  · rfl
  · rfl

/-- The calls of `HandleUserOpApprove` are the calls of the resolver. -/
theorem HandleUserOpApprove_calls (L : Lib) (hc : HandlerContext) (q : Query)
    (t sp o : Address) (amount : Int)
    (ht : handleRequiredAddress L.keccak256 (q "target") = some t)
    (hsp : handleRequiredAddress L.keccak256 (q "spender") = some sp)
    (ho : handleRequiredAddress L.keccak256 (q "owner") = some o)
    (ha : SetString10 (q "amount") = some amount) :
    (HandleUserOpApprove L hc q).calls =
      (getOwnerInfo L hc o (handleRequiredSalt (q "salt"))).2 := by
  unfold HandleUserOpApprove
  simp only [ht, hsp, ho, ha]
  rcases getOwnerInfo L hc o (handleRequiredSalt (q "salt")) with ⟨r, calls⟩
  rcases r with ⟨nonce, senderAddr⟩ | e | _
  · simp only
    split <;> rfl
  · rfl
  · rfl

/-- The calls of `HandleUserOpTransfer` start with the calls of the resolver. -/
theorem HandleUserOpTransfer_calls (L : Lib) (hc : HandlerContext) (q : Query)
    (t toAddr o : Address) (amount : Int)
    (ht : handleRequiredAddress L.keccak256 (q "target") = some t)
    (hto : handleRequiredAddress L.keccak256 (q "to") = some toAddr)
    (ho : handleRequiredAddress L.keccak256 (q "owner") = some o)
    (ha : SetString10 (q "amount") = some amount) :
    ∃ rest, (HandleUserOpTransfer L hc q).calls =
      (getOwnerInfo L hc o (handleRequiredSalt (q "salt"))).2 ++ rest := by
  unfold HandleUserOpTransfer
  simp only [ht, hto, ho, ha]
  rcases getOwnerInfo L hc o (handleRequiredSalt (q "salt")) with ⟨r, calls⟩
  rcases r with ⟨nonce, senderAddr⟩ | e | _
  · simp only
    repeat' split
    all_goals simp only [List.append_assoc]
    all_goals exact ⟨_, rfl⟩
  · exact ⟨[], by simp⟩
  · exact ⟨[], by simp⟩

/-- The call-data step of a builder does not fail. -/
theorem makeExecute_ok (kc : Bytes → Bytes) (target a : Address) (m : Method)
    (hm : m.inputs = [.address, .uint256]) (amount : Int) :
    ∃ callData, makeExecute kc target 0 m [.address a, .big amount] = .ok callData := by
  simp only [makeExecute, Method.Encode, hm, argsMatch, AbiValue.hasType, Bool.and_self, if_true,
    abiExec]
  exact ⟨_, rfl⟩

/-- With a nonce whose `Int64` is zero, `makeBaseOp` returns the error of `MakeInitCode`. -/
theorem makeBaseOp_initCode_err (L : Lib) (n : Int) (owner sender : Address)
    (salt : Option Int) (callGasLimit maxFeePerGas : Int) (callData : Bytes) (e : Err)
    (hn : bigInt64 n = 0) (h : MakeInitCode L L.DefaultAccountFactory owner salt = .err e) :
    makeBaseOp L (some n) owner sender salt callGasLimit maxFeePerGas callData = .err e := by
  unfold makeBaseOp
  simp only [hn, if_true, h]

/-- With a nonce whose `Int64` is zero, a panic of `MakeInitCode` ends `makeBaseOp`. -/
theorem makeBaseOp_initCode_crash (L : Lib) (n : Int) (owner sender : Address)
    (salt : Option Int) (callGasLimit maxFeePerGas : Int) (callData : Bytes)
    (hn : bigInt64 n = 0) (h : MakeInitCode L L.DefaultAccountFactory owner salt = .crash) :
    makeBaseOp L (some n) owner sender salt callGasLimit maxFeePerGas callData = .crash := by
  unfold makeBaseOp
  simp only [hn, if_true, h]

/-- The init-code that `MakeInitCode` makes of a salt that is not nil. -/
theorem MakeInitCode_some (L : Lib) (factory owner : Address) (n : Int) :
    MakeInitCode L factory owner (some n) =
      .ok (factory.bytes ++ ((L.keccak256 (ascii "createAccount(address,uint256)")).take 4 ++
        (addressWord owner ++ toU256 n))) := by
  simp only [MakeInitCode, Method.Encode, createAccountMethod, argsMatch, AbiValue.hasType,
    Bool.and_self, if_true, Method.ID, encodeTuple, encodeTupleAux, AbiValue.isDynamic,
    AbiValue.body, Bool.false_eq_true, if_false, List.length_cons, List.length_nil,
    List.take_succ_cons, List.take_zero, List.append_nil, addressWord]

/-- C8 (failing input). The salt that the handlers pass on is the value of
`handleRequiredSalt` at the salt text, and for an absent salt parameter that value is nil, not
the integer zero. `handleRequiredSalt` returns the integer `n` exactly when the text is a
base-10 integer string that denotes `n` with `-2 ^ 63 ≤ n < 2 ^ 63`, and nil for every other
text, the empty text of an absent parameter included. The resolver and the builder receive
that value: outside the test mode every handler that resolves the account fails, panics or
calls the chain with the init-code just as `MakeInitCode` fails, panics or returns for that
value, and in the test mode with a nonce whose `Int64` is zero the builders do the same with
the init-code of the Operation. For an absent salt the outcome of `MakeInitCode` is its
outcome for nil; for a salt text that denotes `n` it is the init-code of the salt `n`. -/
theorem absent_salt_passed_as_nil (L : Lib) (hc : HandlerContext) (q : Query)
    (t sp toAddr o : Address) (amount : Int)
    (ht : handleRequiredAddress L.keccak256 (q "target") = some t)
    (hsp : handleRequiredAddress L.keccak256 (q "spender") = some sp)
    (hto : handleRequiredAddress L.keccak256 (q "to") = some toAddr)
    (ho : handleRequiredAddress L.keccak256 (q "owner") = some o)
    (ha : SetString10 (q "amount") = some amount) :
    handleRequiredSalt (q "salt") =
      (if IsBase10Text (q "salt") ∧ -(2 : Int) ^ 63 ≤ base10Value (q "salt") ∧
          base10Value (q "salt") < (2 : Int) ^ 63 then
        some (base10Value (q "salt"))
      else none) ∧
    (q "salt" = [] → handleRequiredSalt (q "salt") = none ∧
      MakeInitCode L L.DefaultAccountFactory o (handleRequiredSalt (q "salt")) =
        L.initCodeNilSalt) ∧
    (∀ n, handleRequiredSalt (q "salt") = some n →
      MakeInitCode L L.DefaultAccountFactory o (handleRequiredSalt (q "salt")) = .ok (L.DefaultAccountFactory.bytes ++
        ((L.keccak256 (ascii "createAccount(address,uint256)")).take 4 ++
          (addressWord o ++ toU256 n)))) ∧
    ((∀ e, MakeInitCode L L.DefaultAccountFactory o (handleRequiredSalt (q "salt")) = .err e →
        (HandleGetSenderAddress L hc q).calls = [.getSenderAddress []]) ∧
      (MakeInitCode L L.DefaultAccountFactory o (handleRequiredSalt (q "salt")) = .crash → HandleGetSenderAddress L hc q = ⟨[], [], true⟩) ∧
      (∀ code, MakeInitCode L L.DefaultAccountFactory o (handleRequiredSalt (q "salt")) = .ok code →
        (HandleGetSenderAddress L hc q).calls = [.getSenderAddress code])) ∧
    (hc.testContext = [] →
      (∀ e, MakeInitCode L L.DefaultAccountFactory o (handleRequiredSalt (q "salt")) = .err e →
        HandleGetSenderInfo L hc q = ⟨[.abort StatusInternalServerError e], [], false⟩ ∧
        HandleUserOpApprove L hc q = ⟨[.abort StatusInternalServerError e], [], false⟩ ∧
        HandleUserOpWithdrawTo L hc q = ⟨[.abort StatusInternalServerError e], [], false⟩ ∧
        HandleUserOpTransfer L hc q = ⟨[.abort StatusInternalServerError e], [], false⟩) ∧
      (MakeInitCode L L.DefaultAccountFactory o (handleRequiredSalt (q "salt")) = .crash →
        HandleGetSenderInfo L hc q = ⟨[], [], true⟩ ∧
        HandleUserOpApprove L hc q = ⟨[], [], true⟩ ∧
        HandleUserOpWithdrawTo L hc q = ⟨[], [], true⟩ ∧
        HandleUserOpTransfer L hc q = ⟨[], [], true⟩) ∧
      (∀ code, MakeInitCode L L.DefaultAccountFactory o (handleRequiredSalt (q "salt")) = .ok code →
        (HandleGetSenderInfo L hc q).calls.head? = some (.getSenderAddress code) ∧
        (HandleUserOpApprove L hc q).calls.head? = some (.getSenderAddress code) ∧
        (HandleUserOpWithdrawTo L hc q).calls.head? = some (.getSenderAddress code) ∧
        (HandleUserOpTransfer L hc q).calls.head? = some (.getSenderAddress code))) ∧
    (hc.testContext ≠ [] →
      ∀ n, SetString10 (mapGet hc.testContext "nonce") = some n → bigInt64 n = 0 →
      (∀ e, MakeInitCode L L.DefaultAccountFactory o (handleRequiredSalt (q "salt")) = .err e →
        HandleUserOpApprove L hc q = ⟨[.abort StatusInternalServerError e], [], false⟩ ∧
        ∀ p, hc.peers.gasPrice = .ok p →
          HandleUserOpWithdrawTo L hc q =
            ⟨[.abort StatusInternalServerError e], [.gasPrice], false⟩ ∧
          HandleUserOpTransfer L hc q =
            ⟨[.abort StatusInternalServerError e], [.gasPrice], false⟩) ∧
      (MakeInitCode L L.DefaultAccountFactory o (handleRequiredSalt (q "salt")) = .crash →
        HandleUserOpApprove L hc q = ⟨[], [], true⟩ ∧
        ∀ p, hc.peers.gasPrice = .ok p →
          HandleUserOpWithdrawTo L hc q = ⟨[], [.gasPrice], true⟩ ∧
          HandleUserOpTransfer L hc q = ⟨[], [.gasPrice], true⟩) ∧
      (∀ code, MakeInitCode L L.DefaultAccountFactory o (handleRequiredSalt (q "salt")) = .ok code → CodecLaws L →
        ∃ op : UserOperation, op.initCode = code ∧ op.nonce = n ∧
          HandleUserOpApprove L hc q =
            if L.validate op then ⟨[.json StatusOK (.op (op.ToMap L))], [], false⟩
            else ⟨[.abort StatusInternalServerError .invalidOp], [], false⟩)) := by
  refine ⟨handleRequiredSalt_eq _, ?_, ?_, ⟨?_, ?_, ?_⟩, ?_, ?_⟩
  · intro hs
    have hn : handleRequiredSalt (q "salt") = none := by rw [hs]; decide
    exact ⟨hn, by rw [hn]; rfl⟩
  · intro n hn
    rw [hn]
    exact MakeInitCode_some L _ _ _
  · intro e h
    unfold HandleGetSenderAddress
    simp only [ho, h]
    split <;> rfl
  · intro h
    unfold HandleGetSenderAddress
    simp only [ho, h]
  · intro code h
    unfold HandleGetSenderAddress
    simp only [ho, h]
    split <;> rfl
  · intro htc
    refine ⟨?_, ?_, ?_⟩
    · intro e h
      have hg := getOwnerInfo_err L hc o _ e htc h
      refine ⟨?_, ?_, ?_, ?_⟩
      · unfold HandleGetSenderInfo
        simp only [ho, hg]
      · unfold HandleUserOpApprove
        simp only [ht, hsp, ho, ha, hg]
      · unfold HandleUserOpWithdrawTo
        simp only [ht, hto, ho, ha, hg]
      · unfold HandleUserOpTransfer
        simp only [ht, hto, ho, ha, hg]
    · intro h
      have hg := getOwnerInfo_crash L hc o _ htc h
      refine ⟨?_, ?_, ?_, ?_⟩
      · unfold HandleGetSenderInfo
        simp only [ho, hg]
      · unfold HandleUserOpApprove
        simp only [ht, hsp, ho, ha, hg]
      · unfold HandleUserOpWithdrawTo
        simp only [ht, hto, ho, ha, hg]
      · unfold HandleUserOpTransfer
        simp only [ht, hto, ho, ha, hg]
    · intro code h
      have hh := getOwnerInfo_calls_head L hc o _ code htc h
      refine ⟨?_, ?_, ?_, ?_⟩
      · rw [HandleGetSenderInfo_calls L hc q o ho]
        exact hh
      · rw [HandleUserOpApprove_calls L hc q t sp o amount ht hsp ho ha]
        exact hh
      · obtain ⟨rest, hrest⟩ := HandleUserOpWithdrawTo_calls L hc q t toAddr o amount ht hto ho ha
        rw [hrest]
        exact head?_append_of_head? _ _ _ hh
      · obtain ⟨rest, hrest⟩ := HandleUserOpTransfer_calls L hc q t toAddr o amount ht hto ho ha
        rw [hrest]
        exact head?_append_of_head? _ _ _ hh
  · intro htc n hnonce hn
    have hg := getOwnerInfo_test L hc o (handleRequiredSalt (q "salt")) htc
    rw [hnonce] at hg
    obtain ⟨cdA, hcdA⟩ := makeExecute_ok L.keccak256 t sp approveMethod rfl amount
    obtain ⟨cdW, hcdW⟩ := makeExecute_ok L.keccak256 t toAddr withdrawToMethod rfl amount
    obtain ⟨cdT, hcdT⟩ := makeExecute_ok L.keccak256 t toAddr transferMethod rfl amount
    refine ⟨?_, ?_, ?_⟩
    · intro e h
      refine ⟨?_, ?_⟩
      · unfold HandleUserOpApprove
        simp only [ht, hsp, ho, ha, hg, UserOpApprove, hcdA,
          makeBaseOp_initCode_err L n o _ _ _ _ _ e hn h]
      · intro p hp
        refine ⟨?_, ?_⟩
        · unfold HandleUserOpWithdrawTo
          simp only [ht, hto, ho, ha, hg, getGasPrice, hp, UserOpWithdrawTo, hcdW,
            makeBaseOp_initCode_err L n o _ _ _ _ _ e hn h, List.nil_append]
        · unfold HandleUserOpTransfer
          simp only [ht, hto, ho, ha, hg, getGasPrice, hp, UserOpTransfer, hcdT,
            makeBaseOp_initCode_err L n o _ _ _ _ _ e hn h, List.nil_append]
    · intro h
      refine ⟨?_, ?_⟩
      · unfold HandleUserOpApprove
        simp only [ht, hsp, ho, ha, hg, UserOpApprove, hcdA,
          makeBaseOp_initCode_crash L n o _ _ _ _ _ hn h]
      · intro p hp
        refine ⟨?_, ?_⟩
        · unfold HandleUserOpWithdrawTo
          simp only [ht, hto, ho, ha, hg, getGasPrice, hp, UserOpWithdrawTo, hcdW,
            makeBaseOp_initCode_crash L n o _ _ _ _ _ hn h, List.nil_append]
        · unfold HandleUserOpTransfer
          simp only [ht, hto, ho, ha, hg, getGasPrice, hp, UserOpTransfer, hcdT,
            makeBaseOp_initCode_crash L n o _ _ _ _ _ hn h, List.nil_append]
    · intro code h hL
      have hb := makeBaseOp_eq L hL n o (HexToAddress (mapGet hc.testContext "sender"))
        (handleRequiredSalt (q "salt")) DefaultApproveGasLimit 2000000000 cdA code
        (by rw [if_pos hn]; exact h)
      refine ⟨⟨HexToAddress (mapGet hc.testContext "sender"), n, code, cdA,
        DefaultApproveGasLimit, 150000 + DefaultInitCodeGas, 100000, 2000000000, 2000000000,
        [], [0]⟩, rfl, rfl, ?_⟩
      unfold HandleUserOpApprove
      simp only [ht, hsp, ho, ha, hg, UserOpApprove, hcdA, hb]
      split_ifs <;> rfl

set_option maxRecDepth 100000 in
/-- Witness for the C8 failing input: with the reference instance, whose `MakeInitCode` fails
for a nil salt, the approve request without a salt parameter is answered with the status 500
before any call, outside the test mode (by the resolver) and in the test mode with the nonce 0
(by the builder), while the same request with the salt "0" is answered with the status 200. -/
theorem absent_salt_passed_as_nil_witness :
    handleRequiredSalt (exampleQuery [] "salt") = none ∧
      handleRequiredSalt (exampleQuery (ascii "0") "salt") = some 0 ∧
      HandleUserOpApprove refLib exampleContext (exampleQuery []) =
        ⟨[.abort StatusInternalServerError .encoding], [], false⟩ ∧
      (HandleUserOpApprove refLib exampleContext (exampleQuery (ascii "0"))).replies.map
        Reply.status = [StatusOK] ∧
      HandleUserOpApprove refLib exampleFreshContext (exampleQuery []) =
        ⟨[.abort StatusInternalServerError .encoding], [], false⟩ ∧
      (HandleUserOpApprove refLib exampleFreshContext (exampleQuery (ascii "0"))).replies.map
        Reply.status = [StatusOK] := by
  obtain ⟨_, habs, _, _, hprod, _⟩ := absent_salt_passed_as_nil refLib exampleContext
    (exampleQuery []) exampleToken exampleSpender exampleSpender exampleOwner 1000 (by decide)
    (by decide) (by decide) (by decide) (by decide)
  obtain ⟨_, _, _, _, _, htest⟩ := absent_salt_passed_as_nil refLib exampleFreshContext
    (exampleQuery []) exampleToken exampleSpender exampleSpender exampleOwner 1000 (by decide)
    (by decide) (by decide) (by decide) (by decide)
  exact ⟨(habs rfl).1, by decide, ((hprod rfl).1 .encoding (habs rfl).2).2.1, by decide,
    ((htest (by decide) 0 (by decide) (by decide)).1 .encoding (habs rfl).2).1, by decide⟩

/-! ## Recovery and authorization in the send handler -/

theorem sendUserOp_calls_dispatch (L : Lib) (hc : HandlerContext) (op : UserOperation) :
    ∃ c ∈ (sendUserOp L hc op).2, c.isDispatch = true := by
  unfold sendUserOp
  simp only
  split_ifs <;> split <;> simp [NetCall.isDispatch]

theorem getOwnerInfo_calls_not_dispatch (L : Lib) (hc : HandlerContext) (o : Address)
    (salt : Option Int) : ∀ c ∈ (getOwnerInfo L hc o salt).2, c.isDispatch = false := by
  unfold getOwnerInfo
  split_ifs
  · simp
  · repeat' split
    all_goals simp [NetCall.isDispatch]

/-- C6. Signature length is a hard precondition of recovery: for an Operation whose signature
does not have exactly 65 bytes, `UserOpEcrecover` returns the canonical hash of the Operation,
the zero address and the error "invalid signature size", whatever the key recovery function
is (it is not consulted); and `HandleUserOpSend` answers such an Operation with the
bad-request status and that error, without any call to the resolver or the dispatcher. -/
theorem signature_length_precondition (L : Lib) (op : UserOperation) (chainId : Int)
    (hlen : op.signature.length ≠ 65) :
    UserOpEcrecover L op chainId =
      ⟨GetUserOpHash L op DefaultEntryPoint chainId, ZeroAddress,
        some (.invalidSignatureSize op.signature.length)⟩ ∧
    (∀ recover : Bytes → Bytes → Except Err Address,
      UserOpEcrecover { L with Ecrecover := recover } op chainId = UserOpEcrecover L op chainId) ∧
    (∀ (hc : HandlerContext) (req : userOpSendRequest), New L req.Op = .ok op →
      HandleUserOpSend L hc (some req) =
        ⟨[.abort StatusBadRequest (.invalidSignatureSize op.signature.length)], [], false⟩) := by
  have h1 : ∀ (L' : Lib) (cid : Int), UserOpEcrecover L' op cid =
      ⟨GetUserOpHash L' op DefaultEntryPoint cid, ZeroAddress,
        some (.invalidSignatureSize op.signature.length)⟩ := by
    intro L' cid
    unfold UserOpEcrecover
    simp only [ne_eq, hlen, not_false_eq_true, if_true]
  refine ⟨h1 L chainId, ?_, ?_⟩
  · intro recover
    rw [h1, h1]
    rfl
  · intro hc req hnew
    unfold HandleUserOpSend
    simp only [hnew, h1 L]

/-- Witness for C6: the placeholder signature of `exampleOp` has one byte. -/
theorem signature_length_precondition_witness :
    exampleOp.signature.length ≠ 65 ∧
      (UserOpEcrecover refLib exampleOp 137).err = some (.invalidSignatureSize 1) ∧
      (UserOpEcrecover refLib exampleOp 137).opHash =
        GetUserOpHash refLib exampleOp DefaultEntryPoint 137 := by
  have h := (signature_length_precondition refLib exampleOp 137 (by decide)).1
  rw [h]
  exact ⟨by decide, rfl, rfl⟩

/-- C4. Authorization check: when the signature of a client-submitted Operation recovers to an
owner address and the resolver returns a sender address for that owner, `HandleUserOpSend`
answers with the bad-request status and issues no dispatch call (simulation, relay, chain) if
that sender address differs from the sender the Operation declares; a dispatch call is issued
only when the two addresses are equal, and then `sendUserOp` is indeed run. -/
theorem authorization_check (L : Lib) (hc : HandlerContext) (req : userOpSendRequest)
    (userOp : UserOperation) (nonce : Option Int) (senderAddr : Address) (calls : List NetCall)
    (hnew : New L req.Op = .ok userOp)
    (hrec : (UserOpEcrecover L userOp hc.ChainId).err = none)
    (hres : getOwnerInfo L hc (UserOpEcrecover L userOp hc.ChainId).addr (some 0) =
      (.ok (nonce, senderAddr), calls)) :
    (senderAddr ≠ userOp.sender →
      HandleUserOpSend L hc (some req) =
        ⟨[.abort StatusBadRequest .senderMismatch], calls, false⟩ ∧
      ∀ c ∈ (HandleUserOpSend L hc (some req)).calls, c.isDispatch = false) ∧
    ((∃ c ∈ (HandleUserOpSend L hc (some req)).calls, c.isDispatch = true) →
      senderAddr = userOp.sender) ∧
    (senderAddr = userOp.sender →
      (HandleUserOpSend L hc (some req)).calls = calls ++ (sendUserOp L hc userOp).2 ∧
      ∃ c ∈ (HandleUserOpSend L hc (some req)).calls, c.isDispatch = true) := by
  have hcalls : ∀ c ∈ calls, c.isDispatch = false := by
    have := getOwnerInfo_calls_not_dispatch L hc (UserOpEcrecover L userOp hc.ChainId).addr
      (some 0)
    rw [hres] at this
    exact this
  have hmis : senderAddr ≠ userOp.sender →
      HandleUserOpSend L hc (some req) =
        ⟨[.abort StatusBadRequest .senderMismatch], calls, false⟩ := by
    intro hne
    have hs : senderAddr.String L.keccak256 ≠ userOp.sender.String L.keccak256 :=
      fun h => hne (Address.String_injective L.keccak256 _ _ h)
    unfold HandleUserOpSend
    simp only [hnew, hrec, hres, ne_eq, hs, not_false_eq_true, if_true]
  refine ⟨?_, ?_, ?_⟩
  · intro hne
    refine ⟨hmis hne, ?_⟩
    rw [hmis hne]
    exact hcalls
  · rintro ⟨c, hc1, hc2⟩
    by_contra hne
    rw [hmis hne] at hc1
    rw [hcalls c hc1] at hc2
    exact Bool.noConfusion hc2
  · intro heq
    have hsend : (HandleUserOpSend L hc (some req)).calls =
        calls ++ (sendUserOp L hc userOp).2 := by
      unfold HandleUserOpSend
      simp only [hnew, hrec, hres, heq, ne_eq, not_true_eq_false, if_false]
      split <;> simp_all
    refine ⟨hsend, ?_⟩
    obtain ⟨c, hc1, hc2⟩ := sendUserOp_calls_dispatch L hc userOp
    exact ⟨c, by rw [hsend]; exact List.mem_append_right _ hc1, hc2⟩

set_option maxRecDepth 100000 in
/-- Witness for C4: the signature of `exampleSealed` recovers to the key 7; a resolver that
returns `exampleToken` for that owner, not the declared `exampleSender`, makes the handler
answer with the bad-request status without any dispatch call, while the resolver of
`exampleContext`, which returns `exampleSender`, lets the Operation be sent to the relay. -/
theorem authorization_check_witness :
    (HandleUserOpSend refLib exampleMismatchContext (some exampleSendRequest)).replies =
        [.abort StatusBadRequest .senderMismatch] ∧
      (∀ c ∈ (HandleUserOpSend refLib exampleMismatchContext (some exampleSendRequest)).calls,
        c.isDispatch = false) ∧
      (HandleUserOpSend refLib exampleContext (some exampleSendRequest)).replies =
        [.json StatusOK (.opHash (ascii "0x01"))] := by
  have h := authorization_check refLib exampleMismatchContext exampleSendRequest exampleSealed
    (some 3) exampleToken
    (getOwnerInfo refLib exampleMismatchContext (refKeyAddress 7) (some 0)).2
    (by decide) (by decide) (by decide)
  have h2 := h.1 (by decide)
  exact ⟨by rw [h2.1], h2.2, by decide⟩

/-! ## Examples -/

set_option maxRecDepth 100000 in
/-- Examples for C7: a prefixed and a bare text of the same address are accepted with the same
result; the empty text, a text with the prefix "0X", the zero address, a text with a
character that is no hexadecimal digit, and a text that is too short are rejected. -/
theorem address_parameter_validation_examples :
    ValidAddressText (ascii "0x5ff137d4b0fdcd49dca30c7cf57e578a026d2789") ∧
      handleRequiredAddress refKeccak (ascii "5FF137D4B0FDCD49DCA30C7CF57E578A026D2789") =
        some DefaultEntryPoint ∧
      handleRequiredAddress refKeccak (ascii "") = none ∧
      handleRequiredAddress refKeccak (ascii "0X5ff137d4b0fdcd49dca30c7cf57e578a026d2789") = none ∧
      handleRequiredAddress refKeccak (ascii "0x0000000000000000000000000000000000000000") = none ∧
      handleRequiredAddress refKeccak (ascii "0x5ff137d4b0fdcd49dca30c7cf57e578a026d278g") = none ∧
      handleRequiredAddress refKeccak (ascii "0x5ff137") = none :=
  ⟨by decide,
    ((address_parameter_validation refKeccak
      (ascii "5FF137D4B0FDCD49DCA30C7CF57E578A026D2789")).1 DefaultEntryPoint).2
      ⟨by decide, by decide⟩,
    by decide, by decide, by decide, by decide, by decide⟩

set_option maxRecDepth 100000 in
/-- Examples for C9: a request without `owner` to `sender-info`, and a request to
`userop/transfer` whose amount is "12a", are answered with the bad-request status and no
network call. -/
theorem malformed_input_examples :
    HandleGetSenderInfo refLib exampleContext (fun _ => []) = badRequest ∧
      HandleUserOpTransfer refLib exampleContext
        (fun name => if name = "amount" then ascii "12a" else exampleQuery [] name) = badRequest :=
  ⟨((malformed_input_rejected_before_network refLib exampleContext (fun _ => [])).1
      (by decide)).1,
    ((malformed_input_rejected_before_network refLib exampleContext
      (fun name => if name = "amount" then ascii "12a" else exampleQuery [] name)).2.2.1
      (Or.inr (Or.inr (Or.inr (by decide))))).2⟩

/-! ## The seal postcondition -/

/-- A signer that satisfies the sign/recover law makes signatures of the assumed shape. -/
theorem SignLaws.shape {L : Lib} (h : SignLaws L) : SignShape L where
  sign_shape sk digest sig hs :=
    ⟨(h.sign_recover sk digest sig hs).1, (h.sign_recover sk digest sig hs).2.1⟩

/-- C13. Seal postcondition: when `UserOpSeal` succeeds, the key is not nil and the signer
returned a signature over the prefixed digest of the canonical hash of the Operation under
`DefaultEntryPoint` and the chain id; the signature of the returned Operation has exactly 65
bytes, its last byte is 27 or 28 (the recovery id of the signer plus 27), its first 64 bytes
are the first 64 bytes of the signature of the signer, and every other field is the field of
the Operation before the call. The signer is assumed to make signatures of 65 bytes with a
recovery id of 0 or 1 (`SignShape`). -/
theorem seal_postcondition (L : Lib) (hL : SignShape L) (op sealed : UserOperation)
    (chainId : Int) (k : Option EcdsaKey) (hseal : UserOpSeal L op chainId k = .ok sealed) :
    ∃ (key : EcdsaKey) (sig : Bytes) (v : Byte), k = some key ∧
      L.Sign key.SK (L.EthSignedMessageHash (GetUserOpHash L op DefaultEntryPoint chainId))
        = .ok sig ∧
      sig.get? 64 = some v ∧
      sealed.signature.length = 65 ∧
      sealed.signature.get? 64 = some (byteOf (v.val + 27)) ∧
      (sealed.signature.get? 64 = some 27 ∨ sealed.signature.get? 64 = some 28) ∧
      sealed.signature.take 64 = sig.take 64 ∧
      sealed = { op with signature := sealed.signature } ∧
      ∀ name : String, name ≠ "signature" → sealed.field name = op.field name := by
  unfold UserOpSeal at hseal
  cases k with
  | none => simp at hseal
  | some key =>
    simp only at hseal
    cases hsign : L.Sign key.SK (L.EthSignedMessageHash
        (GetUserOpHash L op DefaultEntryPoint chainId)) with
    | error e => simp [hsign] at hseal
    | ok sig =>
      obtain ⟨hlen, v, hv, hv1⟩ := hL.sign_shape _ _ _ hsign
      simp only [hsign, hv, Res.ok.injEq] at hseal
      subst hseal
      have hget : (sig.set 64 (byteOf (v.val + 27))).get? 64 = some (byteOf (v.val + 27)) := by
        rw [List.get?_eq_getElem?, List.getElem?_set]
        simp [hlen]
      refine ⟨key, sig, v, rfl, hsign, hv, by simp [hlen], hget, ?_, ?_, rfl, ?_⟩
      · rw [hget]
        have hv01 : v.val = 0 ∨ v.val = 1 := by omega
        rcases hv01 with h0 | h1
        · left
          rw [h0]
          rfl
        · right
          rw [h1]
          rfl
      · simp only [List.set_eq_take_append_cons_drop, hlen]
        simp only [Nat.lt_add_one, Nat.reduceLT, if_true]
        exact List.take_left' (by simp [List.length_take, hlen])
      · intro name hname
        apply field_congr
        all_goals first
          | (intro _; rfl)
          | (intro hc; exact absurd hc hname)

set_option maxRecDepth 100000 in
/-- Witness for C13: the reference signer seals `exampleOp` with the key 7; the sealed
Operation has a signature of 65 bytes that ends in 27. -/
theorem seal_postcondition_witness :
    UserOpSeal refLib exampleOp 137 (some ⟨7⟩) = .ok exampleSealed ∧
      exampleSealed.signature.length = 65 ∧ exampleSealed.signature.get? 64 = some 27 ∧
      exampleSealed.field "callData" = exampleOp.field "callData" := by
  have h : UserOpSeal refLib exampleOp 137 (some ⟨7⟩) = .ok exampleSealed := by decide
  obtain ⟨key, sig, v, _, _, _, hlen, _, _, _, _, hf⟩ :=
    seal_postcondition refLib refLib_signLaws.shape exampleOp exampleSealed 137 _ h
  exact ⟨h, hlen, by decide, hf "callData" (by decide)⟩

/-! ## The recovery id -/

/-- For a signature of 65 bytes, `UserOpEcrecover` is key recovery on `recoverySignature`. -/
theorem UserOpEcrecover_of_length (L : Lib) (op : UserOperation) (chainId : Int)
    (hlen : op.signature.length = 65) :
    UserOpEcrecover L op chainId =
      match L.Ecrecover (L.EthSignedMessageHash (GetUserOpHash L op DefaultEntryPoint chainId))
          (recoverySignature op.signature) with
      | .ok addr => ⟨GetUserOpHash L op DefaultEntryPoint chainId, addr, none⟩
      | .error e => ⟨GetUserOpHash L op DefaultEntryPoint chainId, ZeroAddress, some e⟩ := by
  unfold UserOpEcrecover recoverySignature
  simp only [hlen, ne_eq, not_true_eq_false, if_false]

theorem recoverySignature_set_add (sig : Bytes) (v : Byte) (hlen : sig.length = 65)
    (hv : sig.get? 64 = some v) (hv1 : v.val ≤ 1) :
    recoverySignature (sig.set 64 (byteOf (v.val + 27))) = recoverySignature sig := by
  have hget : (sig.set 64 (byteOf (v.val + 27))).get? 64 = some (byteOf (v.val + 27)) := by
    rw [List.get?_eq_getElem?, List.getElem?_set]
    simp [hlen]
  have hval : (byteOf (v.val + 27)).val = v.val + 27 := byteOf_val_of_lt _ (by omega)
  have hback : byteOf (v.val + 27 - 27) = v := by
    apply Fin.ext
    rw [byteOf_val_of_lt _ (by omega)]
    omega
  unfold recoverySignature
  rw [hget, hv]
  simp only [hval, Nat.le_add_left, if_true, hback, List.set_set]
  rw [if_neg (by omega), set_get?_self_eq sig 64 v hv]

set_option maxRecDepth 100000 in
/-- C14 (counterexample). The signature of `exampleOddIdOp` has 65 bytes and ends in 2; the
recovery id handed to key recovery is 2, as the probing recovery function reports; and for a
last byte of 30 the recovery id handed on is 3. -/
theorem recovery_id_counterexample :
    exampleOddIdOp.signature.length = 65 ∧ exampleOddIdOp.signature.get? 64 = some 2 ∧
      (recoverySignature exampleOddIdOp.signature).get? 64 = some 2 ∧
      (UserOpEcrecover probeLib exampleOddIdOp 137).err = some (.rpc 2) ∧
      (UserOpEcrecover probeLib { exampleOp with signature := List.replicate 64 1 ++ [30] }
        137).err = some (.rpc 3) := by
  decide

/-- C14 (amended). For an Operation with a signature of 65 bytes whose last byte is `v`,
`UserOpEcrecover` hands to key recovery the signature with the first 64 bytes unchanged and the
recovery id `v - 27` when `v` is at least 27, and `v` itself otherwise. That recovery id is 0 or
1 exactly when `v` is 0, 1, 27 or 28: a last byte of 27 or 28 is handed on as 0 or 1, and a last
byte of 0 or 1 unchanged, so the Operation whose last signature byte is 0 or 1 and the
Operation that differs from it only by 27 added to that byte give the same result (hash,
address and error). -/
theorem recovery_id_normalization (L : Lib) (op : UserOperation) (chainId : Int)
    (hlen : op.signature.length = 65) :
    ∃ v : Byte, op.signature.get? 64 = some v ∧
      (UserOpEcrecover L op chainId =
        match L.Ecrecover
            (L.EthSignedMessageHash (GetUserOpHash L op DefaultEntryPoint chainId))
            (recoverySignature op.signature) with
        | .ok addr => ⟨GetUserOpHash L op DefaultEntryPoint chainId, addr, none⟩
        | .error e => ⟨GetUserOpHash L op DefaultEntryPoint chainId, ZeroAddress, some e⟩) ∧
      (recoverySignature op.signature).length = 65 ∧
      (recoverySignature op.signature).take 64 = op.signature.take 64 ∧
      (recoverySignature op.signature).get? 64 =
        some (if 27 ≤ v.val then byteOf (v.val - 27) else v) ∧
      ((∃ r : Byte, (recoverySignature op.signature).get? 64 = some r ∧ r.val ≤ 1) ↔
        v.val = 0 ∨ v.val = 1 ∨ v.val = 27 ∨ v.val = 28) ∧
      (v.val ≤ 1 → recoverySignature op.signature = op.signature) ∧
      (v.val ≤ 1 →
        UserOpEcrecover L { op with signature := op.signature.set 64 (byteOf (v.val + 27)) }
          chainId = UserOpEcrecover L op chainId) := by
  have hsome : ∃ v, op.signature.get? 64 = some v := by
    cases hg : op.signature.get? 64 with
    | some v => exact ⟨v, rfl⟩
    | none =>
      rw [List.get?_eq_getElem?, List.getElem?_eq_none_iff] at hg
      omega
  obtain ⟨v, hv⟩ := hsome
  have hvlt : v.val < 256 := v.isLt
  have hget : (recoverySignature op.signature).get? 64 =
      some (if 27 ≤ v.val then byteOf (v.val - 27) else v) := by
    unfold recoverySignature
    rw [hv]
    simp only
    split_ifs with h27
    · rw [List.get?_eq_getElem?, List.getElem?_set]
      simp [hlen]
    · exact hv
  refine ⟨v, hv, UserOpEcrecover_of_length L op chainId hlen, ?_, ?_, hget, ?_, ?_, ?_⟩
  · unfold recoverySignature
    rw [hv]
    simp only
    split_ifs <;> simp [hlen]
  · unfold recoverySignature
    rw [hv]
    simp only
    split_ifs
    · simp only [List.set_eq_take_append_cons_drop, hlen]
      simp only [Nat.lt_add_one, Nat.reduceLT, if_true]
      exact List.take_left' (by simp [List.length_take, hlen])
    · rfl
  · rw [hget]
    constructor
    · rintro ⟨r, hr, hr1⟩
      simp only [Option.some.injEq] at hr
      subst hr
      split_ifs at hr1 with h27
      · rw [byteOf_val_of_lt _ (by omega)] at hr1
        omega
      · omega
    · intro h
      refine ⟨_, rfl, ?_⟩
      split_ifs with h27
      · rw [byteOf_val_of_lt _ (by omega)]
        omega
      · omega
  · intro hv1
    unfold recoverySignature
    rw [hv]
    simp only
    rw [if_neg (by omega)]
  · intro hv1
    rw [UserOpEcrecover_of_length L op chainId hlen,
      UserOpEcrecover_of_length L _ chainId (by simp [hlen])]
    simp only [GetUserOpHash_signature, recoverySignature_set_add op.signature v hlen hv hv1]

set_option maxRecDepth 100000 in
/-- Witness for C14: the signature of `exampleLowIdOp` has 65 bytes and ends in 1; it is
handed to key recovery as it is, and the same Operation with the last byte 28 gives the same
result. -/
theorem recovery_id_normalization_witness :
    exampleLowIdOp.signature.length = 65 ∧
      recoverySignature exampleLowIdOp.signature = exampleLowIdOp.signature ∧
      UserOpEcrecover probeLib { exampleLowIdOp with signature := List.replicate 64 1 ++ [28] }
        137 = UserOpEcrecover probeLib exampleLowIdOp 137 := by
  obtain ⟨v, hv, _, _, _, _, _, h1, h2⟩ :=
    recovery_id_normalization probeLib exampleLowIdOp 137 (by decide)
  have hv' : v = 1 := by
    have : exampleLowIdOp.signature.get? 64 = some 1 := by decide
    rw [this] at hv
    exact (Option.some.inj hv).symm
  subst hv'
  exact ⟨by decide, h1 (by decide), h2 (by decide)⟩

/-! ## Sponsorship failures -/

/-- C12 (failing input). After a successful temporary seal, a failing sponsor call makes
`getPaymasterInfo` return that error and no Operation; but a sponsor response with which
`userop.New` fails makes it panic (the nil `newOp` is dereferenced) instead of returning an
error, and it returns an Operation only when `userop.New` accepts the merged field map. -/
theorem getPaymasterInfo_unusable_response (L : Lib) (hc : HandlerContext)
    (op sealed : UserOperation)
    (hseal : UserOpSeal L op hc.ChainId hc.EcdsaKey = .ok sealed) :
    (∀ e, hc.peers.sponsor (sealed.ToMap L) = .error e →
      getPaymasterInfo L hc op = (.err e, [.sponsor (sealed.ToMap L)])) ∧
    (∀ pmResp e, hc.peers.sponsor (sealed.ToMap L) = .ok pmResp →
      New L (mergeResponse (sealed.ToMap L) pmResp) = .err e →
      getPaymasterInfo L hc op = (.crash, [.sponsor (sealed.ToMap L)])) ∧
    (∀ newOp calls, getPaymasterInfo L hc op = (.ok newOp, calls) →
      ∃ pmResp merged, hc.peers.sponsor (sealed.ToMap L) = .ok pmResp ∧
        New L (mergeResponse (sealed.ToMap L) pmResp) = .ok merged ∧
        newOp = { merged with signature := op.signature }) := by
  refine ⟨?_, ?_, ?_⟩
  · intro e he
    unfold getPaymasterInfo
    simp only [hseal, he]
  · intro pmResp e hp hn
    unfold getPaymasterInfo
    simp only [hseal, hp, hn]
  · intro newOp calls h
    obtain ⟨sealed2, pmResp, merged, hs, hp, hn, hnew, _⟩ := getPaymasterInfo_ok L hc op newOp calls h
    rw [hseal] at hs
    simp only [Res.ok.injEq] at hs
    subst hs
    exact ⟨pmResp, merged, hp, hn, hnew⟩

set_option maxRecDepth 100000 in
/-- Witness for the C12 failing input: with the reference instance, a sponsor that fails makes
`getPaymasterInfo` return the error; a sponsor that returns a nonce that is no number makes
it panic, and the request to `userop/withdrawto` ends in that panic without any response. -/
theorem getPaymasterInfo_unusable_response_witness :
    getPaymasterInfo refLib exampleFailingSponsorContext exampleOp =
        (.err (.rpc 1), [.sponsor (exampleSealed.ToMap refLib)]) ∧
      New refLib (mergeResponse (exampleSealed.ToMap refLib) [("nonce", .other 0)]) =
        .err .invalidOp ∧
      getPaymasterInfo refLib exampleUnusableSponsorContext exampleOp =
        (.crash, [.sponsor (exampleSealed.ToMap refLib)]) ∧
      (HandleUserOpWithdrawTo refLib exampleUnusableSponsorContext
        (exampleQuery (ascii "1"))).crashed = true ∧
      (HandleUserOpWithdrawTo refLib exampleUnusableSponsorContext
        (exampleQuery (ascii "1"))).replies = [] := by
  have hn : New refLib (mergeResponse (exampleSealed.ToMap refLib) [("nonce", .other 0)]) =
      .err .invalidOp := by decide
  have h1 := getPaymasterInfo_unusable_response refLib exampleFailingSponsorContext exampleOp
    exampleSealed (by decide)
  have h2 := getPaymasterInfo_unusable_response refLib exampleUnusableSponsorContext exampleOp
    exampleSealed (by decide)
  exact ⟨h1.1 _ rfl, hn, h2.2.1 _ _ rfl hn, by decide, by decide⟩

/-! ## Dispatch after sponsorship -/

theorem getGasPrice_calls_not_dispatch (hc : HandlerContext) :
    ∀ c ∈ (getGasPrice hc).2, c.isDispatch = false := by
  unfold getGasPrice
  split <;> simp [NetCall.isDispatch]

theorem getPaymasterInfo_calls_not_dispatch (L : Lib) (hc : HandlerContext)
    (op : UserOperation) : ∀ c ∈ (getPaymasterInfo L hc op).2, c.isDispatch = false := by
  unfold getPaymasterInfo
  simp only
  repeat' split
  all_goals simp [NetCall.isDispatch]

/-- Every call of `sendUserOp` carries the Operation it was given. -/
theorem sendUserOp_calls_carry (L : Lib) (hc : HandlerContext) (op : UserOperation) :
    ∀ c ∈ (sendUserOp L hc op).2, c.carries L op := by
  unfold sendUserOp
  simp only
  split_ifs <;> split <;> simp [NetCall.carries]

/-- The Operation built by `UserOpTransfer` carries the one-byte placeholder signature. -/
theorem UserOpTransfer_signature (L : Lib) (hL : CodecLaws L) (nonce : Option Int)
    (owner sender target toAddr : Address) (salt : Option Int) (amt gas : Int)
    (op : UserOperation)
    (h : UserOpTransfer L nonce owner sender target toAddr salt amt gas = .ok op) :
    op.signature = [0] := by
  unfold UserOpTransfer at h
  split at h
  · simp at h
  · simp at h
  · cases nonce with
    | none => simp [makeBaseOp] at h
    | some n =>
      obtain ⟨initCode, _, hop⟩ := makeBaseOp_ok L hL _ _ _ _ _ _ _ _ h
      rw [hop]

theorem UserOpEcrecover_placeholder (L : Lib) (op : UserOperation) (chainId : Int)
    (h : op.signature = [0]) :
    (UserOpEcrecover L op chainId).err = some (.invalidSignatureSize 1) := by
  unfold UserOpEcrecover
  simp [h]

theorem getPaymasterInfo_signature (L : Lib) (hc : HandlerContext) (op newOp : UserOperation)
    (calls : List NetCall) (h : getPaymasterInfo L hc op = (.ok newOp, calls)) :
    newOp.signature = op.signature := by
  obtain ⟨_, _, _, _, _, _, hnew, _⟩ := getPaymasterInfo_ok L hc op newOp calls h
  rw [hnew]

/-- C11 (failing input). Every Operation that `HandleUserOpTransfer` hands on for simulation,
to the relay or to the chain carries the one-byte placeholder signature that `makeBaseOp`
wrote and `getPaymasterInfo` restored: no seal follows the sponsorship, so `UserOpEcrecover`
on the dispatched Operation fails with "invalid signature size" 1. The decoders of
`userop.New` are assumed to satisfy `CodecLaws`. -/
theorem transfer_dispatches_placeholder (L : Lib) (hL : CodecLaws L) (hc : HandlerContext)
    (q : Query) :
    ∀ c ∈ (HandleUserOpTransfer L hc q).calls, c.isDispatch = true →
      ∃ op : UserOperation, c.carries L op ∧ op.signature = [0] ∧
        (UserOpEcrecover L op hc.ChainId).err = some (.invalidSignatureSize 1) := by
  intro c hmem hdisp
  unfold HandleUserOpTransfer at hmem
  simp only at hmem
  split at hmem
  · rename_i targetAddr toAddr ownerAddr amount _ _ _ _
    have hO := getOwnerInfo_calls_not_dispatch L hc ownerAddr (handleRequiredSalt (q "salt"))
    rcases hgo : getOwnerInfo L hc ownerAddr (handleRequiredSalt (q "salt")) with ⟨r, calls⟩
    rw [hgo] at hmem hO
    simp only at hO
    have hnO : c ∉ calls := fun hm => by rw [hO c hm] at hdisp; exact Bool.noConfusion hdisp
    rcases r with ⟨nonce, senderAddr⟩ | e | _
    · simp only at hmem
      have hG := getGasPrice_calls_not_dispatch hc
      rcases hgp : getGasPrice hc with ⟨g, calls2⟩
      rw [hgp] at hmem hG
      simp only at hG
      have hnG : c ∉ calls2 := fun hm => by rw [hG c hm] at hdisp; exact Bool.noConfusion hdisp
      rcases g with gasPrice | e | _
      · simp only at hmem
        cases hut : UserOpTransfer L nonce ownerAddr senderAddr targetAddr toAddr
            (handleRequiredSalt (q "salt")) amount gasPrice with
        | ok op0 =>
          rw [hut] at hmem
          simp only at hmem
          have hP := getPaymasterInfo_calls_not_dispatch L hc op0
          rcases hpi : getPaymasterInfo L hc op0 with ⟨p, calls3⟩
          rw [hpi] at hmem hP
          simp only at hP
          have hnP : c ∉ calls3 := fun hm => by
            rw [hP c hm] at hdisp; exact Bool.noConfusion hdisp
          rcases p with op | e | _
          · simp only at hmem
            have hS := sendUserOp_calls_carry L hc op
            rcases hsu : sendUserOp L hc op with ⟨⟨reply, err⟩, calls4⟩
            rw [hsu] at hmem hS
            simp only at hS
            have hsig : op.signature = [0] := by
              rw [getPaymasterInfo_signature L hc op0 op calls3 hpi]
              exact UserOpTransfer_signature L hL _ _ _ _ _ _ _ _ _ hut
            have hc4 : c ∈ calls4 := by
              cases err <;> simp only [List.mem_append] at hmem <;> tauto
            exact ⟨op, hS c hc4, hsig, UserOpEcrecover_placeholder L op hc.ChainId hsig⟩
          · simp only [List.mem_append] at hmem
            tauto
          · simp only [List.mem_append] at hmem
            tauto
        | err e =>
          rw [hut] at hmem
          simp only [List.mem_append] at hmem
          tauto
        | crash =>
          rw [hut] at hmem
          simp only [List.mem_append] at hmem
          tauto
      · simp only [List.mem_append] at hmem
        tauto
      · simp only [List.mem_append] at hmem
        tauto
    · exact absurd hmem hnO
    · exact absurd hmem hnO
  · simp at hmem

set_option maxRecDepth 100000 in
/-- Witness for the C11 failing input: in the test mode with the nonce 3, the request
`exampleQuery` to `userop/transfer` succeeds with two responses of status 200, and the relay
is handed `exampleTransferOp`, whose signature is the placeholder and not recoverable. -/
theorem transfer_dispatches_placeholder_witness :
    (HandleUserOpTransfer refLib exampleTestContext (exampleQuery (ascii "1"))).replies =
        [.json StatusOK (.op (exampleTransferOp.ToMap refLib)),
          .json StatusOK (.opHash (ascii "0x01"))] ∧
      NetCall.sendUserOperation (exampleTransferOp.ToMap refLib) ∈
        (HandleUserOpTransfer refLib exampleTestContext (exampleQuery (ascii "1"))).calls ∧
      exampleTransferOp.signature = [0] ∧
      (UserOpEcrecover refLib exampleTransferOp 137).err = some (.invalidSignatureSize 1) ∧
      ∃ op : UserOperation,
        (NetCall.sendUserOperation (exampleTransferOp.ToMap refLib)).carries refLib op ∧
        op.signature = [0] := by
  have hmem : NetCall.sendUserOperation (exampleTransferOp.ToMap refLib) ∈
      (HandleUserOpTransfer refLib exampleTestContext (exampleQuery (ascii "1"))).calls := by
    decide
  obtain ⟨op, h1, h2, _⟩ := transfer_dispatches_placeholder refLib refLib_codecLaws
    exampleTestContext (exampleQuery (ascii "1")) _ hmem rfl
  exact ⟨by decide, hmem, rfl, by decide, op, h1, h2⟩

end Erc4337
